import Mathlib

/-!
# cslibs_ndt_2d: static occupancy NDT grid map

Shallow embedding of `cslibs_ndt_2d/static_maps/occupancy_gridmap.hpp`.

* `double` values are idealised as rationals (`ℚ`): no rounding, no NaN, no infinities.
* `int` indices are unbounded integers (`Int`); `std::size_t` counters are natural numbers.
* Pointers into the sub-grid storages are handles: a bundle slot `k` holds the index of a cell
  of sub-grid storage `k`.
* The mutable members of the class are threaded through explicitly (state passing); the locks
  are not modelled (sequential semantics).
* The field `history` of the map is a ghost variable: it records the calls of the private
  update methods in the order in which they are made, and no operation reads it.
-/

namespace cslibs_ndt_2d

/-! ## Collaborators of the grid map -/

/-- Index of a bundle or of a sub-grid cell: `std::array<int, 2>`. -/
abbrev index_t := Int × Int

/-- Planar point `cslibs_math_2d::Point2d`, with idealised coordinates. -/
structure point_t where
  x : ℚ
  y : ℚ
deriving DecidableEq, Repr

/-- Rigid planar transform `cslibs_math_2d::Transform2d` (collaborator, not among the sources):
a translation and the cosine and sine of the rotation angle. -/
structure transform_t where
  tx : ℚ
  ty : ℚ
  cos : ℚ
  sin : ℚ
deriving DecidableEq, Repr

/-- The pose type is the transform type (`Pose2d = Transform2d`). -/
abbrev pose_t := transform_t

namespace transform_t

/-- Identity transform. -/
def identity : transform_t := ⟨0, 0, 1, 0⟩

/-- Application `T * p`: rotate, then translate. -/
def apply (t : transform_t) (p : point_t) : point_t :=
  ⟨t.cos * p.x - t.sin * p.y + t.tx, t.sin * p.x + t.cos * p.y + t.ty⟩

/-- Translation part `T.translation()`. -/
def translation (t : transform_t) : point_t := ⟨t.tx, t.ty⟩

/-- Inverse transform `T.inverse()`. -/
def inverse (t : transform_t) : transform_t :=
  ⟨-(t.cos * t.tx + t.sin * t.ty), -(-t.sin * t.tx + t.cos * t.ty), t.cos, -t.sin⟩

end transform_t

/-- Modelled from the spec: `cslibs_ndt::Distribution<2>` (cslibs_ndt/common/distribution.hpp is
not among the sources): "mean, covariance, sample count; associative/commutative merge", merged
"by summing sufficient statistics". The statistics kept are the sample count, the coordinate sums
and the sums of the second moments. -/
structure Distribution where
  n : Nat
  sum_x : ℚ
  sum_y : ℚ
  sum_xx : ℚ
  sum_xy : ℚ
  sum_yy : ℚ
deriving DecidableEq, Repr

namespace Distribution

/-- Default constructed distribution: no samples. -/
def empty : Distribution := ⟨0, 0, 0, 0, 0, 0⟩

/-- Adds one sample point: `add(p)`. -/
def add (d : Distribution) (p : point_t) : Distribution :=
  ⟨d.n + 1, d.sum_x + p.x, d.sum_y + p.y,
   d.sum_xx + p.x * p.x, d.sum_xy + p.x * p.y, d.sum_yy + p.y * p.y⟩

/-- Merge of two distributions: `operator +=`. -/
def merge (d e : Distribution) : Distribution :=
  ⟨d.n + e.n, d.sum_x + e.sum_x, d.sum_y + e.sum_y,
   d.sum_xx + e.sum_xx, d.sum_xy + e.sum_xy, d.sum_yy + e.sum_yy⟩

/-- Sample count: `getN()`. -/
def getN (d : Distribution) : Nat := d.n

/-- Mean of the samples: `getMean()`. -/
def getMean (d : Distribution) : point_t := ⟨d.sum_x / d.n, d.sum_y / d.n⟩

end Distribution

/-- Modelled from the spec: `cslibs_ndt::OccupancyDistribution<2>`
(cslibs_ndt/common/occupancy_distribution.hpp is not among the sources): "optional Distribution +
free-hit count + occupied-hit count". -/
structure OccupancyDistribution where
  num_free : Nat
  num_occupied : Nat
  distribution : Option Distribution
deriving DecidableEq, Repr

/-- The cell type of the sub-grid storages: `distribution_t`. -/
abbrev distribution_t := OccupancyDistribution

namespace OccupancyDistribution

/-- Default constructed cell `distribution_t()`: no hits, no distribution. -/
def empty : OccupancyDistribution := ⟨0, 0, none⟩

/-- Free update with a weight: `updateFree(n)`. -/
def updateFree_n (d : OccupancyDistribution) (n : Nat) : OccupancyDistribution :=
  { d with num_free := d.num_free + n }

/-- Free update `updateFree()`: weight one. -/
def updateFree (d : OccupancyDistribution) : OccupancyDistribution :=
  { d with num_free := d.num_free + 1 }

/-- Occupied update with a point: `updateOccupied(p)`. -/
def updateOccupied (d : OccupancyDistribution) (p : point_t) : OccupancyDistribution :=
  { d with num_occupied := d.num_occupied + 1,
           distribution := some ((d.distribution.getD Distribution.empty).add p) }

/-- Occupied update with a distribution: `updateOccupied(d)`, for a non-null `d`. -/
def updateOccupied_d (d : OccupancyDistribution) (e : Distribution) : OccupancyDistribution :=
  { d with num_occupied := d.num_occupied + e.getN,
           distribution := some ((d.distribution.getD Distribution.empty).merge e) }

/-- Accessor `getDistribution()`. -/
def getDistribution (d : OccupancyDistribution) : Option Distribution := d.distribution

/-- Accessor `numOccupied()`. -/
def numOccupied (d : OccupancyDistribution) : Nat := d.num_occupied

end OccupancyDistribution

/-- Inverse sensor model `cslibs_gridmaps::utility::InverseModel` (collaborator): the three
probabilities read through `getProbPrior()`, `getProbFree()` and `getProbOccupied()`. -/
structure inverse_sensor_model_t where
  prob_prior : ℚ
  prob_free : ℚ
  prob_occupied : ℚ
deriving DecidableEq, Repr

namespace inverse_sensor_model_t

/-- Accessor `getProbPrior()`. -/
def getProbPrior (i : inverse_sensor_model_t) : ℚ := i.prob_prior

/-- Accessor `getProbFree()`. -/
def getProbFree (i : inverse_sensor_model_t) : ℚ := i.prob_free

/-- Accessor `getProbOccupied()`. -/
def getProbOccupied (i : inverse_sensor_model_t) : ℚ := i.prob_occupied

end inverse_sensor_model_t

/-- Collaborator functions whose code is not among the sources and whose values the map only
passes on; they are parameters of the embedding.
* `isNormal`: the validity test `Point2d::isNormal()`;
* `line`: the cells visited by the line iterator built from (start, end, step), from its
  construction until `done()` (the template parameter `line_iterator_t`);
* `sample`, `sampleNonNormalized`: the densities of a `Distribution` at a point;
* `getOccupancy`: `OccupancyDistribution::getOccupancy(model)` for a non-null model. -/
structure Env where
  isNormal : point_t → Bool
  line : point_t → point_t → ℚ → List index_t
  sample : Distribution → point_t → ℚ
  sampleNonNormalized : Distribution → point_t → ℚ
  getOccupancy : OccupancyDistribution → inverse_sensor_model_t → ℚ

/-- Modelled from the spec: `cslibs_math::common::div` (cslibs_math/common/div.hpp is not among
the sources), the "divide-by-2" of the "even/odd decomposition": the quotient rounded down,
for a positive divisor. -/
def div (a b : Int) : Int := a / b

/-- Modelled from the spec: `cslibs_math::common::mod` (cslibs_math/common/mod.hpp is not among
the sources), the "modulo-2" of the "even/odd decomposition", which selects "the cell offset by
0 or 1": the non-negative remainder, for a positive divisor. -/
def mod (a b : Int) : Int := a % b

/-! ## Sparse indexed storage -/

/-- Modelled from the spec: the sparse storage `cis::Storage` (collaborator): "get(index) ->
optional reference, insert(index, value) -> reference, traverse(visitor over materialized
entries), capacity hint". The entries are kept in the order of their insertion, which is
also the order of traversal. -/
structure Storage (α : Type) where
  array_size : Nat × Nat
  data : List (index_t × α)
deriving DecidableEq, Repr

namespace Storage

variable {α : Type}

/-- Default constructed storage: no entry. -/
def empty : Storage α := ⟨(0, 0), []⟩

/-- Capacity hint: `set<array_size>(w, h)`. -/
def set_array_size (s : Storage α) (w h : Nat) : Storage α := { s with array_size := (w, h) }

/-- Lookup in a list of entries: the first entry with the index. -/
def find : List (index_t × α) → index_t → Option α
  | [], _ => none
  | e :: es, i => if e.1 = i then some e.2 else find es i

/-- Lookup `get(index)`: the entry at the index, if materialized. -/
def get (s : Storage α) (i : index_t) : Option α := find s.data i

/-- Insertion `insert(index, value)` of a new entry. -/
def insert (s : Storage α) (i : index_t) (v : α) : Storage α :=
  { s with data := s.data ++ [(i, v)] }

/-- Mutation of the entry at an index through a reference obtained from `get` or `insert`. -/
def modify (s : Storage α) (i : index_t) (f : α → α) : Storage α :=
  { s with data := s.data.map (fun e => if e.1 = i then (e.1, f e.2) else e) }

/-- Traversal `traverse(visitor)`: the visitor is run on every materialized entry, in order;
`σ` is the state the visitor mutates. -/
def traverse {σ : Type} (s : Storage α) (visit : σ → index_t → α → σ) (init : σ) : σ :=
  s.data.foldl (fun st e => visit st e.1 e.2) init

end Storage

/-! ## The grid map -/

/-- Storage of one sub-grid: `distribution_storage_t`. -/
abbrev distribution_storage_t := Storage distribution_t

/-- The four sub-grid storages: `distribution_storage_array_t`. -/
abbrev distribution_storage_array_t := Fin 4 → distribution_storage_t

/-- Bundle `cslibs_ndt::Bundle<distribution_t*, 4>`: slot `k` references the cell of sub-grid
`k` with the stored index. -/
structure distribution_bundle_t where
  s0 : index_t
  s1 : index_t
  s2 : index_t
  s3 : index_t
deriving DecidableEq, Repr

/-- Slot access `bundle->at(k)`: the index of the referenced cell of sub-grid `k`. -/
def distribution_bundle_t.slot (b : distribution_bundle_t) : Fin 4 → index_t
  | 0 => b.s0
  | 1 => b.s1
  | 2 => b.s2
  | 3 => b.s3

/-- Storage of the bundles: `distribution_bundle_storage_t`. -/
abbrev distribution_bundle_storage_t := Storage distribution_bundle_t

/-- Ghost record of one call of a private update method. -/
inductive update_t
  | free (bi : index_t) (n : Nat)
  | occupied_point (bi : index_t) (p : point_t)
  | occupied_distribution (bi : index_t) (d : Distribution)
deriving DecidableEq, Repr

/-- Members of the class `OccupancyGridmap`, and the ghost `history`. -/
structure OccupancyGridmap where
  resolution : ℚ
  resolution_inv : ℚ
  bundle_resolution : ℚ
  bundle_resolution_inv : ℚ
  w_T_m : transform_t
  m_T_w : transform_t
  size : Nat × Nat
  storage : distribution_storage_array_t
  bundle_storage : distribution_bundle_storage_t
  history : List update_t

/-- Error raised by the sampling methods:
`std::runtime_error("[OccupancyGridMap]: inverse model not set")`. -/
inductive error_t
  | inverse_model_not_set
deriving DecidableEq, Repr

namespace OccupancyGridmap

/-- Constructor `OccupancyGridmap(origin, resolution, size)`. -/
def mk_pose (origin : pose_t) (resolution : ℚ) (size : Nat × Nat) : OccupancyGridmap :=
  { resolution := resolution
    resolution_inv := 1.0 / resolution
    bundle_resolution := 0.5 * resolution
    bundle_resolution_inv := 1.0 / (0.5 * resolution)
    w_T_m := origin
    m_T_w := origin.inverse
    size := size
    storage := fun k =>
      if k = 0 then (Storage.empty : distribution_storage_t).set_array_size size.1 size.2
      else (Storage.empty : distribution_storage_t).set_array_size (size.1 + 1) (size.2 + 1)
    bundle_storage :=
      (Storage.empty : distribution_bundle_storage_t).set_array_size (size.1 * 2) (size.2 * 2)
    history := [] }

/-- Read access through a slot pointer: the cell of sub-grid `k` at index `i`. -/
def cell (m : OccupancyGridmap) (k : Fin 4) (i : index_t) : Option distribution_t :=
  (m.storage k).get i

/-- Write access through a slot pointer: `f` is applied to the cell of sub-grid `k` at `i`. -/
def modify_cell (m : OccupancyGridmap) (k : Fin 4) (i : index_t)
    (f : distribution_t → distribution_t) : OccupancyGridmap :=
  { m with storage := Function.update m.storage k ((m.storage k).modify i f) }

/-- Sub-grid get-or-create `getAllocate(s, i)`; the returned pointer is the handle `i`. -/
def getAllocate_cell (s : distribution_storage_t) (i : index_t) : distribution_storage_t :=
  match s.get i with
  | some _ => s
  | none => s.insert i OccupancyDistribution.empty

/-- The four slots computed by the lambda `allocate_bundle` for the bundle index `bi`. -/
def bundle_slots (bi : index_t) : distribution_bundle_t :=
  let divx := div bi.1 2
  let divy := div bi.2 2
  let modx := mod bi.1 2
  let mody := mod bi.2 2
  let storage_0_index : index_t := (divx, divy)
  let storage_1_index : index_t := (divx + modx, divy)
  let storage_2_index : index_t := (divx, divy + mody)
  let storage_3_index : index_t := (divx + modx, divy + mody)
  ⟨storage_0_index, storage_1_index, storage_2_index, storage_3_index⟩

/-- The lambda `allocate_bundle` of `getAllocate(bi)`: get-or-create the four sub-grid cells,
then insert the bundle. -/
def allocate_bundle (m : OccupancyGridmap) (bi : index_t) :
    distribution_bundle_t × OccupancyGridmap :=
  let b := bundle_slots bi
  let st0 := m.storage
  let st1 := Function.update st0 0 (getAllocate_cell (st0 0) b.s0)
  let st2 := Function.update st1 1 (getAllocate_cell (st1 1) b.s1)
  let st3 := Function.update st2 2 (getAllocate_cell (st2 2) b.s2)
  let st4 := Function.update st3 3 (getAllocate_cell (st3 3) b.s3)
  (b, { m with storage := st4, bundle_storage := m.bundle_storage.insert bi b })

/-- Bundle get-or-create `getAllocate(bi)`: the bundle and the state after the call. -/
def getAllocate (m : OccupancyGridmap) (bi : index_t) :
    distribution_bundle_t × OccupancyGridmap :=
  match m.bundle_storage.get bi with
  | some bundle => (bundle, m)
  | none => allocate_bundle m bi

/-- Public `getDistributionBundle(bi)`. -/
def getDistributionBundle (m : OccupancyGridmap) (bi : index_t) :
    distribution_bundle_t × OccupancyGridmap :=
  getAllocate m bi

/-- Applies `f` through the four slot pointers of a bundle, slot 0 first. -/
def update_slots (m : OccupancyGridmap) (bundle : distribution_bundle_t)
    (f : distribution_t → distribution_t) : OccupancyGridmap :=
  let m0 := m.modify_cell 0 (bundle.slot 0) f
  let m1 := m0.modify_cell 1 (bundle.slot 1) f
  let m2 := m1.modify_cell 2 (bundle.slot 2) f
  m2.modify_cell 3 (bundle.slot 3) f

/-- Ghost step: appends the record of an update to the history. -/
def record (m : OccupancyGridmap) (u : update_t) : OccupancyGridmap :=
  { m with history := m.history ++ [u] }

/-- Private `updateFree(bi)`. -/
def updateFree (m : OccupancyGridmap) (bi : index_t) : OccupancyGridmap :=
  let bundle := (getAllocate m bi).1
  let m1 := (getAllocate m bi).2
  record (update_slots m1 bundle OccupancyDistribution.updateFree) (update_t.free bi 1)

/-- Private `updateFree(bi, n)`. -/
def updateFree_n (m : OccupancyGridmap) (bi : index_t) (n : Nat) : OccupancyGridmap :=
  let bundle := (getAllocate m bi).1
  let m1 := (getAllocate m bi).2
  record (update_slots m1 bundle (fun d => d.updateFree_n n)) (update_t.free bi n)

/-- Private `updateOccupied(bi, p)`. -/
def updateOccupied (m : OccupancyGridmap) (bi : index_t) (p : point_t) : OccupancyGridmap :=
  let bundle := (getAllocate m bi).1
  let m1 := (getAllocate m bi).2
  record (update_slots m1 bundle (fun d => d.updateOccupied p)) (update_t.occupied_point bi p)

/-- Private `updateOccupied(bi, d)`, for a non-null distribution pointer `d`. -/
def updateOccupied_d (m : OccupancyGridmap) (bi : index_t) (d : Distribution) :
    OccupancyGridmap :=
  let bundle := (getAllocate m bi).1
  let m1 := (getAllocate m bi).2
  record (update_slots m1 bundle (fun c => c.updateOccupied_d d)) (update_t.occupied_distribution bi d)

/-- Private `toBundleIndex(p_w)` in exact arithmetic: the doubles are rationals, no operation
rounds, and `int` is unbounded (`toBundleIndex_double` is the method with the rounding of the
operations and the range of `int`). -/
def toBundleIndex (m : OccupancyGridmap) (p_w : point_t) : index_t :=
  let p_m := m.m_T_w.apply p_w
  (Int.floor (p_m.x * m.bundle_resolution_inv), Int.floor (p_m.y * m.bundle_resolution_inv))

/-- Public `add(start_p, end_p)`: single-beam update. -/
def add (E : Env) (m : OccupancyGridmap) (start_p end_p : point_t) : OccupancyGridmap :=
  let end_index := toBundleIndex m end_p
  let m1 := updateOccupied m end_index end_p
  (E.line (m.m_T_w.apply start_p) (m.m_T_w.apply end_p) m.bundle_resolution).foldl
    (fun st bi => updateFree st bi) m1

/-- First loop of `insert` and `insertVisible`, one point: a valid transformed point is merged
into the cell of the local storage at its bundle index. -/
def accumulate_point (E : Env) (m : OccupancyGridmap) (origin : pose_t)
    (storage : distribution_storage_t) (p : point_t) : distribution_storage_t :=
  let pm := origin.apply p
  if E.isNormal pm then
    let bi := toBundleIndex m pm
    let storage1 :=
      match storage.get bi with
      | some _ => storage
      | none => storage.insert bi OccupancyDistribution.empty
    storage1.modify bi (fun d => d.updateOccupied pm)
  else storage

/-- First loop of `insert` and `insertVisible`: the local storage of merged hits. -/
def accumulate (E : Env) (m : OccupancyGridmap) (origin : pose_t) (points : List point_t) :
    distribution_storage_t :=
  points.foldl (accumulate_point E m origin) Storage.empty

/-- The visitor of `insert`, run on one entry of the local storage. -/
def insert_visit (E : Env) (start_p : point_t) (m : OccupancyGridmap) (bi : index_t)
    (d : distribution_t) : OccupancyGridmap :=
  match d.getDistribution with
  | none => m
  | some dist =>
    let m1 := updateOccupied_d m bi dist
    let n := d.numOccupied
    (E.line start_p (m.m_T_w.apply dist.getMean) m.bundle_resolution).foldl
      (fun st c => updateFree_n st c n) m1

/-- Public `insert(origin, points)`: batch update. -/
def insert (E : Env) (m : OccupancyGridmap) (origin : pose_t) (points : List point_t) :
    OccupancyGridmap :=
  let storage := accumulate E m origin points
  let start_p := m.m_T_w.apply origin.translation
  storage.traverse (insert_visit E start_p) m

/-- The lambda `occupancy` of `insertVisible`: the 4-way mean occupancy of the bundle at `bi`,
which is allocated if absent. A slot of a materialized bundle is never null. -/
def occupancy (E : Env) (ivm : inverse_sensor_model_t) (m : OccupancyGridmap) (bi : index_t) :
    ℚ × OccupancyGridmap :=
  let bundle := (getDistributionBundle m bi).1
  let m1 := (getDistributionBundle m bi).2
  let occ := fun (k : Fin 4) =>
    match m1.cell k (bundle.slot k) with
    | some d => E.getOccupancy d ivm
    | none => 0
  (0.25 * (occ 0 + occ 1 + occ 2 + occ 3), m1)

/-- The index passed to the first call of `occupancy` in `current_visibility`. -/
def current_visibility_x (start_bi bi : index_t) : index_t :=
  (bi.1 + (if bi.1 > start_bi.1 then -1 else 1), bi.2)

/-- The index passed to the second call of `occupancy` in `current_visibility`. -/
def current_visibility_y (start_bi bi : index_t) : index_t :=
  (bi.1, bi.2 + (if bi.2 > start_bi.2 then -1 else 1))

/-- The lambda `current_visibility` of `insertVisible`; the two arguments of `std::min` are
evaluated from left to right. -/
def current_visibility (E : Env) (ivm ivm_visibility : inverse_sensor_model_t)
    (start_bi : index_t) (m : OccupancyGridmap) (bi : index_t) : ℚ × OccupancyGridmap :=
  let r1 := occupancy E ivm m (current_visibility_x start_bi bi)
  let r2 := occupancy E ivm r1.2 (current_visibility_y start_bi bi)
  let occlusion_prob := min r1.1 r2.1
  (ivm_visibility.getProbFree * occlusion_prob +
     ivm_visibility.getProbOccupied * (1.0 - occlusion_prob), r2.2)

/-- The loop `while (!it.done())` of the visitor of `insertVisible` over the remaining cells
of the ray, from the running visibility `visibility`. The second component is `none` when
the visitor returned from inside the loop, and the final visibility otherwise. -/
def insertVisible_walk (E : Env) (ivm ivm_visibility : inverse_sensor_model_t)
    (start_bi : index_t) (n : Nat) :
    List index_t → ℚ → OccupancyGridmap → OccupancyGridmap × Option ℚ
  | [], visibility, m => (m, some visibility)
  | bit :: rest, visibility, m =>
    let cv := current_visibility E ivm ivm_visibility start_bi m bit
    let visibility1 := visibility * cv.1
    if visibility1 < ivm_visibility.getProbPrior then (cv.2, none)
    else insertVisible_walk E ivm ivm_visibility start_bi n rest visibility1
      (updateFree_n cv.2 bit n)

/-- The visitor of `insertVisible`, run on one entry of the local storage. -/
def insertVisible_visit (E : Env) (ivm ivm_visibility : inverse_sensor_model_t)
    (start_bi : index_t) (start_p : point_t) (m : OccupancyGridmap) (bi : index_t)
    (d : distribution_t) : OccupancyGridmap :=
  match d.getDistribution with
  | none => m
  | some dist =>
    let end_p := m.m_T_w.apply dist.getMean
    let n := d.numOccupied
    let w := insertVisible_walk E ivm ivm_visibility start_bi n
      (E.line start_p end_p m.bundle_resolution) 1.0 m
    match w.2 with
    | none => w.1
    | some visibility =>
      let cv := current_visibility E ivm ivm_visibility start_bi w.1 bi
      if visibility * cv.1 ≥ ivm_visibility.getProbPrior then updateOccupied_d cv.2 bi dist
      else cv.2

/-- Public `insertVisible(origin, points, ivm, ivm_visibility)`, for non-null sensor models. -/
def insertVisible (E : Env) (m : OccupancyGridmap) (origin : pose_t) (points : List point_t)
    (ivm ivm_visibility : inverse_sensor_model_t) : OccupancyGridmap :=
  let start_bi := toBundleIndex m origin.translation
  let storage := accumulate E m origin points
  let start_p := m.m_T_w.apply origin.translation
  storage.traverse (insertVisible_visit E ivm ivm_visibility start_bi start_p) m

/-- The lambda `sample` of `sample(p, bi, ivm)`, on the cell a slot points to. -/
def sample_cell (E : Env) (p : point_t) (ivm : inverse_sensor_model_t)
    (d : Option distribution_t) : ℚ :=
  match d with
  | some c =>
    match c.getDistribution with
    | some dist => E.sample dist p * E.getOccupancy c ivm
    | none => 0.0
  | none => 0.0

/-- Public `sample(p, bi, ivm)`: the value or the error, and the state after the call. -/
def sample_bi (E : Env) (m : OccupancyGridmap) (p : point_t) (bi : index_t)
    (ivm : Option inverse_sensor_model_t) : Except error_t ℚ × OccupancyGridmap :=
  match ivm with
  | none => (Except.error error_t.inverse_model_not_set, m)
  | some model =>
    let bundle := (getAllocate m bi).1
    let m1 := (getAllocate m bi).2
    let sample := fun (k : Fin 4) => sample_cell E p model (m1.cell k (bundle.slot k))
    (Except.ok (0.25 * (sample 0 + sample 1 + sample 2 + sample 3)), m1)

/-- Public `sample(p, ivm)`. -/
def sample (E : Env) (m : OccupancyGridmap) (p : point_t)
    (ivm : Option inverse_sensor_model_t) : Except error_t ℚ × OccupancyGridmap :=
  let bi := toBundleIndex m p
  sample_bi E m p bi ivm

/-- The lambda `sampleNonNormalized` of `sampleNonNormalized(p, bi, ivm)`. -/
def sampleNonNormalized_cell (E : Env) (p : point_t) (ivm : inverse_sensor_model_t)
    (d : Option distribution_t) : ℚ :=
  match d with
  | some c =>
    match c.getDistribution with
    | some dist => E.sampleNonNormalized dist p * E.getOccupancy c ivm
    | none => 0.0
  | none => 0.0

/-- Public `sampleNonNormalized(p, bi, ivm)`. -/
def sampleNonNormalized_bi (E : Env) (m : OccupancyGridmap) (p : point_t) (bi : index_t)
    (ivm : Option inverse_sensor_model_t) : Except error_t ℚ × OccupancyGridmap :=
  match ivm with
  | none => (Except.error error_t.inverse_model_not_set, m)
  | some model =>
    let bundle := (getAllocate m bi).1
    let m1 := (getAllocate m bi).2
    let sample := fun (k : Fin 4) => sampleNonNormalized_cell E p model (m1.cell k (bundle.slot k))
    (Except.ok (0.25 * (sample 0 + sample 1 + sample 2 + sample 3)), m1)

/-- Public `sampleNonNormalized(p, ivm)`. -/
def sampleNonNormalized (E : Env) (m : OccupancyGridmap) (p : point_t)
    (ivm : Option inverse_sensor_model_t) : Except error_t ℚ × OccupancyGridmap :=
  let bi := toBundleIndex m p
  sampleNonNormalized_bi E m p bi ivm

/-- Constructor `OccupancyGridmap(origin_x, origin_y, origin_phi, resolution, size)`; `cos`
and `sin` are the functions with which the transform is built from the angle. -/
def mk_xyphi (cos sin : ℚ → ℚ) (origin_x origin_y origin_phi resolution : ℚ)
    (size : Nat × Nat) : OccupancyGridmap :=
  { resolution := resolution
    resolution_inv := 1.0 / resolution
    bundle_resolution := 0.5 * resolution
    bundle_resolution_inv := 1.0 / (0.5 * resolution)
    w_T_m := ⟨origin_x, origin_y, cos origin_phi, sin origin_phi⟩
    m_T_w := transform_t.inverse ⟨origin_x, origin_y, cos origin_phi, sin origin_phi⟩
    size := size
    storage := fun k =>
      if k = 0 then (Storage.empty : distribution_storage_t).set_array_size size.1 size.2
      else (Storage.empty : distribution_storage_t).set_array_size (size.1 + 1) (size.2 + 1)
    bundle_storage :=
      (Storage.empty : distribution_bundle_storage_t).set_array_size (size.1 * 2) (size.2 * 2)
    history := [] }

/-- Public `getOrigin()`. -/
def getOrigin (m : OccupancyGridmap) : pose_t := m.w_T_m

/-- Public `getBundleResolution()`. -/
def getBundleResolution (m : OccupancyGridmap) : ℚ := m.bundle_resolution

/-- Public `getResolution()`. -/
def getResolution (m : OccupancyGridmap) : ℚ := m.resolution

/-- Public `getHeight()`. -/
def getHeight (m : OccupancyGridmap) : ℚ := m.size.2 * m.resolution

/-- Public `getWidth()`. -/
def getWidth (m : OccupancyGridmap) : ℚ := m.size.1 * m.resolution

/-- Public `getSize()`. -/
def getSize (m : OccupancyGridmap) : Nat × Nat := m.size

/-- Public `getBundleSize()`. -/
def getBundleSize (m : OccupancyGridmap) : Nat × Nat := (m.size.1 * 2, m.size.2 * 2)

/-- Public `getStorages()`. -/
def getStorages (m : OccupancyGridmap) : distribution_storage_array_t := m.storage

/-- Public `getBundleIndices(indices)`: the vector after the call and the state after the
call. -/
def getBundleIndices (m : OccupancyGridmap) (indices : List index_t) :
    List index_t × OccupancyGridmap :=
  (m.bundle_storage.traverse (fun acc i _ => acc ++ [i]) indices, m)

end OccupancyGridmap

/-! ## Interleaved calls of the bundle get-or-create -/

/-- Progress of one thread inside `getAllocate(bi)`, cut where the source takes and drops its
guards: the existence test `bundle_storage_->get(bi)` is one guarded block; each sub-grid
get-or-create `getAllocate(storage_[k], index)` holds the sub-grid guard for its whole
check-then-insert; the insertion `bundle_storage_->insert(bi, b)` comes after a second,
separate guard statement. Between these blocks the thread holds no guard. -/
inductive thread_t
  | called (bi : index_t)
  | tested (bi : index_t) (bundle : Option distribution_bundle_t)
  | allocating (bi : index_t) (cells : Nat)
  | returned (bundle : distribution_bundle_t)
deriving DecidableEq, Repr

namespace OccupancyGridmap

/-- One sub-grid get-or-create `getAllocate(storage_[k], i)` on the state. -/
def allocate_slot (m : OccupancyGridmap) (k : Fin 4) (i : index_t) : OccupancyGridmap :=
  { m with storage := Function.update m.storage k (getAllocate_cell (m.storage k) i) }

/-- One guarded block of a thread inside `getAllocate(bi)`: the state and the thread after
it. -/
def thread_step (m : OccupancyGridmap) : thread_t → OccupancyGridmap × thread_t
  | thread_t.called bi => (m, thread_t.tested bi (m.bundle_storage.get bi))
  | thread_t.tested _ (some bundle) => (m, thread_t.returned bundle)
  | thread_t.tested bi none =>
    (allocate_slot m 0 (bundle_slots bi).s0, thread_t.allocating bi 1)
  | thread_t.allocating bi 1 =>
    (allocate_slot m 1 (bundle_slots bi).s1, thread_t.allocating bi 2)
  | thread_t.allocating bi 2 =>
    (allocate_slot m 2 (bundle_slots bi).s2, thread_t.allocating bi 3)
  | thread_t.allocating bi 3 =>
    (allocate_slot m 3 (bundle_slots bi).s3, thread_t.allocating bi 4)
  | thread_t.allocating bi 4 =>
    ({ m with bundle_storage := m.bundle_storage.insert bi (bundle_slots bi) },
      thread_t.returned (bundle_slots bi))
  | thread_t.allocating bi cells => (m, thread_t.allocating bi cells)
  | thread_t.returned bundle => (m, thread_t.returned bundle)

/-- One step of a schedule: the thread with number `t` runs its next guarded block. -/
def schedule_step (st : OccupancyGridmap × List thread_t) (t : Nat) :
    OccupancyGridmap × List thread_t :=
  match st.2.get? t with
  | none => st
  | some th => ((thread_step st.1 th).1, st.2.set t (thread_step st.1 th).2)

/-- The state and the threads after a schedule. -/
def run_schedule (m : OccupancyGridmap) (threads : List thread_t) (schedule : List Nat) :
    OccupancyGridmap × List thread_t :=
  schedule.foldl schedule_step (m, threads)

end OccupancyGridmap

/-! ## Conversions to dense rasters -/

/-- The largest `int`: `std::numeric_limits<int>::max()`. -/
def int_max : Int := 2147483647

/-- The smallest `int`: `std::numeric_limits<int>::min()`. -/
def int_min : Int := -2147483648

/-- Conversion `static_cast<int>` of a `double`: truncation towards zero. -/
def to_int (x : ℚ) : Int := if 0 ≤ x then ⌊x⌋ else -⌊-x⌋

/-- Conversion of a non-negative `double` to `std::size_t`. -/
def to_size (x : ℚ) : Nat := (to_int x).toNat

/-- The integers `i` with `a <= i < b`, ascending: the values of `for (int i = a; i < b; ++i)`. -/
def int_range (a b : Int) : List Int :=
  (List.range (b - a).toNat).map (fun t => a + (t : Int))

/-- Modelled from the spec: what the conversions read from a source map of
`cslibs_ndt_2d::dynamic_maps` (`Gridmap` and `OccupancyGridmap`, not among the sources): the
accessors, the materialized bundles in traversal order (type `B` is what the slots of a bundle
point to), and the sampling method `sampleNonNormalized` (type `S`). -/
structure source_map (B S : Type) where
  getOrigin : pose_t
  getInitialOrigin : pose_t
  getHeight : ℚ
  getWidth : ℚ
  getBundleResolution : ℚ
  getMinDistributionIndex : index_t
  getMaxDistributionIndex : index_t
  traverse : List (index_t × B)
  sampleNonNormalized : S

namespace dynamic_maps

/-- Source map `dynamic_maps::Gridmap`: a slot points to a handle whose data is a
Distribution. -/
abbrev Gridmap := source_map (Fin 4 → Distribution) (point_t → index_t → ℚ)

/-- Source map `dynamic_maps::OccupancyGridmap`: a slot is null or points to a handle of an
OccupancyDistribution. -/
abbrev OccupancyGridmap :=
  source_map (Fin 4 → Option OccupancyDistribution)
    (point_t → index_t → inverse_sensor_model_t → ℚ)

end dynamic_maps

/-- Dense raster `cslibs_gridmaps::static_maps::Gridmap<double>` (collaborator), the base of
`ProbabilityGridmap` and `LikelihoodFieldGridmap`: row-major data. -/
structure grid_t where
  origin : pose_t
  resolution : ℚ
  height : Nat
  width : Nat
  data : List ℚ
deriving DecidableEq, Repr

namespace grid_t

/-- Constructor `(origin, resolution, height, width)`; the data is filled with
`default_value`. -/
def create (origin : pose_t) (resolution : ℚ) (height width : Nat) (default_value : ℚ) :
    grid_t :=
  ⟨origin, resolution, height, width, List.replicate (height * width) default_value⟩

/-- Fill `std::fill(getData().begin(), getData().end(), v)`. -/
def fill (g : grid_t) (v : ℚ) : grid_t := { g with data := g.data.map (fun _ => v) }

/-- Write `at(x, y) = v`. -/
def set (g : grid_t) (x y : Nat) (v : ℚ) : grid_t :=
  { g with data := g.data.set (y * g.width + x) v }

/-- Read `at(x, y)`. -/
def get (g : grid_t) (x y : Nat) : Option ℚ := g.data.get? (y * g.width + x)

end grid_t

/-- Raster `cslibs_gridmaps::static_maps::LikelihoodFieldGridmap` (collaborator). -/
structure LikelihoodFieldGridmap where
  grid : grid_t
  maximum_distance : ℚ
  sigma_hit : ℚ
deriving DecidableEq, Repr

/-- Collaborators of the conversions whose code is not among the sources:
* `default_value`: the value with which the raster constructors fill the data;
* `distance_transform`: `DistanceTransform(resolution, maximum_distance, threshold)` and its
  `apply(occupancy, width)`, which returns the distances;
* `exp`: `std::exp`. -/
structure conversion_env where
  default_value : ℚ
  distance_transform : ℚ → ℚ → ℚ → List ℚ → Nat → List ℚ
  exp : ℚ → ℚ

namespace conversion

/-- The lambda `sample` of the probability-grid conversion of a `Gridmap`. -/
def sample_gridmap (E : Env) (p : point_t) (bundle : Fin 4 → Distribution) : ℚ :=
  0.25 * (E.sampleNonNormalized (bundle 0) p +
          E.sampleNonNormalized (bundle 1) p +
          E.sampleNonNormalized (bundle 2) p +
          E.sampleNonNormalized (bundle 3) p)

/-- The lambda `sample` of the probability-grid conversion of an `OccupancyGridmap`. -/
def sample_occupancy_gridmap (E : Env) (inverse_model : inverse_sensor_model_t) (p : point_t)
    (bundle : Fin 4 → Option OccupancyDistribution) : ℚ :=
  0.25 * (OccupancyGridmap.sampleNonNormalized_cell E p inverse_model (bundle 0) +
          OccupancyGridmap.sampleNonNormalized_cell E p inverse_model (bundle 1) +
          OccupancyGridmap.sampleNonNormalized_cell E p inverse_model (bundle 2) +
          OccupancyGridmap.sampleNonNormalized_cell E p inverse_model (bundle 3))

/-- The body of the two loops of the lambda `process_bundle` for one pair (k, l). The
flag is set once the lambda has returned. -/
def process_cell {B : Type} (sample : point_t → B → ℚ)
    (bundle_resolution sampling_resolution : ℚ) (chunk_step : Int) (min_bi bi : index_t)
    (b : B) (st : grid_t × Bool) (kl : Nat × Nat) : grid_t × Bool :=
  if st.2 then st
  else
    let dst_x : Int := (bi.1 - min_bi.1) * chunk_step + kl.1
    let dst_y : Int := (bi.2 - min_bi.2) * chunk_step + kl.2
    if dst_x < 0 ∨ dst_y < 0 ∨ dst_x ≥ (st.1.width : Int) ∨ dst_y ≥ (st.1.height : Int) then
      (st.1, true)
    else
      let p : point_t := ⟨bi.1 * bundle_resolution + kl.1 * sampling_resolution,
                          bi.2 * bundle_resolution + kl.2 * sampling_resolution⟩
      (st.1.set dst_x.toNat dst_y.toNat (sample p b), false)

/-- The pairs (k, l) of the two loops `for k < chunk_step` and `for l < chunk_step`, in the
order of the iteration. -/
def chunk_cells (chunk_step : Int) : List (Nat × Nat) :=
  (List.range chunk_step.toNat).flatMap
    (fun k => (List.range chunk_step.toNat).map (fun l => (k, l)))

/-- The lambda `process_bundle` of the probability-grid conversions. -/
def process_bundle {B : Type} (sample : point_t → B → ℚ)
    (bundle_resolution sampling_resolution : ℚ) (chunk_step : Int) (min_bi : index_t)
    (dst : grid_t) (bi : index_t) (b : B) : grid_t :=
  ((chunk_cells chunk_step).foldl
    (process_cell sample bundle_resolution sampling_resolution chunk_step min_bi bi b)
    (dst, false)).1

/-- The part of the probability-grid conversions after the guards, which the two overloads
share up to the lambda `sample`. -/
def probability_fill {B S : Type} (C : conversion_env) (sample : point_t → B → ℚ)
    (src : source_map B S) (sampling_resolution : ℚ) : grid_t :=
  let min_bi := src.getMinDistributionIndex
  let dst := (grid_t.create src.getOrigin sampling_resolution
    (to_size (src.getHeight / sampling_resolution))
    (to_size (src.getWidth / sampling_resolution)) C.default_value).fill 0
  let bundle_resolution := src.getBundleResolution
  let chunk_step := to_int (bundle_resolution / sampling_resolution)
  src.traverse.foldl
    (fun d e => process_bundle sample bundle_resolution sampling_resolution chunk_step min_bi
      d e.1 e.2) dst

/-- The test for a source without bundles: a sentinel in the minimal or maximal index. -/
def no_bundles {B S : Type} (src : source_map B S) : Bool :=
  decide (src.getMinDistributionIndex.1 = int_max) ||
  decide (src.getMinDistributionIndex.2 = int_max) ||
  decide (src.getMaxDistributionIndex.1 = int_min) ||
  decide (src.getMaxDistributionIndex.2 = int_min)

/-- Conversion `from(Gridmap::Ptr src, ProbabilityGridmap::Ptr &dst, sampling_resolution)`:
the destination pointer after the call. -/
def probability_from_gridmap (E : Env) (C : conversion_env)
    (src : Option dynamic_maps.Gridmap) (dst : Option grid_t) (sampling_resolution : ℚ) :
    Option grid_t :=
  match src with
  | none => dst
  | some s =>
    if no_bundles s then dst
    else some (probability_fill C (sample_gridmap E) s sampling_resolution)

/-- Conversion `from(OccupancyGridmap::Ptr src, ProbabilityGridmap::Ptr &dst,
sampling_resolution, inverse_model)`: the destination pointer after the call. -/
def probability_from_occupancy_gridmap (E : Env) (C : conversion_env)
    (src : Option dynamic_maps.OccupancyGridmap) (dst : Option grid_t)
    (sampling_resolution : ℚ) (inverse_model : Option inverse_sensor_model_t) :
    Option grid_t :=
  match src, inverse_model with
  | none, _ => dst
  | some _, none => dst
  | some s, some model =>
    if no_bundles s then dst
    else some (probability_fill C (sample_occupancy_gridmap E model) s sampling_resolution)

/-- Modelled from the spec: the distance of the distance transform of cslibs_gridmaps (not
among the sources) between the cells at the positions `s` and `i` of the row-major data of a
raster of the given width: the length `norm dx dy` of their offset (dx, dy) in cells, times
the resolution. -/
def cell_distance (norm : Int → Int → ℚ) (resolution : ℚ) (width s i : Nat) : ℚ :=
  resolution * norm (((s % width : Nat) : Int) - ((i % width : Nat) : Int))
    (((s / width : Nat) : Int) - ((i / width : Nat) : Int))

/-- Modelled from the spec: the cells from which the distance transform of cslibs_gridmaps
(not among the sources) measures, "the cells whose value exceeds a binarization threshold",
as positions in the row-major data. -/
def cells_above (threshold : ℚ) (occ : List ℚ) : List Nat :=
  (List.range occ.length).filter (fun s => decide (threshold < occ.getD s 0))

/-- Modelled from the spec: the distance transform `DistanceTransform` of cslibs_gridmaps
(not among the sources): "configured with (resolution, maxDistance, threshold);
apply(occupancy raster, width) -> distance raster", "per-cell distance to the nearest cell
whose value exceeds a binarization threshold", "bounded by maximum_distance". The length of
an offset in cells (the Euclidean norm) is the parameter `norm`. -/
def distance_transform (norm : Int → Int → ℚ) (resolution maximum_distance threshold : ℚ)
    (occ : List ℚ) (width : Nat) : List ℚ :=
  (List.range occ.length).map (fun i =>
    (cells_above threshold occ).foldl
      (fun d s => min d (cell_distance norm resolution width s i)) maximum_distance)

/-- The raster of the likelihood-field conversions before the distance transform: the
construction of the destination and the four nested loops; `sample` is the call
`src->sampleNonNormalized(p, bi)` of the overload. -/
def likelihood_raster {B S : Type} (C : conversion_env) (sample : point_t → index_t → ℚ)
    (src : source_map B S) (sampling_resolution maximum_distance sigma_hit : ℚ) :
    LikelihoodFieldGridmap :=
  let dst : LikelihoodFieldGridmap :=
    ⟨grid_t.create src.getOrigin sampling_resolution
      (to_size (src.getHeight / sampling_resolution))
      (to_size (src.getWidth / sampling_resolution)) C.default_value,
     maximum_distance, sigma_hit⟩
  let bundle_resolution := src.getBundleResolution
  let chunk_step := to_int (bundle_resolution / sampling_resolution)
  let min_distribution_index := src.getMinDistributionIndex
  let max_distribution_index := src.getMaxDistributionIndex
  (int_range min_distribution_index.1 max_distribution_index.1).foldl (fun d1 (i : Int) =>
    (int_range min_distribution_index.2 max_distribution_index.2).foldl (fun d2 (j : Int) =>
      let ci : Int := (i - min_distribution_index.1) * chunk_step
      let cj : Int := (j - min_distribution_index.2) * chunk_step
      (List.range chunk_step.toNat).foldl (fun d3 (k : Nat) =>
        (List.range chunk_step.toNat).foldl (fun d4 (l : Nat) =>
          let p : point_t := ⟨i * bundle_resolution + k * sampling_resolution,
                              j * bundle_resolution + l * sampling_resolution⟩
          let value := 1.0 - sample (src.getInitialOrigin.apply p) (i, j)
          { d4 with grid := d4.grid.set (ci + (k : Int)).toNat (cj + (l : Int)).toNat value })
          d3) d2) d1) dst

/-- The end of the likelihood-field conversions: the distance transform of the raster, then
the kernel on every cell. -/
def likelihood_finish (C : conversion_env) (dst : LikelihoodFieldGridmap)
    (sampling_resolution maximum_distance sigma_hit threshold : ℚ) : LikelihoodFieldGridmap :=
  let exp_factor_hit := 0.5 * 1.0 / (sigma_hit * sigma_hit)
  let occ := dst.grid.data
  let distances :=
    C.distance_transform sampling_resolution maximum_distance threshold occ dst.grid.width
  { dst with grid := { dst.grid with
      data := distances.map (fun z => C.exp (-z * z * exp_factor_hit)) } }

/-- Abort of a conversion: a failed `assert`. -/
inductive abort_t
  | assertion_failed
deriving DecidableEq, Repr

/-- Conversion `from(Gridmap::Ptr src, LikelihoodFieldGridmap::Ptr &dst, sampling_resolution,
maximum_distance, sigma_hit, threshold)` for a non-null source: the abort of a failed
assertion, or the destination pointer after the call. -/
def likelihood_field_from_gridmap (C : conversion_env) (src : dynamic_maps.Gridmap)
    (_dst : Option LikelihoodFieldGridmap)
    (sampling_resolution maximum_distance sigma_hit threshold : ℚ) :
    Except abort_t (Option LikelihoodFieldGridmap) :=
  if ¬ threshold ≤ 1.0 then Except.error abort_t.assertion_failed
  else if ¬ threshold ≥ 0.0 then Except.error abort_t.assertion_failed
  else
    Except.ok (some (likelihood_finish C
      (likelihood_raster C src.sampleNonNormalized src sampling_resolution maximum_distance
        sigma_hit)
      sampling_resolution maximum_distance sigma_hit threshold))

/-- Conversion `from(OccupancyGridmap::Ptr src, LikelihoodFieldGridmap::Ptr &dst,
sampling_resolution, inverse_model, maximum_distance, sigma_hit, threshold)` for a non-null
source and a non-null model: the abort of a failed assertion, or the destination pointer
after the call. -/
def likelihood_field_from_occupancy_gridmap (C : conversion_env)
    (src : dynamic_maps.OccupancyGridmap) (_dst : Option LikelihoodFieldGridmap)
    (sampling_resolution : ℚ) (inverse_model : inverse_sensor_model_t)
    (maximum_distance sigma_hit threshold : ℚ) :
    Except abort_t (Option LikelihoodFieldGridmap) :=
  if ¬ threshold ≤ 1.0 then Except.error abort_t.assertion_failed
  else if ¬ threshold ≥ 0.0 then Except.error abort_t.assertion_failed
  else
    Except.ok (some (likelihood_finish C
      (likelihood_raster C (fun p bi => src.sampleNonNormalized p bi inverse_model) src
        sampling_resolution maximum_distance sigma_hit)
      sampling_resolution maximum_distance sigma_hit threshold))

end conversion

/-! ## The bundle index in double arithmetic -/

namespace OccupancyGridmap

end OccupancyGridmap

namespace OccupancyGridmap

/-! ## Vocabulary of the properties -/

/-- The construction parameters of two maps agree. -/
def same_parameters (m m2 : OccupancyGridmap) : Prop :=
  m2.resolution = m.resolution ∧ m2.resolution_inv = m.resolution_inv ∧
  m2.bundle_resolution = m.bundle_resolution ∧
  m2.bundle_resolution_inv = m.bundle_resolution_inv ∧
  m2.w_T_m = m.w_T_m ∧ m2.m_T_w = m.m_T_w ∧ m2.size = m.size

/-- Well-formed state: every stored bundle has the slots of its own index, and every slot
references a materialized cell (a slot is a pointer to a cell that was got or created before
the bundle was stored). -/
def well_formed (m : OccupancyGridmap) : Prop :=
  ∀ e ∈ m.bundle_storage.data,
    e.2 = bundle_slots e.1 ∧ ∀ k : Fin 4, (m.cell k (e.2.slot k)).isSome = true

/-- Well-formedness can be checked on the stored bundles. -/
instance (m : OccupancyGridmap) : Decidable (well_formed m) := by
  unfold well_formed
  infer_instance

/-- The content of the cell of sub-grid `k` at index `c`; a cell that is not materialized yet
counts as default constructed. -/
def cell_or_empty (m : OccupancyGridmap) (k : Fin 4) (c : index_t) : distribution_t :=
  (m.cell k c).getD OccupancyDistribution.empty

/-- The points of a cloud, transformed by the sensor pose, that pass the validity test. -/
def valid_points (E : Env) (origin : pose_t) (points : List point_t) : List point_t :=
  (points.map origin.apply).filter E.isNormal

/-- The distinct indices of a list, each at the place of its first occurrence. -/
def first_occurrences (l : List index_t) : List index_t :=
  l.foldl (fun acc i => if i ∈ acc then acc else acc ++ [i]) []

/-- The distinct bundle indices hit by the valid points of a cloud, in the order of the first
hit. -/
def hit_indices (E : Env) (m : OccupancyGridmap) (origin : pose_t) (points : List point_t) :
    List index_t :=
  first_occurrences ((valid_points E origin points).map (toBundleIndex m))

/-- The group of a bundle index: the valid points of a cloud that map to it. -/
def group (E : Env) (m : OccupancyGridmap) (origin : pose_t) (points : List point_t)
    (bi : index_t) : List point_t :=
  (valid_points E origin points).filter (fun pm => toBundleIndex m pm = bi)

/-- The Distribution merged from a list of points. -/
def merged (g : List point_t) : Distribution :=
  g.foldl Distribution.add Distribution.empty

/-- The cell of the local storage merged from a list of points. -/
def merged_cell (g : List point_t) : distribution_t :=
  g.foldl (fun c pm => c.updateOccupied pm) OccupancyDistribution.empty

/-- The updates the visitor of `insert` makes on one entry of the local storage. -/
def visit_updates (E : Env) (m : OccupancyGridmap) (origin : pose_t)
    (e : index_t × distribution_t) : List update_t :=
  match e.2.getDistribution with
  | none => []
  | some dist =>
    update_t.occupied_distribution e.1 dist ::
      (E.line (m.m_T_w.apply origin.translation) (m.m_T_w.apply dist.getMean)
        m.bundle_resolution).map (fun c => update_t.free c e.2.numOccupied)

/-- The updates the batch insertion makes for one group: one occupied update with the merged
Distribution on the bundle of the group, then one free update, weighted by the size of the group,
on every cell of the ray from the sensor origin to the mean of the group. -/
def group_updates (E : Env) (m : OccupancyGridmap) (origin : pose_t) (bi : index_t)
    (g : List point_t) : List update_t :=
  update_t.occupied_distribution bi (merged g) ::
    (E.line (m.m_T_w.apply origin.translation) (m.m_T_w.apply (merged g).getMean)
      m.bundle_resolution).map (fun c => update_t.free c g.length)

/-- A call of a public method of the map. The accessors (`getOrigin`, `getResolution`,
`getBundleResolution`, `getHeight`, `getWidth`, `getSize`, `getBundleSize`, `getStorages`) are
one case: they are functions of the state alone. -/
inductive operation
  | add (start_p end_p : point_t)
  | insert (origin : pose_t) (points : List point_t)
  | insertVisible (origin : pose_t) (points : List point_t)
      (ivm ivm_visibility : inverse_sensor_model_t)
  | sample (p : point_t) (ivm : Option inverse_sensor_model_t)
  | sample_bi (p : point_t) (bi : index_t) (ivm : Option inverse_sensor_model_t)
  | sampleNonNormalized (p : point_t) (ivm : Option inverse_sensor_model_t)
  | sampleNonNormalized_bi (p : point_t) (bi : index_t) (ivm : Option inverse_sensor_model_t)
  | getDistributionBundle (bi : index_t)
  | getBundleIndices (indices : List index_t)
  | accessor

/-- The state after a call of a public method. -/
def apply_op (E : Env) (m : OccupancyGridmap) : operation → OccupancyGridmap
  | operation.add start_p end_p => add E m start_p end_p
  | operation.insert origin points => insert E m origin points
  | operation.insertVisible origin points ivm ivm_visibility =>
    insertVisible E m origin points ivm ivm_visibility
  | operation.sample p ivm => (sample E m p ivm).2
  | operation.sample_bi p bi ivm => (sample_bi E m p bi ivm).2
  | operation.sampleNonNormalized p ivm => (sampleNonNormalized E m p ivm).2
  | operation.sampleNonNormalized_bi p bi ivm => (sampleNonNormalized_bi E m p bi ivm).2
  | operation.getDistributionBundle bi => (getDistributionBundle m bi).2
  | operation.getBundleIndices indices => (getBundleIndices m indices).2
  | operation.accessor => m

/-- The state after a sequence of calls of public methods. -/
def run (E : Env) (m : OccupancyGridmap) (ops : List operation) : OccupancyGridmap :=
  ops.foldl (apply_op E) m

/-- The second state is obtained from the first by steps of three kinds: a bundle
get-or-create, a write through a slot pointer, a ghost record. -/
inductive evolves : OccupancyGridmap → OccupancyGridmap → Prop
  | refl (m : OccupancyGridmap) : evolves m m
  | allocate {m m2 : OccupancyGridmap} (bi : index_t) :
      evolves m m2 → evolves m (getAllocate m2 bi).2
  | modify {m m2 : OccupancyGridmap} (k : Fin 4) (i : index_t)
      (f : distribution_t → distribution_t) : evolves m m2 → evolves m (modify_cell m2 k i f)
  | record {m m2 : OccupancyGridmap} (u : update_t) :
      evolves m m2 → evolves m (record m2 u)

/-- The loop of the visitor of `insertVisible` with the early return taken out: at a cell
where the running visibility is below the prior the free update is left out and the walk goes
on to the next cell. The result is the state and the running visibility after the last
cell. -/
def insertVisible_walk_continued (E : Env) (ivm ivm_visibility : inverse_sensor_model_t)
    (start_bi : index_t) (n : Nat) :
    List index_t → ℚ → OccupancyGridmap → OccupancyGridmap × ℚ
  | [], visibility, m => (m, visibility)
  | bit :: rest, visibility, m =>
    if visibility * (current_visibility E ivm ivm_visibility start_bi m bit).1 <
        ivm_visibility.getProbPrior then
      insertVisible_walk_continued E ivm ivm_visibility start_bi n rest
        (visibility * (current_visibility E ivm ivm_visibility start_bi m bit).1)
        (current_visibility E ivm ivm_visibility start_bi m bit).2
    else
      insertVisible_walk_continued E ivm ivm_visibility start_bi n rest
        (visibility * (current_visibility E ivm ivm_visibility start_bi m bit).1)
        (updateFree_n (current_visibility E ivm ivm_visibility start_bi m bit).2 bit n)

/-- The visitor of `insertVisible` over the continued walk: the terminal test is made after
every cell of the ray was visited. -/
def insertVisible_visit_continued (E : Env) (ivm ivm_visibility : inverse_sensor_model_t)
    (start_bi : index_t) (start_p : point_t) (m : OccupancyGridmap) (bi : index_t)
    (d : distribution_t) : OccupancyGridmap :=
  match d.getDistribution with
  | none => m
  | some dist =>
    let end_p := m.m_T_w.apply dist.getMean
    let n := d.numOccupied
    let w := insertVisible_walk_continued E ivm ivm_visibility start_bi n
      (E.line start_p end_p m.bundle_resolution) 1.0 m
    let cv := current_visibility E ivm ivm_visibility start_bi w.1 bi
    if w.2 * cv.1 ≥ ivm_visibility.getProbPrior then updateOccupied_d cv.2 bi dist
    else cv.2

/-- The running visibilities of the continued walk: the value after the multiplication at
each cell of the ray, in the order of the cells. -/
def visibility_trace (E : Env) (ivm ivm_visibility : inverse_sensor_model_t)
    (start_bi : index_t) (n : Nat) : List index_t → ℚ → OccupancyGridmap → List ℚ
  | [], _, _ => []
  | bit :: rest, visibility, m =>
    (visibility * (current_visibility E ivm ivm_visibility start_bi m bit).1) ::
      visibility_trace E ivm ivm_visibility start_bi n rest
        (visibility * (current_visibility E ivm ivm_visibility start_bi m bit).1)
        (if visibility * (current_visibility E ivm ivm_visibility start_bi m bit).1 <
            ivm_visibility.getProbPrior
         then (current_visibility E ivm ivm_visibility start_bi m bit).2
         else updateFree_n (current_visibility E ivm ivm_visibility start_bi m bit).2 bit n)

/-- The block of 2 by 2 bundle indices around the cell `c` of sub-grid `k`: along an axis on
which the sub-grid is shifted (X for the sub-grids 1 and 3, Y for the sub-grids 2 and 3) the
pair of indices is (2c - 1, 2c), along the other axes it is (2c, 2c + 1). -/
def slot_block (k : Fin 4) (c : index_t) : List index_t :=
  let x0 := if k = 1 ∨ k = 3 then 2 * c.1 - 1 else 2 * c.1
  let y0 := if k = 2 ∨ k = 3 then 2 * c.2 - 1 else 2 * c.2
  [(x0, y0), (x0 + 1, y0), (x0, y0 + 1), (x0 + 1, y0 + 1)]

/-- The effect of one update of the private update methods on the content `d` of the cell
`c` of sub-grid `k`: the update reaches the cell when slot `k` of the bundle of its index
references `c`, and leaves the cell as it is otherwise. -/
def update_cell (k : Fin 4) (c : index_t) (d : distribution_t) : update_t → distribution_t
  | update_t.free bi n => if (bundle_slots bi).slot k = c then d.updateFree_n n else d
  | update_t.occupied_point bi p =>
    if (bundle_slots bi).slot k = c then d.updateOccupied p else d
  | update_t.occupied_distribution bi e =>
    if (bundle_slots bi).slot k = c then d.updateOccupied_d e else d

/-- The indices of the bundles materialized in the bundle storage, in traversal order. -/
def bundle_indices (m : OccupancyGridmap) : List index_t :=
  m.bundle_storage.data.map Prod.fst

/-- A concrete set of collaborators for the examples: a point is valid when no coordinate is
zero, a ray visits the cell of its start and the cell of its end, the densities are constant
and the occupancy is the share of occupied hits among all hits and one. -/
def sample_env : Env :=
  { isNormal := fun p => decide (p.x ≠ 0) && decide (p.y ≠ 0)
    line := fun s e r => [(⌊s.x / r⌋, ⌊s.y / r⌋), (⌊e.x / r⌋, ⌊e.y / r⌋)]
    sample := fun _ _ => 1
    sampleNonNormalized := fun _ _ => 2
    getOccupancy := fun d _ => (d.num_occupied : ℚ) / (d.num_free + d.num_occupied + 1) }

/-- A fresh map for the examples: identity origin, resolution 1, 4 by 4 cells. -/
def sample_map : OccupancyGridmap := mk_pose transform_t.identity 1 (4, 4)

/-- A sensor model for the examples: prior 1/2, free 3/10, occupied 7/10. -/
def sample_ivm : inverse_sensor_model_t := ⟨1/2, 3/10, 7/10⟩

/-- A sensor model for the examples with a low prior: prior 1/5, free 3/10, occupied 7/10. -/
def sample_ivm_low : inverse_sensor_model_t := ⟨1/5, 3/10, 7/10⟩

/-- An entry of the local storage for the examples: the cell merged from the one point
(1, 1). -/
def sample_hit : distribution_t := merged_cell [⟨1, 1⟩]

/-- A sequence of calls for the examples. -/
def sample_ops : List operation :=
  [operation.add ⟨1/4, 1/4⟩ ⟨1, 1⟩,
   operation.insert transform_t.identity [⟨1, 1⟩, ⟨3/2, 1/2⟩],
   operation.sample ⟨1, 1⟩ (some sample_ivm),
   operation.getDistributionBundle (3, -1)]

end OccupancyGridmap

namespace conversion

/-- The output cell that the lambda `process_bundle` computes for the bundle index `bi` and
the pair (k, l): `(dst_x, dst_y)`. -/
def dst_index (chunk_step : Int) (min_bi bi : index_t) (kl : Nat × Nat) : Int × Int :=
  ((bi.1 - min_bi.1) * chunk_step + kl.1, (bi.2 - min_bi.2) * chunk_step + kl.2)

/-- Stand-ins for the collaborators of the conversions in the examples: the rasters are
constructed with zeros, the distance transform bounds every value by the maximal distance,
and the exponential is replaced by `1 + x`. -/
def sample_conversion_env : conversion_env :=
  { default_value := 0
    distance_transform := fun _ maximum_distance _ occ _ =>
      occ.map (fun v => min v maximum_distance)
    exp := fun x => 1 + x }

/-- A bundle for the examples: four handles with the Distribution of the one point
(1/8, 1/8). -/
def sample_bundle : Fin 4 → Distribution := fun _ => OccupancyGridmap.merged [⟨1/8, 1/8⟩]

/-- A source for the examples: bundle resolution 1/2, one bundle, at index (0, 0), extent
1/2 by 1/2; its sampling method returns 2 everywhere. -/
def sample_source : dynamic_maps.Gridmap :=
  { getOrigin := transform_t.identity
    getInitialOrigin := transform_t.identity
    getHeight := 1/2
    getWidth := 1/2
    getBundleResolution := 1/2
    getMinDistributionIndex := (0, 0)
    getMaxDistributionIndex := (0, 0)
    traverse := [((0, 0), sample_bundle)]
    sampleNonNormalized := fun _ _ => 2 }

/-- The example source with a height marginally below one bundle (49/100 for 1/2), as a
height that was rounded down. -/
def short_source : dynamic_maps.Gridmap :=
  { sample_source with getHeight := 49/100 }

/-- A source without bundles: the minimal index is the largest `int`, the maximal index the
smallest `int`. -/
def empty_source : dynamic_maps.Gridmap :=
  { getOrigin := transform_t.identity
    getInitialOrigin := transform_t.identity
    getHeight := 0
    getWidth := 0
    getBundleResolution := 1/2
    getMinDistributionIndex := (int_max, int_max)
    getMaxDistributionIndex := (int_min, int_min)
    traverse := []
    sampleNonNormalized := fun _ _ => 0 }

/-- An occupancy source without bundles. -/
def empty_occupancy_source : dynamic_maps.OccupancyGridmap :=
  { getOrigin := transform_t.identity
    getInitialOrigin := transform_t.identity
    getHeight := 0
    getWidth := 0
    getBundleResolution := 1/2
    getMinDistributionIndex := (int_max, int_max)
    getMaxDistributionIndex := (int_min, int_min)
    traverse := []
    sampleNonNormalized := fun _ _ _ => 0 }

end conversion

end cslibs_ndt_2d

namespace cslibs_ndt_3d

/-! ## Volumetric maps: conversion to a point cloud -/

/-- Index of a bundle of a volumetric map: `std::array<int, 3>`. -/
abbrev index_t := Int × Int × Int

/-- Point `cslibs_math_3d::Point3d`, with idealised coordinates. -/
structure point_t where
  x : ℚ
  y : ℚ
  z : ℚ
deriving DecidableEq, Repr

/-- Modelled from the spec: `cslibs_math::statistics::Distribution<3, 3>` (collaborator):
"mean, covariance, sample count; associative/commutative merge", merged "by summing sufficient
statistics": the sample count, the coordinate sums and the sums of the second moments. -/
structure Distribution where
  n : Nat
  sum_x : ℚ
  sum_y : ℚ
  sum_z : ℚ
  sum_xx : ℚ
  sum_xy : ℚ
  sum_xz : ℚ
  sum_yy : ℚ
  sum_yz : ℚ
  sum_zz : ℚ
deriving DecidableEq, Repr

namespace Distribution

/-- Default constructed distribution: no samples. -/
def empty : Distribution := ⟨0, 0, 0, 0, 0, 0, 0, 0, 0, 0⟩

/-- Merge of two distributions: `operator +=`. -/
def merge (d e : Distribution) : Distribution :=
  ⟨d.n + e.n, d.sum_x + e.sum_x, d.sum_y + e.sum_y, d.sum_z + e.sum_z,
   d.sum_xx + e.sum_xx, d.sum_xy + e.sum_xy, d.sum_xz + e.sum_xz,
   d.sum_yy + e.sum_yy, d.sum_yz + e.sum_yz, d.sum_zz + e.sum_zz⟩

/-- Sample count: `getN()`. -/
def getN (d : Distribution) : Nat := d.n

/-- Mean of the samples: `getMean()`. -/
def getMean (d : Distribution) : point_t := ⟨d.sum_x / d.n, d.sum_y / d.n, d.sum_z / d.n⟩

end Distribution

/-- Modelled from the spec: `cslibs_ndt::OccupancyDistribution<3>` (not among the sources):
"optional Distribution + free-hit count + occupied-hit count". -/
structure OccupancyDistribution where
  num_free : Nat
  num_occupied : Nat
  distribution : Option Distribution
deriving DecidableEq, Repr

/-- Point `pcl::PointXYZI` (collaborator); the conversions to `float` are idealised. -/
structure PointXYZI where
  x : ℚ
  y : ℚ
  z : ℚ
  intensity : ℚ
deriving DecidableEq, Repr

/-- Modelled from the spec: what the point-cloud conversions read from a source map of
`cslibs_ndt_3d::dynamic_maps` (`Gridmap` and `OccupancyGridmap`, not among the sources): the
materialized bundles in traversal order (type `B` is what the eight slots of a bundle point
to) and the sampling method `sampleNonNormalized` (type `S`). -/
structure source_map (B S : Type) where
  traverse : List (index_t × B)
  sampleNonNormalized : S

namespace dynamic_maps

/-- Source map `dynamic_maps::Gridmap`: a slot points to a handle whose data is a
Distribution. -/
abbrev Gridmap := source_map (Fin 8 → Distribution) (point_t → ℚ)

/-- Source map `dynamic_maps::OccupancyGridmap`: a slot points to a handle of an
OccupancyDistribution. -/
abbrev OccupancyGridmap :=
  source_map (Fin 8 → OccupancyDistribution)
    (point_t → cslibs_ndt_2d.inverse_sensor_model_t → ℚ)

end dynamic_maps

namespace conversion

/-- The loop `for i < 8` of the lambda `process_bundle` of the `Gridmap` overload: the merge
of the eight Distributions. -/
def merge_bundle (b : Fin 8 → Distribution) : Distribution :=
  (List.finRange 8).foldl (fun d i => d.merge (b i)) Distribution.empty

/-- The lambda `process_bundle` of the `Gridmap` overload, on the cloud collected so far. -/
def process_bundle (src : dynamic_maps.Gridmap) (dst : List PointXYZI) (_bi : index_t)
    (b : Fin 8 → Distribution) : List PointXYZI :=
  let d := merge_bundle b
  if d.getN = 0 then dst
  else
    let mean := d.getMean
    let p : PointXYZI := ⟨mean.x, mean.y, mean.z, src.sampleNonNormalized mean⟩
    dst ++ [p]

/-- Conversion `from(Gridmap::Ptr src, PointCloud::Ptr &dst)`: the destination pointer after
the call, the cloud being the list of its points. -/
def pointcloud_from_gridmap (src : Option dynamic_maps.Gridmap)
    (dst : Option (List PointXYZI)) : Option (List PointXYZI) :=
  match src with
  | none => dst
  | some s => some (s.traverse.foldl (fun cloud e => process_bundle s cloud e.1 e.2) [])

/-- The loop `for i < 8` of the lambda `process_bundle` of the `OccupancyGridmap` overload:
the merged Distribution and the accumulated occupancy; `getOccupancy` is
`OccupancyDistribution::getOccupancy(ivm)` for a non-null model. -/
def merge_occupancy_bundle
    (getOccupancy : OccupancyDistribution → cslibs_ndt_2d.inverse_sensor_model_t → ℚ)
    (ivm : cslibs_ndt_2d.inverse_sensor_model_t) (b : Fin 8 → OccupancyDistribution) :
    Distribution × ℚ :=
  (List.finRange 8).foldl
    (fun st i =>
      let handle := b i
      let occupancy := st.2 + 0.125 * getOccupancy handle ivm
      match handle.distribution with
      | some d_tmp => (st.1.merge d_tmp, occupancy)
      | none => (st.1, occupancy))
    (Distribution.empty, 0.0)

/-- The lambda `process_bundle` of the `OccupancyGridmap` overload. -/
def process_occupancy_bundle
    (getOccupancy : OccupancyDistribution → cslibs_ndt_2d.inverse_sensor_model_t → ℚ)
    (src : dynamic_maps.OccupancyGridmap) (ivm : cslibs_ndt_2d.inverse_sensor_model_t)
    (threshold : ℚ) (dst : List PointXYZI) (_bi : index_t)
    (b : Fin 8 → OccupancyDistribution) : List PointXYZI :=
  let d := (merge_occupancy_bundle getOccupancy ivm b).1
  let occupancy := (merge_occupancy_bundle getOccupancy ivm b).2
  if d.getN = 0 ∨ occupancy < threshold then dst
  else
    let mean := d.getMean
    let p : PointXYZI := ⟨mean.x, mean.y, mean.z, src.sampleNonNormalized mean ivm⟩
    dst ++ [p]

/-- Conversion `from(OccupancyGridmap::Ptr src, PointCloud::Ptr &dst, ivm, threshold)` for a
non-null model: the destination pointer after the call. -/
def pointcloud_from_occupancy_gridmap
    (getOccupancy : OccupancyDistribution → cslibs_ndt_2d.inverse_sensor_model_t → ℚ)
    (src : Option dynamic_maps.OccupancyGridmap) (dst : Option (List PointXYZI))
    (ivm : cslibs_ndt_2d.inverse_sensor_model_t) (threshold : ℚ) : Option (List PointXYZI) :=
  match src with
  | none => dst
  | some s =>
    some (s.traverse.foldl
      (fun cloud e => process_occupancy_bundle getOccupancy s ivm threshold cloud e.1 e.2) [])

end conversion

end cslibs_ndt_3d

/-! # Properties -/

namespace cslibs_ndt_2d

/-! ## The sparse storage -/

namespace Storage

variable {α : Type}

theorem find_append (l l2 : List (index_t × α)) (i : index_t) :
    find (l ++ l2) i = (find l i).orElse (fun _ => find l2 i) := by
  induction l with
  | nil => simp [find]
  | cons e es ih =>
    by_cases h : e.1 = i
    · simp [find, h]
    · simp [find, h, ih]

theorem get_insert_self (s : Storage α) (i : index_t) (v : α) (h : s.get i = none) :
    (s.insert i v).get i = some v := by
  unfold get at h
  simp [get, insert, find_append, h, find]

theorem get_insert_of_ne (s : Storage α) (i j : index_t) (v : α) (h : j ≠ i) :
    (s.insert j v).get i = s.get i := by
  simp only [get, insert, find_append, find, if_neg h]
  cases find s.data i <;> simp

theorem get_insert_of_some (s : Storage α) (i j : index_t) (v x : α) (h : s.get i = some x) :
    (s.insert j v).get i = some x := by
  unfold get at h
  simp [get, insert, find_append, h]

theorem find_map_modify (l : List (index_t × α)) (i j : index_t) (f : α → α) :
    find (l.map (fun e => if e.1 = j then (e.1, f e.2) else e)) i =
      if j = i then (find l i).map f else find l i := by
  induction l with
  | nil => simp [find]
  | cons e es ih =>
    by_cases hj : e.1 = j <;> by_cases hi : e.1 = i <;> by_cases hji : j = i <;>
      simp_all [find]

theorem get_modify (s : Storage α) (i j : index_t) (f : α → α) :
    (s.modify j f).get i = if j = i then (s.get i).map f else s.get i := by
  simp [get, modify, find_map_modify]

end Storage

namespace OccupancyGridmap

/-! ## Get-or-create of cells and bundles -/

theorem getAllocate_cell_get_self (s : distribution_storage_t) (i : index_t) :
    ((getAllocate_cell s i).get i).isSome = true := by
  unfold getAllocate_cell
  cases h : s.get i with
  | some d => simp [h]
  | none => simp [Storage.get_insert_self s i _ h]

theorem getAllocate_cell_get_of_ne (s : distribution_storage_t) (i j : index_t) (h : j ≠ i) :
    (getAllocate_cell s j).get i = s.get i := by
  unfold getAllocate_cell
  cases hj : s.get j with
  | some d => rfl
  | none => exact Storage.get_insert_of_ne s i j _ h

theorem getAllocate_cell_get_of_some (s : distribution_storage_t) (i j : index_t)
    (d : distribution_t) (h : s.get i = some d) : (getAllocate_cell s j).get i = some d := by
  unfold getAllocate_cell
  cases hj : s.get j with
  | some d => exact h
  | none => exact Storage.get_insert_of_some s i j _ d h

theorem allocate_bundle_fst (m : OccupancyGridmap) (bi : index_t) :
    (allocate_bundle m bi).1 = bundle_slots bi := rfl

theorem allocate_bundle_storage (m : OccupancyGridmap) (bi : index_t) (k : Fin 4) :
    (allocate_bundle m bi).2.storage k = getAllocate_cell (m.storage k) ((bundle_slots bi).slot k) := by
  fin_cases k <;> simp [allocate_bundle, Function.update, distribution_bundle_t.slot]

theorem allocate_bundle_bundle_storage (m : OccupancyGridmap) (bi : index_t) :
    (allocate_bundle m bi).2.bundle_storage = m.bundle_storage.insert bi (bundle_slots bi) := rfl

/-- C1: `getDistributionBundle(bi)` is a get-or-create. A bundle stored at `bi` is returned and
the whole state is unchanged; if none is stored, exactly one bundle is appended to the bundle
storage, at `bi`, and it is the one returned; a second call returns the same bundle and leaves
the state of the first call unchanged. -/
theorem getDistributionBundle_get_or_create (m : OccupancyGridmap) (bi : index_t) :
    (∀ b, m.bundle_storage.get bi = some b → getDistributionBundle m bi = (b, m)) ∧
    (m.bundle_storage.get bi = none →
      (getDistributionBundle m bi).2.bundle_storage.data =
          m.bundle_storage.data ++ [(bi, (getDistributionBundle m bi).1)] ∧
      (getDistributionBundle m bi).2.bundle_storage.get bi =
          some (getDistributionBundle m bi).1) ∧
    getDistributionBundle (getDistributionBundle m bi).2 bi = getDistributionBundle m bi := by
  refine ⟨?_, ?_, ?_⟩
  · intro b hb
    simp [getDistributionBundle, getAllocate, hb]
  · intro hn
    have e : getDistributionBundle m bi = allocate_bundle m bi := by
      simp [getDistributionBundle, getAllocate, hn]
    rw [e, allocate_bundle_bundle_storage, allocate_bundle_fst]
    exact ⟨rfl, Storage.get_insert_self _ _ _ hn⟩
  · cases hg : m.bundle_storage.get bi with
    | some b =>
      have e : getDistributionBundle m bi = (b, m) := by
        simp [getDistributionBundle, getAllocate, hg]
      rw [e]
      exact e
    | none =>
      have e : getDistributionBundle m bi = allocate_bundle m bi := by
        simp [getDistributionBundle, getAllocate, hg]
      have h2 : (allocate_bundle m bi).2.bundle_storage.get bi = some (bundle_slots bi) := by
        rw [allocate_bundle_bundle_storage]
        exact Storage.get_insert_self _ _ _ hg
      rw [e]
      simp only [getDistributionBundle, getAllocate, h2]
      rfl

/-- Witness of C1 on a fresh map: the first call creates the bundle at (3, -1), the second
call finds it. -/
theorem getDistributionBundle_get_or_create_witness :
    Storage.get (mk_pose transform_t.identity 1 (4, 4)).bundle_storage (3, -1) = none ∧
    (getDistributionBundle (mk_pose transform_t.identity 1 (4, 4)) (3, -1)).2.bundle_storage.get
        (3, -1) =
      some (getDistributionBundle (mk_pose transform_t.identity 1 (4, 4)) (3, -1)).1 :=
  ⟨rfl, ((getDistributionBundle_get_or_create
    (mk_pose transform_t.identity 1 (4, 4)) (3, -1)).2.1 rfl).2⟩

theorem floor_half (a : Int) : ⌊(a : ℚ) / 2⌋ = a / 2 := by
  have h := Rat.floor_intCast_div_natCast a 2
  simpa using h

theorem allocate_bundle_cell_isSome (m : OccupancyGridmap) (bi : index_t) (k : Fin 4) :
    ((allocate_bundle m bi).2.cell k ((bundle_slots bi).slot k)).isSome = true := by
  unfold cell
  rw [allocate_bundle_storage]
  exact getAllocate_cell_get_self _ _

/-- C2: for every bundle index (ix, iy), negative components included, the bundle created by
`allocate_bundle` has slot 0 at (floor(ix/2), floor(iy/2)), slot 1 at
(floor(ix/2) + ix mod 2, floor(iy/2)), slot 2 at (floor(ix/2), floor(iy/2) + iy mod 2) and slot 3
at (floor(ix/2) + ix mod 2, floor(iy/2) + iy mod 2), slot k being a materialized cell of sub-grid
k; the remainders are 0 or 1 and complete the doubled floors to the index. -/
theorem allocate_bundle_slots (m : OccupancyGridmap) (ix iy : Int) :
    (allocate_bundle m (ix, iy)).1 =
      ⟨(⌊(ix : ℚ) / 2⌋, ⌊(iy : ℚ) / 2⌋),
       (⌊(ix : ℚ) / 2⌋ + ix % 2, ⌊(iy : ℚ) / 2⌋),
       (⌊(ix : ℚ) / 2⌋, ⌊(iy : ℚ) / 2⌋ + iy % 2),
       (⌊(ix : ℚ) / 2⌋ + ix % 2, ⌊(iy : ℚ) / 2⌋ + iy % 2)⟩ ∧
    (ix % 2 = 0 ∨ ix % 2 = 1) ∧ (iy % 2 = 0 ∨ iy % 2 = 1) ∧
    2 * ⌊(ix : ℚ) / 2⌋ + ix % 2 = ix ∧ 2 * ⌊(iy : ℚ) / 2⌋ + iy % 2 = iy ∧
    (∀ k : Fin 4, ((allocate_bundle m (ix, iy)).2.cell k
        ((allocate_bundle m (ix, iy)).1.slot k)).isSome = true) ∧
    (allocate_bundle m (ix, iy)).2.bundle_storage.data =
      m.bundle_storage.data ++ [((ix, iy), (allocate_bundle m (ix, iy)).1)] := by
  refine ⟨?_, by omega, by omega, ?_, ?_, ?_, rfl⟩
  · simp [allocate_bundle_fst, bundle_slots, div, mod, floor_half]
  · rw [floor_half]; omega
  · rw [floor_half]; omega
  · intro k
    exact allocate_bundle_cell_isSome m (ix, iy) k

/-! ## Sampling -/

theorem literal_zero : (0.0 : ℚ) = 0 := by norm_num

theorem getAllocate_cell_get (s : distribution_storage_t) (i j : index_t) :
    (getAllocate_cell s j).get i = s.get i ∨
      (s.get i = none ∧ (getAllocate_cell s j).get i = some OccupancyDistribution.empty) := by
  by_cases hji : j = i
  · subst hji
    cases h : s.get j with
    | some d => left; simp [getAllocate_cell, h]
    | none => right; simp [getAllocate_cell, h, Storage.get_insert_self s j _ h]
  · left
    exact getAllocate_cell_get_of_ne s i j hji

theorem getAllocate_cell_cases (m : OccupancyGridmap) (bi : index_t) (k : Fin 4) (i : index_t) :
    (getAllocate m bi).2.cell k i = m.cell k i ∨
      (m.cell k i = none ∧ (getAllocate m bi).2.cell k i = some OccupancyDistribution.empty) := by
  unfold getAllocate
  cases h : m.bundle_storage.get bi with
  | some b => left; rfl
  | none =>
    simp only [cell, allocate_bundle_storage]
    exact getAllocate_cell_get _ _ _

theorem sample_cell_getAllocate (E : Env) (p : point_t) (ivm : inverse_sensor_model_t)
    (m : OccupancyGridmap) (bi : index_t) (k : Fin 4) (i : index_t) :
    sample_cell E p ivm ((getAllocate m bi).2.cell k i) = sample_cell E p ivm (m.cell k i) := by
  rcases getAllocate_cell_cases m bi k i with h | ⟨h1, h2⟩
  · rw [h]
  · rw [h1, h2]
    simp [sample_cell, OccupancyDistribution.empty, OccupancyDistribution.getDistribution]

theorem sampleNonNormalized_cell_getAllocate (E : Env) (p : point_t)
    (ivm : inverse_sensor_model_t) (m : OccupancyGridmap) (bi : index_t) (k : Fin 4)
    (i : index_t) :
    sampleNonNormalized_cell E p ivm ((getAllocate m bi).2.cell k i) =
      sampleNonNormalized_cell E p ivm (m.cell k i) := by
  rcases getAllocate_cell_cases m bi k i with h | ⟨h1, h2⟩
  · rw [h]
  · rw [h1, h2]
    simp [sampleNonNormalized_cell, OccupancyDistribution.empty,
      OccupancyDistribution.getDistribution]

/-- C3: with a sensor model, `sample(p, bi, ivm)` is 0.25 times the sum over the four slots of
the bundle at `bi` of the density of the sub-cell's Distribution at `p` times the sub-cell's
occupancy, a sub-cell without a Distribution (or not yet materialized before the call)
contributing 0; `sampleNonNormalized` is the same with the non-normalized density; the
two-argument overloads are the three-argument ones at `toBundleIndex(p)`. -/
theorem sample_weighted_sum (E : Env) (m : OccupancyGridmap) (p : point_t) (bi : index_t)
    (ivm : inverse_sensor_model_t) :
    (sample_bi E m p bi (some ivm)).1 = Except.ok (0.25 * ∑ k : Fin 4,
      match (getAllocate m bi).2.cell k ((getAllocate m bi).1.slot k) with
      | some c =>
        match c.distribution with
        | some dist => E.sample dist p * E.getOccupancy c ivm
        | none => 0
      | none => 0) ∧
    (sample_bi E m p bi (some ivm)).1 = Except.ok (0.25 * ∑ k : Fin 4,
      match m.cell k ((getAllocate m bi).1.slot k) with
      | some c =>
        match c.distribution with
        | some dist => E.sample dist p * E.getOccupancy c ivm
        | none => 0
      | none => 0) ∧
    (sampleNonNormalized_bi E m p bi (some ivm)).1 = Except.ok (0.25 * ∑ k : Fin 4,
      match (getAllocate m bi).2.cell k ((getAllocate m bi).1.slot k) with
      | some c =>
        match c.distribution with
        | some dist => E.sampleNonNormalized dist p * E.getOccupancy c ivm
        | none => 0
      | none => 0) ∧
    (sampleNonNormalized_bi E m p bi (some ivm)).1 = Except.ok (0.25 * ∑ k : Fin 4,
      match m.cell k ((getAllocate m bi).1.slot k) with
      | some c =>
        match c.distribution with
        | some dist => E.sampleNonNormalized dist p * E.getOccupancy c ivm
        | none => 0
      | none => 0) ∧
    (∀ model, sample E m p model = sample_bi E m p (toBundleIndex m p) model) ∧
    (∀ model, sampleNonNormalized E m p model =
      sampleNonNormalized_bi E m p (toBundleIndex m p) model) := by
  have hs : ∀ d : Option distribution_t, sample_cell E p ivm d =
      match d with
      | some c =>
        match c.distribution with
        | some dist => E.sample dist p * E.getOccupancy c ivm
        | none => 0
      | none => 0 := by
    intro d
    rcases d with _ | c
    · simp [sample_cell, literal_zero]
    · cases hc : c.distribution <;>
        simp [sample_cell, OccupancyDistribution.getDistribution, hc, literal_zero]
  have hn : ∀ d : Option distribution_t, sampleNonNormalized_cell E p ivm d =
      match d with
      | some c =>
        match c.distribution with
        | some dist => E.sampleNonNormalized dist p * E.getOccupancy c ivm
        | none => 0
      | none => 0 := by
    intro d
    rcases d with _ | c
    · simp [sampleNonNormalized_cell, literal_zero]
    · cases hc : c.distribution <;>
        simp [sampleNonNormalized_cell, OccupancyDistribution.getDistribution, hc, literal_zero]
  refine ⟨?_, ?_, ?_, ?_, fun _ => rfl, fun _ => rfl⟩
  · simp only [sample_bi, Fin.sum_univ_four, ← hs]
  · simp only [sample_bi, Fin.sum_univ_four, ← hs, sample_cell_getAllocate]
  · simp only [sampleNonNormalized_bi, Fin.sum_univ_four, ← hn]
  · simp only [sampleNonNormalized_bi, Fin.sum_univ_four, ← hn,
      sampleNonNormalized_cell_getAllocate]

/-- C4: without a sensor model, `sample` and `sampleNonNormalized` (all four overloads) fail
with the error and return the state they were given, so nothing is allocated; with a sensor
model they return a value. -/
theorem sample_without_model (E : Env) (m : OccupancyGridmap) (p : point_t) (bi : index_t) :
    sample_bi E m p bi none = (Except.error error_t.inverse_model_not_set, m) ∧
    sampleNonNormalized_bi E m p bi none = (Except.error error_t.inverse_model_not_set, m) ∧
    sample E m p none = (Except.error error_t.inverse_model_not_set, m) ∧
    sampleNonNormalized E m p none = (Except.error error_t.inverse_model_not_set, m) ∧
    (∀ ivm : inverse_sensor_model_t,
      (∃ v, (sample_bi E m p bi (some ivm)).1 = Except.ok v) ∧
      (∃ v, (sampleNonNormalized_bi E m p bi (some ivm)).1 = Except.ok v) ∧
      (∃ v, (sample E m p (some ivm)).1 = Except.ok v) ∧
      (∃ v, (sampleNonNormalized E m p (some ivm)).1 = Except.ok v)) :=
  ⟨rfl, rfl, rfl, rfl, fun _ => ⟨⟨_, rfl⟩, ⟨_, rfl⟩, ⟨_, rfl⟩, ⟨_, rfl⟩⟩⟩

/-! ## Parameters and history under the private methods -/

theorem same_parameters_refl (m : OccupancyGridmap) : same_parameters m m :=
  ⟨rfl, rfl, rfl, rfl, rfl, rfl, rfl⟩

theorem same_parameters_trans {m m1 m2 : OccupancyGridmap} (h1 : same_parameters m m1)
    (h2 : same_parameters m1 m2) : same_parameters m m2 := by
  obtain ⟨a1, a2, a3, a4, a5, a6, a7⟩ := h1
  obtain ⟨b1, b2, b3, b4, b5, b6, b7⟩ := h2
  exact ⟨b1.trans a1, b2.trans a2, b3.trans a3, b4.trans a4, b5.trans a5, b6.trans a6,
    b7.trans a7⟩

theorem toBundleIndex_congr {m m2 : OccupancyGridmap} (h : same_parameters m m2)
    (p : point_t) : toBundleIndex m2 p = toBundleIndex m p := by
  obtain ⟨_, _, _, h4, _, h6, _⟩ := h
  simp [toBundleIndex, h4, h6]

theorem getAllocate_parameters (m : OccupancyGridmap) (bi : index_t) :
    same_parameters m (getAllocate m bi).2 := by
  unfold getAllocate
  cases m.bundle_storage.get bi <;> exact ⟨rfl, rfl, rfl, rfl, rfl, rfl, rfl⟩

theorem getAllocate_history (m : OccupancyGridmap) (bi : index_t) :
    (getAllocate m bi).2.history = m.history := by
  unfold getAllocate
  cases m.bundle_storage.get bi <;> rfl

theorem getAllocate_stored (m : OccupancyGridmap) (bi : index_t) :
    (getAllocate m bi).2.bundle_storage.get bi = some (getAllocate m bi).1 := by
  unfold getAllocate
  cases h : m.bundle_storage.get bi with
  | some b => exact h
  | none => exact Storage.get_insert_self _ _ _ h

theorem update_slots_parameters (m : OccupancyGridmap) (b : distribution_bundle_t)
    (f : distribution_t → distribution_t) : same_parameters m (update_slots m b f) :=
  ⟨rfl, rfl, rfl, rfl, rfl, rfl, rfl⟩

theorem update_slots_history (m : OccupancyGridmap) (b : distribution_bundle_t)
    (f : distribution_t → distribution_t) : (update_slots m b f).history = m.history := rfl

theorem update_slots_bundle_storage (m : OccupancyGridmap) (b : distribution_bundle_t)
    (f : distribution_t → distribution_t) :
    (update_slots m b f).bundle_storage = m.bundle_storage := rfl

theorem record_parameters (m : OccupancyGridmap) (u : update_t) :
    same_parameters m (record m u) := ⟨rfl, rfl, rfl, rfl, rfl, rfl, rfl⟩

theorem record_history (m : OccupancyGridmap) (u : update_t) :
    (record m u).history = m.history ++ [u] := rfl

theorem record_storage (m : OccupancyGridmap) (u : update_t) :
    (record m u).storage = m.storage := rfl

theorem record_bundle_storage (m : OccupancyGridmap) (u : update_t) :
    (record m u).bundle_storage = m.bundle_storage := rfl

theorem updateFree_eq (m : OccupancyGridmap) (bi : index_t) :
    updateFree m bi = record (update_slots (getAllocate m bi).2 (getAllocate m bi).1
      OccupancyDistribution.updateFree) (update_t.free bi 1) := rfl

theorem updateFree_n_eq (m : OccupancyGridmap) (bi : index_t) (n : Nat) :
    updateFree_n m bi n = record (update_slots (getAllocate m bi).2 (getAllocate m bi).1
      (fun d => d.updateFree_n n)) (update_t.free bi n) := rfl

theorem updateOccupied_eq (m : OccupancyGridmap) (bi : index_t) (p : point_t) :
    updateOccupied m bi p = record (update_slots (getAllocate m bi).2 (getAllocate m bi).1
      (fun d => d.updateOccupied p)) (update_t.occupied_point bi p) := rfl

theorem updateOccupied_d_eq (m : OccupancyGridmap) (bi : index_t) (d : Distribution) :
    updateOccupied_d m bi d = record (update_slots (getAllocate m bi).2 (getAllocate m bi).1
      (fun c => c.updateOccupied_d d)) (update_t.occupied_distribution bi d) := rfl

theorem update_parameters (m : OccupancyGridmap) (bi : index_t)
    (f : distribution_t → distribution_t) (u : update_t) :
    same_parameters m
      (record (update_slots (getAllocate m bi).2 (getAllocate m bi).1 f) u) :=
  same_parameters_trans (getAllocate_parameters m bi)
    (same_parameters_trans (update_slots_parameters _ _ _) (record_parameters _ _))

theorem update_history (m : OccupancyGridmap) (bi : index_t)
    (f : distribution_t → distribution_t) (u : update_t) :
    (record (update_slots (getAllocate m bi).2 (getAllocate m bi).1 f) u).history =
      m.history ++ [u] := by
  rw [record_history, update_slots_history, getAllocate_history]

theorem updateFree_parameters (m : OccupancyGridmap) (bi : index_t) :
    same_parameters m (updateFree m bi) := update_parameters m bi _ _

theorem updateFree_n_parameters (m : OccupancyGridmap) (bi : index_t) (n : Nat) :
    same_parameters m (updateFree_n m bi n) := update_parameters m bi _ _

theorem updateOccupied_parameters (m : OccupancyGridmap) (bi : index_t) (p : point_t) :
    same_parameters m (updateOccupied m bi p) := update_parameters m bi _ _

theorem updateOccupied_d_parameters (m : OccupancyGridmap) (bi : index_t) (d : Distribution) :
    same_parameters m (updateOccupied_d m bi d) := update_parameters m bi _ _

theorem updateFree_history (m : OccupancyGridmap) (bi : index_t) :
    (updateFree m bi).history = m.history ++ [update_t.free bi 1] := update_history m bi _ _

theorem updateFree_n_history (m : OccupancyGridmap) (bi : index_t) (n : Nat) :
    (updateFree_n m bi n).history = m.history ++ [update_t.free bi n] :=
  update_history m bi _ _

theorem updateOccupied_history (m : OccupancyGridmap) (bi : index_t) (p : point_t) :
    (updateOccupied m bi p).history = m.history ++ [update_t.occupied_point bi p] :=
  update_history m bi _ _

theorem updateOccupied_d_history (m : OccupancyGridmap) (bi : index_t) (d : Distribution) :
    (updateOccupied_d m bi d).history =
      m.history ++ [update_t.occupied_distribution bi d] := update_history m bi _ _

theorem foldl_updateFree_n (n : Nat) (l : List index_t) (m : OccupancyGridmap) :
    same_parameters m (l.foldl (fun st c => updateFree_n st c n) m) ∧
    (l.foldl (fun st c => updateFree_n st c n) m).history =
      m.history ++ l.map (fun c => update_t.free c n) := by
  induction l generalizing m with
  | nil => exact ⟨same_parameters_refl m, by simp⟩
  | cons c cs ih =>
    obtain ⟨h1, h2⟩ := ih (updateFree_n m c n)
    refine ⟨same_parameters_trans (updateFree_n_parameters m c n) h1, ?_⟩
    simp only [List.foldl_cons, h2, updateFree_n_history, List.map_cons, List.append_assoc,
      List.singleton_append]

theorem foldl_updateFree (l : List index_t) (m : OccupancyGridmap) :
    same_parameters m (l.foldl (fun st c => updateFree st c) m) ∧
    (l.foldl (fun st c => updateFree st c) m).history =
      m.history ++ l.map (fun c => update_t.free c 1) := by
  induction l generalizing m with
  | nil => exact ⟨same_parameters_refl m, by simp⟩
  | cons c cs ih =>
    obtain ⟨h1, h2⟩ := ih (updateFree m c)
    refine ⟨same_parameters_trans (updateFree_parameters m c) h1, ?_⟩
    simp only [List.foldl_cons, h2, updateFree_history, List.map_cons, List.append_assoc,
      List.singleton_append]

/-! ## Batch insertion -/

theorem first_occurrences_concat (l : List index_t) (i : index_t) :
    first_occurrences (l ++ [i]) =
      if i ∈ first_occurrences l then first_occurrences l else first_occurrences l ++ [i] := by
  simp [first_occurrences, List.foldl_append]

theorem mem_first_occurrences (l : List index_t) (i : index_t) :
    i ∈ first_occurrences l ↔ i ∈ l := by
  induction l using List.reverseRecOn generalizing i with
  | nil => simp [first_occurrences]
  | append_singleton l j ih =>
    rw [first_occurrences_concat]
    by_cases hj : j ∈ first_occurrences l
    · rw [if_pos hj, List.mem_append, List.mem_singleton, ih]
      constructor
      · exact fun h => Or.inl h
      · rintro (h | h)
        · exact h
        · rw [h]; exact (ih j).mp hj
    · rw [if_neg hj, List.mem_append, List.mem_append, ih]

theorem nodup_first_occurrences (l : List index_t) : (first_occurrences l).Nodup := by
  induction l using List.reverseRecOn with
  | nil => simp [first_occurrences]
  | append_singleton l j ih =>
    rw [first_occurrences_concat]
    by_cases hj : j ∈ first_occurrences l
    · rw [if_pos hj]; exact ih
    · rw [if_neg hj]
      exact List.Nodup.append ih (List.nodup_singleton j) (by simpa using hj)

theorem foldl_updateOccupied (g : List point_t) (c : OccupancyDistribution) :
    g.foldl (fun c pm => c.updateOccupied pm) c =
      ⟨c.num_free, c.num_occupied + g.length,
        if g = [] then c.distribution
        else some (g.foldl Distribution.add (c.distribution.getD Distribution.empty))⟩ := by
  induction g generalizing c with
  | nil => simp
  | cons p ps ih =>
    rw [List.foldl_cons, ih]
    cases ps with
    | nil => simp [OccupancyDistribution.updateOccupied]
    | cons q qs =>
      simp [OccupancyDistribution.updateOccupied]
      omega

theorem merged_cell_eq (g : List point_t) (h : g ≠ []) :
    merged_cell g = ⟨0, g.length, some (merged g)⟩ := by
  unfold merged_cell
  rw [foldl_updateOccupied]
  simp [h, OccupancyDistribution.empty, merged]

theorem merged_cell_concat (g : List point_t) (pm : point_t) :
    merged_cell (g ++ [pm]) = (merged_cell g).updateOccupied pm := by
  simp [merged_cell, List.foldl_append]

theorem find_map_key {α : Type} (L : List index_t) (f : index_t → α) (i : index_t) :
    Storage.find (L.map (fun bi => (bi, f bi))) i = if i ∈ L then some (f i) else none := by
  induction L with
  | nil => simp [Storage.find]
  | cons a as ih =>
    by_cases h : a = i
    · subst h; simp [Storage.find]
    · have h2 : ¬ i = a := fun e => h e.symm
      simp [Storage.find, h, h2, ih]

theorem valid_points_concat (E : Env) (origin : pose_t) (l : List point_t) (p : point_t) :
    valid_points E origin (l ++ [p]) =
      valid_points E origin l ++ (if E.isNormal (origin.apply p) then [origin.apply p] else []) := by
  by_cases h : E.isNormal (origin.apply p) <;> simp [valid_points, List.filter_append, h]

theorem accumulate_concat (E : Env) (m : OccupancyGridmap) (origin : pose_t)
    (l : List point_t) (p : point_t) :
    accumulate E m origin (l ++ [p]) =
      accumulate_point E m origin (accumulate E m origin l) p := by
  simp [accumulate, List.foldl_append]

theorem hit_indices_concat (E : Env) (m : OccupancyGridmap) (origin : pose_t)
    (l : List point_t) (p : point_t) (hn : E.isNormal (origin.apply p) = true) :
    hit_indices E m origin (l ++ [p]) =
      if toBundleIndex m (origin.apply p) ∈ hit_indices E m origin l
      then hit_indices E m origin l
      else hit_indices E m origin l ++ [toBundleIndex m (origin.apply p)] := by
  simp [hit_indices, valid_points_concat, hn, first_occurrences_concat]

theorem group_concat (E : Env) (m : OccupancyGridmap) (origin : pose_t)
    (l : List point_t) (p : point_t) (hn : E.isNormal (origin.apply p) = true) (bi : index_t) :
    group E m origin (l ++ [p]) bi =
      group E m origin l bi ++
        (if toBundleIndex m (origin.apply p) = bi then [origin.apply p] else []) := by
  by_cases h : toBundleIndex m (origin.apply p) = bi <;>
    simp [group, valid_points_concat, hn, List.filter_append, h]

theorem group_eq_nil (E : Env) (m : OccupancyGridmap) (origin : pose_t)
    (l : List point_t) (bi : index_t) (h : bi ∉ hit_indices E m origin l) :
    group E m origin l bi = [] := by
  rw [hit_indices, mem_first_occurrences] at h
  simp only [group, List.filter_eq_nil_iff, decide_eq_true_eq]
  intro pm hpm e
  exact h (List.mem_map.mpr ⟨pm, hpm, e⟩)

theorem group_ne_nil (E : Env) (m : OccupancyGridmap) (origin : pose_t)
    (l : List point_t) (bi : index_t) (h : bi ∈ hit_indices E m origin l) :
    group E m origin l bi ≠ [] := by
  rw [hit_indices, mem_first_occurrences] at h
  obtain ⟨pm, hpm, e⟩ := List.mem_map.mp h
  intro hnil
  have : pm ∈ group E m origin l bi := by
    simp [group, hpm, e]
  rw [hnil] at this
  exact List.not_mem_nil _ this

theorem accumulate_data (E : Env) (m : OccupancyGridmap) (origin : pose_t)
    (l : List point_t) :
    accumulate E m origin l =
      ⟨(0, 0), (hit_indices E m origin l).map
        (fun bi => (bi, merged_cell (group E m origin l bi)))⟩ := by
  induction l using List.reverseRecOn with
  | nil => rfl
  | append_singleton l p ih =>
    rw [accumulate_concat, ih]
    by_cases hn : E.isNormal (origin.apply p) = true
    · have hcell : ∀ bi, merged_cell (group E m origin (l ++ [p]) bi) =
          if toBundleIndex m (origin.apply p) = bi
          then (merged_cell (group E m origin l bi)).updateOccupied (origin.apply p)
          else merged_cell (group E m origin l bi) := by
        intro bi
        rw [group_concat E m origin l p hn bi]
        by_cases h : toBundleIndex m (origin.apply p) = bi
        · rw [if_pos h, if_pos h, merged_cell_concat]
        · rw [if_neg h, if_neg h, List.append_nil]
      rw [hit_indices_concat E m origin l p hn]
      by_cases hi : toBundleIndex m (origin.apply p) ∈ hit_indices E m origin l
      · simp only [accumulate_point, hn, if_true, Storage.get, find_map_key, if_pos hi,
          Storage.modify, List.map_map]
        congr 1
        apply List.map_congr_left
        intro bi _
        simp only [Function.comp, hcell]
        by_cases h : toBundleIndex m (origin.apply p) = bi
        · simp [h]
        · have h2 : ¬ bi = toBundleIndex m (origin.apply p) := fun e => h e.symm
          simp [h, h2]
      · simp only [accumulate_point, hn, if_true, Storage.get, find_map_key, if_neg hi,
          Storage.modify, Storage.insert, List.map_append, List.map_map, List.map_cons,
          List.map_nil]
        congr 1
        congr 1
        · apply List.map_congr_left
          intro bi hbi
          have h : ¬ toBundleIndex m (origin.apply p) = bi := fun e => hi (e ▸ hbi)
          have h2 : ¬ bi = toBundleIndex m (origin.apply p) := fun e => h e.symm
          simp [Function.comp, hcell, h, h2]
        · simp only [hcell, if_true]
          rw [group_eq_nil E m origin l _ hi]
          rfl
    · have hv : valid_points E origin (l ++ [p]) = valid_points E origin l := by
        rw [valid_points_concat]; simp [hn]
      simp [accumulate_point, hn, hit_indices, group, hv]

theorem insert_visit_history (E : Env) (m0 m : OccupancyGridmap) (origin : pose_t)
    (e : index_t × distribution_t) (h : same_parameters m0 m) :
    same_parameters m0 (insert_visit E (m0.m_T_w.apply origin.translation) m e.1 e.2) ∧
    (insert_visit E (m0.m_T_w.apply origin.translation) m e.1 e.2).history =
      m.history ++ visit_updates E m0 origin e := by
  unfold insert_visit visit_updates
  cases hd : e.2.getDistribution with
  | none => exact ⟨h, by simp⟩
  | some dist =>
    obtain ⟨h1, h2⟩ := foldl_updateFree_n e.2.numOccupied
      (E.line (m0.m_T_w.apply origin.translation) (m.m_T_w.apply dist.getMean)
        m.bundle_resolution) (updateOccupied_d m e.1 dist)
    refine ⟨same_parameters_trans h
      (same_parameters_trans (updateOccupied_d_parameters m e.1 dist) h1), ?_⟩
    rw [h2, updateOccupied_d_history, h.2.2.2.2.2.1, h.2.2.1, List.append_assoc,
      List.singleton_append]

theorem foldl_insert_visit (E : Env) (m0 : OccupancyGridmap) (origin : pose_t)
    (es : List (index_t × distribution_t)) (m : OccupancyGridmap)
    (h : same_parameters m0 m) :
    same_parameters m0
      (es.foldl (fun st e => insert_visit E (m0.m_T_w.apply origin.translation) st e.1 e.2) m) ∧
    (es.foldl (fun st e => insert_visit E (m0.m_T_w.apply origin.translation) st e.1 e.2)
      m).history = m.history ++ es.flatMap (visit_updates E m0 origin) := by
  induction es generalizing m with
  | nil => exact ⟨h, by simp⟩
  | cons e es ih =>
    obtain ⟨h1, h2⟩ := insert_visit_history E m0 m origin e h
    obtain ⟨h3, h4⟩ := ih _ h1
    exact ⟨h3, by simp only [List.foldl_cons, h4, h2, List.flatMap_cons, List.append_assoc]⟩

theorem visit_updates_merged_cell (E : Env) (m : OccupancyGridmap) (origin : pose_t)
    (bi : index_t) (g : List point_t) (h : g ≠ []) :
    visit_updates E m origin (bi, merged_cell g) = group_updates E m origin bi g := by
  simp [visit_updates, group_updates, merged_cell_eq g h,
    OccupancyDistribution.getDistribution, OccupancyDistribution.numOccupied]

theorem insert_history (E : Env) (m : OccupancyGridmap) (origin : pose_t)
    (points : List point_t) :
    (insert E m origin points).history =
      m.history ++ (hit_indices E m origin points).flatMap
        (fun bi => group_updates E m origin bi (group E m origin points bi)) := by
  unfold insert Storage.traverse
  rw [(foldl_insert_visit E m origin _ m (same_parameters_refl m)).2, accumulate_data,
    List.flatMap_map]
  congr 1
  apply List.flatMap_congr
  intro bi hbi
  exact visit_updates_merged_cell E m origin bi _ (group_ne_nil E m origin points bi hbi)

theorem eq_singleton_of_nodup {l : List index_t} {bi : index_t} (hne : l ≠ [])
    (hnd : l.Nodup) (hall : ∀ x ∈ l, x = bi) : l = [bi] := by
  match l, hne, hnd, hall with
  | [a], _, _, hall => rw [hall a (List.mem_singleton_self a)]
  | a :: b :: t, _, hnd, hall =>
    exfalso
    have ha := hall a (List.mem_cons_self a _)
    have hb := hall b (List.mem_cons_of_mem a (List.mem_cons_self b _))
    rw [List.nodup_cons] at hnd
    exact hnd.1 (by rw [ha, ← hb]; exact List.mem_cons_self b _)

theorem mem_hit_indices (E : Env) (m : OccupancyGridmap) (origin : pose_t)
    (points : List point_t) (bi : index_t) :
    bi ∈ hit_indices E m origin points ↔
      ∃ p ∈ points, E.isNormal (origin.apply p) = true ∧
        toBundleIndex m (origin.apply p) = bi := by
  simp only [hit_indices, mem_first_occurrences, valid_points, List.mem_map, List.mem_filter]
  constructor
  · rintro ⟨pm, ⟨⟨p, hp, rfl⟩, hn⟩, e⟩
    exact ⟨p, hp, hn, e⟩
  · rintro ⟨p, hp, hn, e⟩
    exact ⟨origin.apply p, ⟨⟨p, hp, rfl⟩, hn⟩, e⟩

/-! ## Invalid points -/

theorem foldl_accumulate_point_filter (E : Env) (m : OccupancyGridmap) (origin : pose_t)
    (finite : point_t → Bool) (hfinite : ∀ p, E.isNormal p = true → finite p = true)
    (points : List point_t) (s : distribution_storage_t) :
    (points.filter (fun p => finite (origin.apply p))).foldl (accumulate_point E m origin) s =
      points.foldl (accumulate_point E m origin) s := by
  induction points generalizing s with
  | nil => rfl
  | cons p ps ih =>
    by_cases hk : finite (origin.apply p) = true
    · simp only [List.filter_cons, hk, if_true, List.foldl_cons]
      exact ih _
    · have hn : ¬ E.isNormal (origin.apply p) = true := fun h => hk (hfinite _ h)
      have hstep : accumulate_point E m origin s p = s := by
        simp [accumulate_point, hn]
      simp only [List.filter_cons, hk, if_false, List.foldl_cons, hstep]
      exact ih _

theorem foldl_accumulate_point_invalid (E : Env) (m : OccupancyGridmap) (origin : pose_t)
    (points : List point_t) (h : ∀ p ∈ points, E.isNormal (origin.apply p) = false)
    (s : distribution_storage_t) :
    points.foldl (accumulate_point E m origin) s = s := by
  induction points generalizing s with
  | nil => rfl
  | cons p ps ih =>
    have hstep : accumulate_point E m origin s p = s := by
      simp [accumulate_point, h p (List.mem_cons_self p ps)]
    rw [List.foldl_cons, hstep]
    exact ih (fun q hq => h q (List.mem_cons_of_mem p hq)) s

/-- C6: let `finite` be any property of points that holds of every point passing the validity
test `isNormal` (a point with a non-finite coordinate fails the test). Then `insert` and
`insertVisible` yield the same state on a cloud and on the cloud without the points whose
transformed point is not `finite`; both are total, so no error is raised; and on a cloud
none of whose transformed points is `finite` they return the state unchanged. -/
theorem insert_drops_invalid_points (E : Env) (m : OccupancyGridmap) (origin : pose_t)
    (points : List point_t) (ivm ivm_visibility : inverse_sensor_model_t)
    (finite : point_t → Bool) (hfinite : ∀ p, E.isNormal p = true → finite p = true) :
    insert E m origin (points.filter (fun p => finite (origin.apply p))) =
      insert E m origin points ∧
    insertVisible E m origin (points.filter (fun p => finite (origin.apply p)))
        ivm ivm_visibility =
      insertVisible E m origin points ivm ivm_visibility ∧
    ((∀ p ∈ points, finite (origin.apply p) = false) →
      insert E m origin points = m ∧
      insertVisible E m origin points ivm ivm_visibility = m) := by
  have hacc : accumulate E m origin (points.filter (fun p => finite (origin.apply p))) =
      accumulate E m origin points :=
    foldl_accumulate_point_filter E m origin finite hfinite points Storage.empty
  refine ⟨?_, ?_, ?_⟩
  · unfold insert
    rw [hacc]
  · unfold insertVisible
    rw [hacc]
  · intro hall
    have hinv : ∀ p ∈ points, E.isNormal (origin.apply p) = false := by
      intro p hp
      cases hn : E.isNormal (origin.apply p) with
      | false => rfl
      | true =>
        have h1 := hfinite _ hn
        rw [hall p hp] at h1
        exact absurd h1 (by simp)
    have hempty : accumulate E m origin points = Storage.empty :=
      foldl_accumulate_point_invalid E m origin points hinv Storage.empty
    constructor
    · unfold insert
      rw [hempty]
      rfl
    · unfold insertVisible
      rw [hempty]
      rfl

/-- Witness of C6: validity is "no zero coordinate", `finite` is "non-zero first coordinate";
the cloud holds the points (1, 1), (0, 3) and (2, 0). -/
theorem insert_drops_invalid_points_witness :
    insert sample_env sample_map transform_t.identity
        (([⟨1, 1⟩, ⟨0, 3⟩, ⟨2, 0⟩] : List point_t).filter
          (fun p => decide ((transform_t.identity.apply p).x ≠ 0))) =
      insert sample_env sample_map transform_t.identity [⟨1, 1⟩, ⟨0, 3⟩, ⟨2, 0⟩] :=
  (insert_drops_invalid_points sample_env sample_map transform_t.identity
    [⟨1, 1⟩, ⟨0, 3⟩, ⟨2, 0⟩] ⟨1/2, 3/10, 7/10⟩ ⟨1/2, 3/10, 7/10⟩
    (fun p => decide (p.x ≠ 0))
    (by
      intro p hp
      simp only [sample_env, Bool.and_eq_true, decide_eq_true_eq] at hp
      simpa using hp.1)).1

/-! ## Visibility-attenuated insertion -/

theorem occupancy_snd (E : Env) (ivm : inverse_sensor_model_t) (m : OccupancyGridmap)
    (bi : index_t) : (occupancy E ivm m bi).2 = (getAllocate m bi).2 := rfl

theorem current_visibility_snd (E : Env) (ivm ivm_visibility : inverse_sensor_model_t)
    (start_bi : index_t) (m : OccupancyGridmap) (bi : index_t) :
    (current_visibility E ivm ivm_visibility start_bi m bi).2 =
      (getAllocate (getAllocate m (current_visibility_x start_bi bi)).2
        (current_visibility_y start_bi bi)).2 := rfl

theorem current_visibility_history (E : Env) (ivm ivm_visibility : inverse_sensor_model_t)
    (start_bi : index_t) (m : OccupancyGridmap) (bi : index_t) :
    (current_visibility E ivm ivm_visibility start_bi m bi).2.history = m.history := by
  rw [current_visibility_snd, getAllocate_history, getAllocate_history]

theorem current_visibility_parameters (E : Env) (ivm ivm_visibility : inverse_sensor_model_t)
    (start_bi : index_t) (m : OccupancyGridmap) (bi : index_t) :
    same_parameters m (current_visibility E ivm ivm_visibility start_bi m bi).2 := by
  rw [current_visibility_snd]
  exact same_parameters_trans (getAllocate_parameters _ _) (getAllocate_parameters _ _)

theorem insertVisible_walk_cons (E : Env) (ivm ivm_visibility : inverse_sensor_model_t)
    (start_bi : index_t) (n : Nat) (bit : index_t) (rest : List index_t) (v : ℚ)
    (m : OccupancyGridmap) :
    insertVisible_walk E ivm ivm_visibility start_bi n (bit :: rest) v m =
      if v * (current_visibility E ivm ivm_visibility start_bi m bit).1 <
          ivm_visibility.getProbPrior
      then ((current_visibility E ivm ivm_visibility start_bi m bit).2, none)
      else insertVisible_walk E ivm ivm_visibility start_bi n rest
        (v * (current_visibility E ivm ivm_visibility start_bi m bit).1)
        (updateFree_n (current_visibility E ivm ivm_visibility start_bi m bit).2 bit n) := by
  rw [insertVisible_walk]

theorem insertVisible_walk_append (E : Env) (ivm ivm_visibility : inverse_sensor_model_t)
    (start_bi : index_t) (n : Nat) (pre rest : List index_t) (v : ℚ) (m : OccupancyGridmap) :
    insertVisible_walk E ivm ivm_visibility start_bi n (pre ++ rest) v m =
      match (insertVisible_walk E ivm ivm_visibility start_bi n pre v m).2 with
      | none => insertVisible_walk E ivm ivm_visibility start_bi n pre v m
      | some v1 => insertVisible_walk E ivm ivm_visibility start_bi n rest v1
          (insertVisible_walk E ivm ivm_visibility start_bi n pre v m).1 := by
  induction pre generalizing v m with
  | nil => simp [insertVisible_walk]
  | cons b bs ih =>
    rw [List.cons_append, insertVisible_walk_cons, insertVisible_walk_cons]
    by_cases h : v * (current_visibility E ivm ivm_visibility start_bi m b).1 <
        ivm_visibility.getProbPrior
    · simp only [if_pos h]
    · simp only [if_neg h]
      exact ih _ _

theorem insertVisible_walk_history (E : Env) (ivm ivm_visibility : inverse_sensor_model_t)
    (start_bi : index_t) (n : Nat) (cells : List index_t) (v : ℚ) (m : OccupancyGridmap) :
    same_parameters m (insertVisible_walk E ivm ivm_visibility start_bi n cells v m).1 ∧
    ∃ k, k ≤ cells.length ∧
      (insertVisible_walk E ivm ivm_visibility start_bi n cells v m).1.history =
        m.history ++ (cells.take k).map (fun c => update_t.free c n) ∧
      ((insertVisible_walk E ivm ivm_visibility start_bi n cells v m).2 ≠ none →
        k = cells.length) := by
  induction cells generalizing v m with
  | nil => exact ⟨same_parameters_refl m, 0, le_refl _, by simp [insertVisible_walk], fun _ => rfl⟩
  | cons b bs ih =>
    rw [insertVisible_walk_cons]
    by_cases h : v * (current_visibility E ivm ivm_visibility start_bi m b).1 <
        ivm_visibility.getProbPrior
    · simp only [if_pos h]
      exact ⟨current_visibility_parameters _ _ _ _ _ _, 0, Nat.zero_le _,
        by simp [current_visibility_history], fun hne => absurd rfl hne⟩
    · simp only [if_neg h]
      obtain ⟨hp, k, hk, hh, hfull⟩ := ih (v * (current_visibility E ivm ivm_visibility
        start_bi m b).1) (updateFree_n (current_visibility E ivm ivm_visibility
        start_bi m b).2 b n)
      refine ⟨same_parameters_trans (current_visibility_parameters _ _ _ _ _ _)
        (same_parameters_trans (updateFree_n_parameters _ _ _) hp), k + 1,
        by simpa using hk, ?_, fun hne => by simp [hfull hne]⟩
      rw [hh, updateFree_n_history, current_visibility_history]
      simp

theorem insertVisible_walk_complete_history (E : Env)
    (ivm ivm_visibility : inverse_sensor_model_t) (start_bi : index_t) (n : Nat)
    (cells : List index_t) (v v1 : ℚ) (m m1 : OccupancyGridmap)
    (h : insertVisible_walk E ivm ivm_visibility start_bi n cells v m = (m1, some v1)) :
    m1.history = m.history ++ cells.map (fun c => update_t.free c n) := by
  obtain ⟨_, k, _, hh, hfull⟩ :=
    insertVisible_walk_history E ivm ivm_visibility start_bi n cells v m
  rw [h] at hh hfull
  have hk : k = cells.length := hfull (by simp)
  rw [hh, hk, List.take_length]

/-- C8: in the visitor of `insertVisible`, let the walk over the cells `pre` of the ray have
completed with running visibility `v1` in state `m1`, and let `c` be the next cell. The free
updates made so far are those of `pre`. If the running visibility including the factor of `c`
is below the prior, the walk over the whole ray stops at `c`: the visitor returns the state in
which the factor of `c` was evaluated, and its updates are the free updates of `pre` alone, so
no free update on `c` or a later cell and no occupied update is made. If it is not below the
prior, the free update on `c` is made and the walk goes on from the multiplied visibility. -/
theorem insertVisible_stops_below_prior (E : Env) (ivm ivm_visibility : inverse_sensor_model_t)
    (start_bi : index_t) (start_p : point_t) (m m1 : OccupancyGridmap) (bi : index_t)
    (d : distribution_t) (dist : Distribution) (pre post : List index_t) (c : index_t) (v1 : ℚ)
    (hd : d.getDistribution = some dist)
    (hline : E.line start_p (m.m_T_w.apply dist.getMean) m.bundle_resolution = pre ++ c :: post)
    (hpre : insertVisible_walk E ivm ivm_visibility start_bi d.numOccupied pre 1.0 m =
      (m1, some v1)) :
    m1.history = m.history ++ pre.map (fun x => update_t.free x d.numOccupied) ∧
    (v1 * (current_visibility E ivm ivm_visibility start_bi m1 c).1 <
        ivm_visibility.getProbPrior →
      insertVisible_walk E ivm ivm_visibility start_bi d.numOccupied (pre ++ c :: post) 1.0 m =
        ((current_visibility E ivm ivm_visibility start_bi m1 c).2, none) ∧
      insertVisible_visit E ivm ivm_visibility start_bi start_p m bi d =
        (current_visibility E ivm ivm_visibility start_bi m1 c).2 ∧
      (insertVisible_visit E ivm ivm_visibility start_bi start_p m bi d).history =
        m.history ++ pre.map (fun x => update_t.free x d.numOccupied)) ∧
    (ivm_visibility.getProbPrior ≤
        v1 * (current_visibility E ivm ivm_visibility start_bi m1 c).1 →
      insertVisible_walk E ivm ivm_visibility start_bi d.numOccupied (pre ++ c :: post) 1.0 m =
        insertVisible_walk E ivm ivm_visibility start_bi d.numOccupied post
          (v1 * (current_visibility E ivm ivm_visibility start_bi m1 c).1)
          (updateFree_n (current_visibility E ivm ivm_visibility start_bi m1 c).2 c
            d.numOccupied) ∧
      (updateFree_n (current_visibility E ivm ivm_visibility start_bi m1 c).2 c
          d.numOccupied).history =
        m.history ++ (pre ++ [c]).map (fun x => update_t.free x d.numOccupied)) := by
  have hhist := insertVisible_walk_complete_history E ivm ivm_visibility start_bi d.numOccupied
    pre 1.0 v1 m m1 hpre
  have hsplit : insertVisible_walk E ivm ivm_visibility start_bi d.numOccupied
      (pre ++ c :: post) 1.0 m =
      insertVisible_walk E ivm ivm_visibility start_bi d.numOccupied (c :: post) v1 m1 := by
    rw [insertVisible_walk_append, hpre]
  refine ⟨hhist, ?_, ?_⟩
  · intro hlow
    have hw : insertVisible_walk E ivm ivm_visibility start_bi d.numOccupied
        (pre ++ c :: post) 1.0 m =
        ((current_visibility E ivm ivm_visibility start_bi m1 c).2, none) := by
      rw [hsplit, insertVisible_walk_cons, if_pos hlow]
    have hv : insertVisible_visit E ivm ivm_visibility start_bi start_p m bi d =
        (current_visibility E ivm ivm_visibility start_bi m1 c).2 := by
      unfold insertVisible_visit
      simp only [hd, hline, hw]
    refine ⟨hw, hv, ?_⟩
    rw [hv, current_visibility_history, hhist]
  · intro hge
    refine ⟨?_, ?_⟩
    · rw [hsplit, insertVisible_walk_cons, if_neg (not_lt.mpr hge)]
    · rw [updateFree_n_history, current_visibility_history, hhist]
      simp

/-- Witness of C8: on the fresh example map the ray from (1/4, 1/4) to (1, 1) visits the
cells (0, 0) and (2, 2); the factor is 7/10 at each, so with prior 1/2 the walk makes the free
update on (0, 0) and stops at (2, 2). -/
theorem insertVisible_stops_below_prior_witness :
    (insertVisible_visit sample_env sample_ivm sample_ivm (0, 0) ⟨1/4, 1/4⟩ sample_map (2, 2)
        sample_hit).history =
      sample_map.history ++
        ([(0, 0)] : List index_t).map (fun x => update_t.free x sample_hit.numOccupied) :=
  ((insertVisible_stops_below_prior sample_env sample_ivm sample_ivm (0, 0) ⟨1/4, 1/4⟩
    sample_map
    (insertVisible_walk sample_env sample_ivm sample_ivm (0, 0) sample_hit.numOccupied
      [(0, 0)] 1.0 sample_map).1
    (2, 2) sample_hit (merged [⟨1, 1⟩]) [(0, 0)] [] (2, 2) (7/10)
    (by decide!) (by decide!) (Prod.ext rfl (by decide!))).2.1 (by decide!)).2.2

theorem literal_one : (1.0 : ℚ) = 1 := by norm_num

/-- Counterexample to C10 as stated: for the sensor cell (0, 0) and the cell (0, 3), which lies
in the sensor's column, the X-neighbour used is (1, 3), which is not closer to the sensor
along X than (0, 3) is. -/
theorem current_visibility_x_not_closer :
    current_visibility_x (0, 0) (0, 3) = (1, 3) ∧
    ¬ (|(current_visibility_x (0, 0) (0, 3)).1 - (0, 0).1| < |((0, 3) : index_t).1 - (0, 0).1|) := by
  decide

/-- C10 amended: the visibility factor at `bi` is probFree*o + probOccupied*(1-o), with `o` the
minimum of the 4-way mean occupancies of two neighbours of `bi`, read one after the other. The
X-neighbour is adjacent to `bi` along X: it is the cell one step towards the sensor column when
`bi` is outside that column, hence strictly closer to the sensor along X, and the cell at
x + 1 when `bi` is in the sensor column. The Y-neighbour is chosen likewise along Y. -/
theorem current_visibility_neighbours (E : Env) (ivm ivm_visibility : inverse_sensor_model_t)
    (s : index_t) (m : OccupancyGridmap) (bi : index_t) :
    (current_visibility E ivm ivm_visibility s m bi).1 =
      ivm_visibility.getProbFree *
          min (occupancy E ivm m (current_visibility_x s bi)).1
            (occupancy E ivm (occupancy E ivm m (current_visibility_x s bi)).2
              (current_visibility_y s bi)).1 +
        ivm_visibility.getProbOccupied *
          (1 - min (occupancy E ivm m (current_visibility_x s bi)).1
            (occupancy E ivm (occupancy E ivm m (current_visibility_x s bi)).2
              (current_visibility_y s bi)).1) ∧
    (∀ (st : OccupancyGridmap) (i : index_t), (occupancy E ivm st i).1 =
      0.25 * ∑ k : Fin 4,
        match (getDistributionBundle st i).2.cell k ((getDistributionBundle st i).1.slot k) with
        | some d => E.getOccupancy d ivm
        | none => 0) ∧
    ((current_visibility_x s bi).2 = bi.2 ∧ |(current_visibility_x s bi).1 - bi.1| = 1) ∧
    (bi.1 ≠ s.1 → |(current_visibility_x s bi).1 - s.1| < |bi.1 - s.1|) ∧
    (bi.1 = s.1 → (current_visibility_x s bi).1 = bi.1 + 1 ∧
      |(current_visibility_x s bi).1 - s.1| = 1) ∧
    ((current_visibility_y s bi).1 = bi.1 ∧ |(current_visibility_y s bi).2 - bi.2| = 1) ∧
    (bi.2 ≠ s.2 → |(current_visibility_y s bi).2 - s.2| < |bi.2 - s.2|) ∧
    (bi.2 = s.2 → (current_visibility_y s bi).2 = bi.2 + 1 ∧
      |(current_visibility_y s bi).2 - s.2| = 1) := by
  refine ⟨?_, ?_, ⟨rfl, ?_⟩, ?_, ?_, ⟨rfl, ?_⟩, ?_, ?_⟩
  · simp only [current_visibility, literal_one]
  · intro st i
    simp only [occupancy, Fin.sum_univ_four]
  · simp only [current_visibility_x]
    split <;> simp
  · intro h
    simp only [current_visibility_x]
    by_cases hgt : bi.1 > s.1
    · rw [if_pos hgt, abs_of_pos (show 0 < bi.1 - s.1 by omega),
        abs_of_nonneg (show 0 ≤ bi.1 + -1 - s.1 by omega)]
      omega
    · rw [if_neg hgt, abs_of_neg (show bi.1 - s.1 < 0 by omega),
        abs_of_nonpos (show bi.1 + 1 - s.1 ≤ 0 by omega)]
      omega
  · intro h
    simp only [current_visibility_x]
    rw [if_neg (by omega)]
    exact ⟨rfl, by rw [h]; simp⟩
  · simp only [current_visibility_y]
    split <;> simp
  · intro h
    simp only [current_visibility_y]
    by_cases hgt : bi.2 > s.2
    · rw [if_pos hgt, abs_of_pos (show 0 < bi.2 - s.2 by omega),
        abs_of_nonneg (show 0 ≤ bi.2 + -1 - s.2 by omega)]
      omega
    · rw [if_neg hgt, abs_of_neg (show bi.2 - s.2 < 0 by omega),
        abs_of_nonpos (show bi.2 + 1 - s.2 ≤ 0 by omega)]
      omega
  · intro h
    simp only [current_visibility_y]
    rw [if_neg (by omega)]
    exact ⟨rfl, by rw [h]; simp⟩

/-- Witness of C10 amended: the sensor at (0, 0) and the cell (2, -3), outside the sensor's
column and row. -/
theorem current_visibility_neighbours_witness :
    |(current_visibility_x (0, 0) (2, -3)).1 - ((0, 0) : index_t).1| <
        |((2, -3) : index_t).1 - ((0, 0) : index_t).1| ∧
    |(current_visibility_y (0, 0) (2, -3)).2 - ((0, 0) : index_t).2| <
        |((2, -3) : index_t).2 - ((0, 0) : index_t).2| :=
  ⟨(current_visibility_neighbours sample_env sample_ivm sample_ivm (0, 0) sample_map
      (2, -3)).2.2.2.1 (by decide),
   (current_visibility_neighbours sample_env sample_ivm sample_ivm (0, 0) sample_map
      (2, -3)).2.2.2.2.2.2.1 (by decide)⟩

/-! ## Effect of the updates on the cells -/

theorem well_formed_mk_pose (origin : pose_t) (resolution : ℚ) (size : Nat × Nat) :
    well_formed (mk_pose origin resolution size) := by
  intro e he
  simp [mk_pose, Storage.set_array_size, Storage.empty] at he

theorem mem_of_find {α : Type} (l : List (index_t × α)) (i : index_t) (v : α)
    (h : Storage.find l i = some v) : (i, v) ∈ l := by
  induction l with
  | nil => simp [Storage.find] at h
  | cons e es ih =>
    by_cases he : e.1 = i
    · simp only [Storage.find, if_pos he, Option.some.injEq] at h
      rw [← he, ← h]
      exact List.mem_cons_self e es
    · simp only [Storage.find, if_neg he] at h
      exact List.mem_cons_of_mem e (ih h)

theorem well_formed_get {m : OccupancyGridmap} (h : well_formed m) (bi : index_t)
    (b : distribution_bundle_t) (hb : m.bundle_storage.get bi = some b) :
    b = bundle_slots bi ∧ ∀ k : Fin 4, (m.cell k (b.slot k)).isSome = true :=
  h (bi, b) (mem_of_find _ _ _ hb)

theorem cell_modify_cell (m : OccupancyGridmap) (k : Fin 4) (i : index_t)
    (f : distribution_t → distribution_t) (k2 : Fin 4) (c : index_t) :
    (modify_cell m k i f).cell k2 c =
      if k2 = k ∧ i = c then (m.cell k2 c).map f else m.cell k2 c := by
  unfold cell modify_cell
  by_cases hk : k2 = k
  · subst hk
    simp [Function.update_same, Storage.get_modify]
  · simp [Function.update_noteq hk, hk]

theorem cell_update_slots (m : OccupancyGridmap) (b : distribution_bundle_t)
    (f : distribution_t → distribution_t) (k : Fin 4) (c : index_t) :
    (update_slots m b f).cell k c =
      if b.slot k = c then (m.cell k c).map f else m.cell k c := by
  simp only [update_slots, cell_modify_cell]
  fin_cases k <;> simp

theorem cell_record (m : OccupancyGridmap) (u : update_t) (k : Fin 4) (c : index_t) :
    (record m u).cell k c = m.cell k c := rfl

theorem getAllocate_fst_of_well_formed {m : OccupancyGridmap} (h : well_formed m)
    (bi : index_t) : (getAllocate m bi).1 = bundle_slots bi := by
  unfold getAllocate
  cases hg : m.bundle_storage.get bi with
  | some b => exact (well_formed_get h bi b hg).1
  | none => rfl

theorem cell_getAllocate_of_ne (m : OccupancyGridmap) (bi : index_t) (k : Fin 4) (c : index_t)
    (hne : (bundle_slots bi).slot k ≠ c) : (getAllocate m bi).2.cell k c = m.cell k c := by
  unfold getAllocate
  cases hg : m.bundle_storage.get bi with
  | some b => rfl
  | none =>
    simp only [cell, allocate_bundle_storage]
    exact getAllocate_cell_get_of_ne _ _ _ hne

theorem cell_getAllocate_slot {m : OccupancyGridmap} (h : well_formed m) (bi : index_t)
    (k : Fin 4) : ((getAllocate m bi).2.cell k ((bundle_slots bi).slot k)).isSome = true := by
  unfold getAllocate
  cases hg : m.bundle_storage.get bi with
  | some b =>
    have hb := well_formed_get h bi b hg
    rw [← hb.1]
    exact hb.2 k
  | none => exact allocate_bundle_cell_isSome m bi k

theorem cell_or_empty_getAllocate (m : OccupancyGridmap) (bi : index_t) (k : Fin 4)
    (c : index_t) : cell_or_empty (getAllocate m bi).2 k c = cell_or_empty m k c := by
  unfold cell_or_empty
  rcases getAllocate_cell_cases m bi k c with h | ⟨h1, h2⟩
  · rw [h]
  · rw [h1, h2]; rfl

theorem getAllocate_keeps_stored (m : OccupancyGridmap) (bi bj : index_t)
    (b : distribution_bundle_t) (h : m.bundle_storage.get bj = some b) :
    (getAllocate m bi).2.bundle_storage.get bj = some b := by
  unfold getAllocate
  cases hg : m.bundle_storage.get bi with
  | some b2 => exact h
  | none => exact Storage.get_insert_of_some _ _ _ _ _ h

theorem well_formed_getAllocate {m : OccupancyGridmap} (h : well_formed m) (bi : index_t) :
    well_formed (getAllocate m bi).2 := by
  intro e he
  have hcases : e ∈ m.bundle_storage.data ∨ e = (bi, bundle_slots bi) := by
    unfold getAllocate at he
    cases hg : m.bundle_storage.get bi with
    | some b => rw [hg] at he; exact Or.inl he
    | none =>
      rw [hg] at he
      simp only [allocate_bundle_bundle_storage, Storage.insert, List.mem_append,
        List.mem_singleton] at he
      exact he
  rcases hcases with hold | hnew
  · obtain ⟨h1, h2⟩ := h e hold
    refine ⟨h1, fun k => ?_⟩
    rcases getAllocate_cell_cases m bi k (e.2.slot k) with c | ⟨_, c⟩
    · rw [c]; exact h2 k
    · rw [c]; rfl
  · subst hnew
    exact ⟨rfl, fun k => cell_getAllocate_slot h bi k⟩

theorem well_formed_update {m : OccupancyGridmap} (h : well_formed m) (bi : index_t)
    (f : distribution_t → distribution_t) (u : update_t) :
    well_formed (record (update_slots (getAllocate m bi).2 (getAllocate m bi).1 f) u) := by
  intro e he
  rw [record_bundle_storage, update_slots_bundle_storage] at he
  obtain ⟨h1, h2⟩ := well_formed_getAllocate h bi e he
  refine ⟨h1, fun k => ?_⟩
  rw [cell_record, cell_update_slots]
  have h3 := h2 k
  split
  · obtain ⟨d, hd⟩ := Option.isSome_iff_exists.mp h3
    rw [hd]
    rfl
  · exact h3

theorem cell_or_empty_update {m : OccupancyGridmap} (h : well_formed m) (bi : index_t)
    (f : distribution_t → distribution_t) (u : update_t) (k : Fin 4) (c : index_t) :
    cell_or_empty (record (update_slots (getAllocate m bi).2 (getAllocate m bi).1 f) u) k c =
      if (bundle_slots bi).slot k = c then f (cell_or_empty m k c)
      else cell_or_empty m k c := by
  have hc := cell_or_empty_getAllocate m bi k c
  unfold cell_or_empty at hc ⊢
  rw [cell_record, cell_update_slots, getAllocate_fst_of_well_formed h]
  by_cases hs : (bundle_slots bi).slot k = c
  · rw [if_pos hs, if_pos hs]
    have hsome := cell_getAllocate_slot h bi k
    rw [hs] at hsome
    obtain ⟨d, hd⟩ := Option.isSome_iff_exists.mp hsome
    rw [hd] at hc ⊢
    simp only [Option.map_some', Option.getD_some] at hc ⊢
    rw [hc]
  · rw [if_neg hs, if_neg hs]
    exact hc

theorem cell_update_of_ne {m : OccupancyGridmap} (h : well_formed m) (bi : index_t)
    (f : distribution_t → distribution_t) (u : update_t) (k : Fin 4) (c : index_t)
    (hne : (bundle_slots bi).slot k ≠ c) :
    (record (update_slots (getAllocate m bi).2 (getAllocate m bi).1 f) u).cell k c =
      m.cell k c := by
  rw [cell_record, cell_update_slots, getAllocate_fst_of_well_formed h, if_neg hne]
  exact cell_getAllocate_of_ne m bi k c hne

theorem stored_update {m : OccupancyGridmap} (h : well_formed m) (bi : index_t)
    (f : distribution_t → distribution_t) (u : update_t) :
    (record (update_slots (getAllocate m bi).2 (getAllocate m bi).1 f) u).bundle_storage.get bi =
      some (bundle_slots bi) := by
  rw [record_bundle_storage, update_slots_bundle_storage, getAllocate_stored,
    getAllocate_fst_of_well_formed h]

theorem update_keeps_stored (m : OccupancyGridmap) (bi : index_t)
    (f : distribution_t → distribution_t) (u : update_t) (bj : index_t)
    (b : distribution_bundle_t) (hb : m.bundle_storage.get bj = some b) :
    (record (update_slots (getAllocate m bi).2 (getAllocate m bi).1 f) u).bundle_storage.get bj =
      some b := by
  rw [record_bundle_storage, update_slots_bundle_storage]
  exact getAllocate_keeps_stored m bi bj b hb

theorem foldl_updateFree_cells (l : List index_t) (m : OccupancyGridmap)
    (h : well_formed m) :
    well_formed (l.foldl (fun st bi => updateFree st bi) m) ∧
    (∀ k c, cell_or_empty (l.foldl (fun st bi => updateFree st bi) m) k c =
      ⟨(cell_or_empty m k c).num_free +
          l.countP (fun bi => decide ((bundle_slots bi).slot k = c)),
        (cell_or_empty m k c).num_occupied, (cell_or_empty m k c).distribution⟩) ∧
    (∀ k c, (∀ bi ∈ l, (bundle_slots bi).slot k ≠ c) →
      (l.foldl (fun st bi => updateFree st bi) m).cell k c = m.cell k c) ∧
    (∀ bj b, m.bundle_storage.get bj = some b →
      (l.foldl (fun st bi => updateFree st bi) m).bundle_storage.get bj = some b) ∧
    (∀ bi ∈ l, (l.foldl (fun st bi => updateFree st bi) m).bundle_storage.get bi =
      some (bundle_slots bi)) := by
  induction l generalizing m with
  | nil =>
    refine ⟨h, fun k c => ?_, fun _ _ _ => rfl, fun _ _ hb => hb, fun _ hbi => ?_⟩
    · simp
    · exact absurd hbi (List.not_mem_nil _)
  | cons a as ih =>
    have hwf : well_formed (updateFree m a) := well_formed_update h a _ _
    obtain ⟨h1, h2, h3, h4, h5⟩ := ih (updateFree m a) hwf
    refine ⟨h1, fun k c => ?_, fun k c hne => ?_, fun bj b hb => ?_, fun bi hbi => ?_⟩
    · rw [List.foldl_cons, h2 k c, updateFree_eq, cell_or_empty_update h]
      by_cases hs : (bundle_slots a).slot k = c
      · simp only [if_pos hs, List.countP_cons, hs, decide_True, if_true,
          OccupancyDistribution.updateFree]
        congr 1
        omega
      · simp [if_neg hs, List.countP_cons, hs]
    · rw [List.foldl_cons, h3 k c (fun bi hbi => hne bi (List.mem_cons_of_mem a hbi)),
        updateFree_eq]
      exact cell_update_of_ne h a _ _ k c (hne a (List.mem_cons_self a as))
    · rw [List.foldl_cons]
      exact h4 bj b (update_keeps_stored m a _ _ bj b hb)
    · rw [List.foldl_cons]
      rcases List.mem_cons.mp hbi with e | hmem
      · subst e
        exact h4 bi _ (stored_update h bi _ _)
      · exact h5 bi hmem

/-- C7: on a well-formed state, `add(start, end)` makes one occupied update with the point
`end` on the bundle at `toBundleIndex(end)` and then one free update of weight 1 on every
bundle index of the line traversal from `start` to `end` (both in the map frame, at bundle
resolution). The free count of every sub-grid cell grows by the number of traversed indices
whose bundle references the cell; the occupied count grows by one and the statistics gain the
point `end` exactly in the four cells of the end bundle; a cell that neither the end bundle
nor a traversed bundle references is left as it was; and the end bundle and the traversed
bundles are stored with the slots of their index. -/
theorem add_effect (E : Env) (m : OccupancyGridmap) (start_p end_p : point_t)
    (h : well_formed m) :
    (add E m start_p end_p).history =
      m.history ++ update_t.occupied_point (toBundleIndex m end_p) end_p ::
        (E.line (m.m_T_w.apply start_p) (m.m_T_w.apply end_p) m.bundle_resolution).map
          (fun bi => update_t.free bi 1) ∧
    (∀ k c, (cell_or_empty (add E m start_p end_p) k c).num_free =
      (cell_or_empty m k c).num_free +
        (E.line (m.m_T_w.apply start_p) (m.m_T_w.apply end_p) m.bundle_resolution).countP
          (fun bi => decide ((bundle_slots bi).slot k = c))) ∧
    (∀ k c, (cell_or_empty (add E m start_p end_p) k c).num_occupied =
      (cell_or_empty m k c).num_occupied +
        (if (bundle_slots (toBundleIndex m end_p)).slot k = c then 1 else 0)) ∧
    (∀ k c, (cell_or_empty (add E m start_p end_p) k c).distribution =
      if (bundle_slots (toBundleIndex m end_p)).slot k = c
      then some (((cell_or_empty m k c).distribution.getD Distribution.empty).add end_p)
      else (cell_or_empty m k c).distribution) ∧
    (∀ k c, (bundle_slots (toBundleIndex m end_p)).slot k ≠ c →
      (∀ bi ∈ E.line (m.m_T_w.apply start_p) (m.m_T_w.apply end_p) m.bundle_resolution,
        (bundle_slots bi).slot k ≠ c) →
      (add E m start_p end_p).cell k c = m.cell k c) ∧
    (∀ bi ∈ toBundleIndex m end_p ::
        E.line (m.m_T_w.apply start_p) (m.m_T_w.apply end_p) m.bundle_resolution,
      (add E m start_p end_p).bundle_storage.get bi = some (bundle_slots bi)) ∧
    well_formed (add E m start_p end_p) := by
  have hwf1 : well_formed (updateOccupied m (toBundleIndex m end_p) end_p) :=
    well_formed_update h _ _ _
  have hcell1 : ∀ k c, cell_or_empty (updateOccupied m (toBundleIndex m end_p) end_p) k c =
      if (bundle_slots (toBundleIndex m end_p)).slot k = c
      then (cell_or_empty m k c).updateOccupied end_p else cell_or_empty m k c := by
    intro k c
    rw [updateOccupied_eq, cell_or_empty_update h]
  obtain ⟨h1, h2, h3, h4, h5⟩ := foldl_updateFree_cells
    (E.line (m.m_T_w.apply start_p) (m.m_T_w.apply end_p) m.bundle_resolution)
    (updateOccupied m (toBundleIndex m end_p) end_p) hwf1
  have hadd : add E m start_p end_p =
      (E.line (m.m_T_w.apply start_p) (m.m_T_w.apply end_p) m.bundle_resolution).foldl
        (fun st bi => updateFree st bi) (updateOccupied m (toBundleIndex m end_p) end_p) := rfl
  rw [hadd]
  refine ⟨?_, fun k c => ?_, fun k c => ?_, fun k c => ?_, fun k c hne hray => ?_,
    fun bi hbi => ?_, h1⟩
  · rw [(foldl_updateFree _ _).2, updateOccupied_history, List.append_assoc,
      List.singleton_append]
  · rw [h2 k c, hcell1 k c]
    split <;> rfl
  · rw [h2 k c, hcell1 k c]
    split <;> rfl
  · rw [h2 k c, hcell1 k c]
    split <;> rfl
  · rw [h3 k c hray, updateOccupied_eq]
    exact cell_update_of_ne h _ _ _ k c hne
  · rcases List.mem_cons.mp hbi with e | hmem
    · subst e
      refine h4 _ _ ?_
      rw [updateOccupied_eq]
      exact stored_update h _ _ _
    · exact h5 bi hmem

/-- Witness of C7: a second beam, from (1/4, 1/4) to (3/4, 1/4), on the example map after a
first beam from (1/4, 1/4) to (1, 1); the cell (0, 0) of sub-grid 0 is referenced by the
bundles of the traversed indices. -/
theorem add_effect_witness :
    (cell_or_empty (add sample_env (add sample_env sample_map ⟨1/4, 1/4⟩ ⟨1, 1⟩)
        ⟨1/4, 1/4⟩ ⟨3/4, 1/4⟩) 0 (0, 0)).num_free =
      (cell_or_empty (add sample_env sample_map ⟨1/4, 1/4⟩ ⟨1, 1⟩) 0 (0, 0)).num_free +
        (sample_env.line
          ((add sample_env sample_map ⟨1/4, 1/4⟩ ⟨1, 1⟩).m_T_w.apply ⟨1/4, 1/4⟩)
          ((add sample_env sample_map ⟨1/4, 1/4⟩ ⟨1, 1⟩).m_T_w.apply ⟨3/4, 1/4⟩)
          (add sample_env sample_map ⟨1/4, 1/4⟩ ⟨1, 1⟩).bundle_resolution).countP
          (fun bi => decide ((bundle_slots bi).slot 0 = (0, 0))) :=
  (add_effect sample_env (add sample_env sample_map ⟨1/4, 1/4⟩ ⟨1, 1⟩) ⟨1/4, 1/4⟩ ⟨3/4, 1/4⟩
    (by decide!)).2.1 0 (0, 0)

/-! ## Evolution of the state under the public methods -/

theorem evolves_trans {a b c : OccupancyGridmap} (h1 : evolves a b) (h2 : evolves b c) :
    evolves a c := by
  induction h2 with
  | refl => exact h1
  | allocate bi _ ih => exact evolves.allocate bi ih
  | modify k i f _ ih => exact evolves.modify k i f ih
  | record u _ ih => exact evolves.record u ih

theorem evolves_getAllocate (m : OccupancyGridmap) (bi : index_t) :
    evolves m (getAllocate m bi).2 :=
  evolves.allocate bi (evolves.refl m)

theorem evolves_update_slots (m : OccupancyGridmap) (b : distribution_bundle_t)
    (f : distribution_t → distribution_t) : evolves m (update_slots m b f) :=
  evolves.modify 3 _ f (evolves.modify 2 _ f (evolves.modify 1 _ f
    (evolves.modify 0 _ f (evolves.refl m))))

theorem evolves_update (m : OccupancyGridmap) (bi : index_t)
    (f : distribution_t → distribution_t) (u : update_t) :
    evolves m (record (update_slots (getAllocate m bi).2 (getAllocate m bi).1 f) u) :=
  evolves.record u (evolves_trans (evolves_getAllocate m bi) (evolves_update_slots _ _ f))

theorem evolves_updateFree (m : OccupancyGridmap) (bi : index_t) :
    evolves m (updateFree m bi) := evolves_update m bi _ _

theorem evolves_updateFree_n (m : OccupancyGridmap) (bi : index_t) (n : Nat) :
    evolves m (updateFree_n m bi n) := evolves_update m bi _ _

theorem evolves_updateOccupied (m : OccupancyGridmap) (bi : index_t) (p : point_t) :
    evolves m (updateOccupied m bi p) := evolves_update m bi _ _

theorem evolves_updateOccupied_d (m : OccupancyGridmap) (bi : index_t) (d : Distribution) :
    evolves m (updateOccupied_d m bi d) := evolves_update m bi _ _

theorem evolves_foldl {α : Type} (f : OccupancyGridmap → α → OccupancyGridmap)
    (hf : ∀ st x, evolves st (f st x)) (l : List α) (m : OccupancyGridmap) :
    evolves m (l.foldl f m) := by
  induction l generalizing m with
  | nil => exact evolves.refl m
  | cons a as ih => exact evolves_trans (hf m a) (ih (f m a))

theorem evolves_add (E : Env) (m : OccupancyGridmap) (start_p end_p : point_t) :
    evolves m (add E m start_p end_p) :=
  evolves_trans (evolves_updateOccupied m _ end_p)
    (evolves_foldl _ (fun st bi => evolves_updateFree st bi) _ _)

theorem evolves_insert_visit (E : Env) (start_p : point_t) (m : OccupancyGridmap)
    (bi : index_t) (d : distribution_t) : evolves m (insert_visit E start_p m bi d) := by
  unfold insert_visit
  cases d.getDistribution with
  | none => exact evolves.refl m
  | some dist =>
    exact evolves_trans (evolves_updateOccupied_d m bi dist)
      (evolves_foldl _ (fun st c => evolves_updateFree_n st c _) _ _)

theorem evolves_insert (E : Env) (m : OccupancyGridmap) (origin : pose_t)
    (points : List point_t) : evolves m (insert E m origin points) := by
  unfold insert Storage.traverse
  exact evolves_foldl _
    (fun st (e : index_t × distribution_t) => evolves_insert_visit E _ st e.1 e.2) _ m

theorem evolves_current_visibility (E : Env) (ivm ivm_visibility : inverse_sensor_model_t)
    (start_bi : index_t) (m : OccupancyGridmap) (bi : index_t) :
    evolves m (current_visibility E ivm ivm_visibility start_bi m bi).2 := by
  rw [current_visibility_snd]
  exact evolves_trans (evolves_getAllocate _ _) (evolves_getAllocate _ _)

theorem evolves_insertVisible_walk (E : Env) (ivm ivm_visibility : inverse_sensor_model_t)
    (start_bi : index_t) (n : Nat) (cells : List index_t) (v : ℚ) (m : OccupancyGridmap) :
    evolves m (insertVisible_walk E ivm ivm_visibility start_bi n cells v m).1 := by
  induction cells generalizing v m with
  | nil => exact evolves.refl m
  | cons b bs ih =>
    rw [insertVisible_walk_cons]
    split
    · exact evolves_current_visibility E ivm ivm_visibility start_bi m b
    · exact evolves_trans (evolves_current_visibility E ivm ivm_visibility start_bi m b)
        (evolves_trans (evolves_updateFree_n _ b n) (ih _ _))

theorem evolves_insertVisible_visit (E : Env) (ivm ivm_visibility : inverse_sensor_model_t)
    (start_bi : index_t) (start_p : point_t) (m : OccupancyGridmap) (bi : index_t)
    (d : distribution_t) :
    evolves m (insertVisible_visit E ivm ivm_visibility start_bi start_p m bi d) := by
  unfold insertVisible_visit
  cases d.getDistribution with
  | none => exact evolves.refl m
  | some dist =>
    have hw := evolves_insertVisible_walk E ivm ivm_visibility start_bi d.numOccupied
      (E.line start_p (m.m_T_w.apply dist.getMean) m.bundle_resolution) 1.0 m
    simp only
    split
    · exact hw
    · split
      · exact evolves_trans hw (evolves_trans (evolves_current_visibility _ _ _ _ _ _)
          (evolves_updateOccupied_d _ _ _))
      · exact evolves_trans hw (evolves_current_visibility _ _ _ _ _ _)

theorem evolves_insertVisible (E : Env) (m : OccupancyGridmap) (origin : pose_t)
    (points : List point_t) (ivm ivm_visibility : inverse_sensor_model_t) :
    evolves m (insertVisible E m origin points ivm ivm_visibility) := by
  unfold insertVisible Storage.traverse
  exact evolves_foldl _
    (fun st (e : index_t × distribution_t) =>
      evolves_insertVisible_visit E _ _ _ _ st e.1 e.2) _ m

theorem evolves_sample_bi (E : Env) (m : OccupancyGridmap) (p : point_t) (bi : index_t)
    (ivm : Option inverse_sensor_model_t) : evolves m (sample_bi E m p bi ivm).2 := by
  cases ivm with
  | none => exact evolves.refl m
  | some model => exact evolves_getAllocate m bi

theorem evolves_sampleNonNormalized_bi (E : Env) (m : OccupancyGridmap) (p : point_t)
    (bi : index_t) (ivm : Option inverse_sensor_model_t) :
    evolves m (sampleNonNormalized_bi E m p bi ivm).2 := by
  cases ivm with
  | none => exact evolves.refl m
  | some model => exact evolves_getAllocate m bi

theorem evolves_apply_op (E : Env) (m : OccupancyGridmap) (op : operation) :
    evolves m (apply_op E m op) := by
  cases op with
  | add start_p end_p => exact evolves_add E m start_p end_p
  | insert origin points => exact evolves_insert E m origin points
  | insertVisible origin points ivm ivm_visibility =>
    exact evolves_insertVisible E m origin points ivm ivm_visibility
  | sample p ivm => exact evolves_sample_bi E m p _ ivm
  | sample_bi p bi ivm => exact evolves_sample_bi E m p bi ivm
  | sampleNonNormalized p ivm => exact evolves_sampleNonNormalized_bi E m p _ ivm
  | sampleNonNormalized_bi p bi ivm => exact evolves_sampleNonNormalized_bi E m p bi ivm
  | getDistributionBundle bi => exact evolves_getAllocate m bi
  | getBundleIndices indices => exact evolves.refl m
  | accessor => exact evolves.refl m

theorem evolves_run (E : Env) (m : OccupancyGridmap) (ops : List operation) :
    evolves m (run E m ops) :=
  evolves_foldl _ (evolves_apply_op E) ops m

/-! ## Invariants of the evolution -/

theorem modify_cell_parameters (m : OccupancyGridmap) (k : Fin 4) (i : index_t)
    (f : distribution_t → distribution_t) : same_parameters m (modify_cell m k i f) :=
  ⟨rfl, rfl, rfl, rfl, rfl, rfl, rfl⟩

theorem evolves_parameters {m m2 : OccupancyGridmap} (h : evolves m m2) :
    same_parameters m m2 := by
  induction h with
  | refl => exact same_parameters_refl m
  | allocate bi _ ih => exact same_parameters_trans ih (getAllocate_parameters _ bi)
  | modify k i f _ ih => exact same_parameters_trans ih (modify_cell_parameters _ k i f)
  | record u _ ih => exact same_parameters_trans ih (record_parameters _ u)

theorem find_eq_none_iff {α : Type} (l : List (index_t × α)) (i : index_t) :
    Storage.find l i = none ↔ i ∉ l.map Prod.fst := by
  induction l with
  | nil => simp [Storage.find]
  | cons e es ih =>
    by_cases h : e.1 = i
    · simp [Storage.find, h]
    · have h2 : ¬ i = e.1 := fun c => h c.symm
      simp [Storage.find, h, h2, ih]

theorem getAllocate_data (m : OccupancyGridmap) (bi : index_t) :
    (getAllocate m bi).2.bundle_storage.data =
      m.bundle_storage.data ++
        (if bi ∈ bundle_indices m then [] else [(bi, bundle_slots bi)]) := by
  unfold getAllocate
  cases hg : m.bundle_storage.get bi with
  | some b =>
    have hmem : bi ∈ bundle_indices m := by
      by_contra hc
      have := (find_eq_none_iff m.bundle_storage.data bi).mpr hc
      unfold Storage.get at hg
      rw [this] at hg
      exact absurd hg (by simp)
    simp [hmem]
  | none =>
    have hmem : bi ∉ bundle_indices m := (find_eq_none_iff _ bi).mp hg
    simp [hmem, allocate_bundle_bundle_storage, Storage.insert]

theorem evolves_grows {m m2 : OccupancyGridmap} (h : evolves m m2) :
    ∃ extra, m2.bundle_storage.data = m.bundle_storage.data ++ extra := by
  induction h with
  | refl => exact ⟨[], by simp⟩
  | allocate bi _ ih =>
    obtain ⟨extra, he⟩ := ih
    exact ⟨extra ++ _, by rw [getAllocate_data, he, List.append_assoc]⟩
  | modify k i f _ ih => exact ih
  | record u _ ih => exact ih

theorem evolves_keeps_stored {m m2 : OccupancyGridmap} (h : evolves m m2) (bi : index_t)
    (b : distribution_bundle_t) (hb : m.bundle_storage.get bi = some b) :
    m2.bundle_storage.get bi = some b := by
  obtain ⟨extra, he⟩ := evolves_grows h
  unfold Storage.get at hb ⊢
  rw [he, Storage.find_append, hb]
  rfl

theorem evolves_distinct {m m2 : OccupancyGridmap} (h : evolves m m2)
    (hd : (bundle_indices m).Nodup) : (bundle_indices m2).Nodup := by
  induction h with
  | refl => exact hd
  | allocate bi _ ih =>
    unfold bundle_indices
    rw [getAllocate_data]
    split
    · simpa using ih
    · rename_i hn
      rw [List.map_append]
      exact List.Nodup.append ih (by simp) (by simpa [bundle_indices] using hn)
  | modify k i f _ ih => exact ih
  | record u _ ih => exact ih

theorem modify_cell_well_formed {m : OccupancyGridmap} (h : well_formed m) (k : Fin 4)
    (i : index_t) (f : distribution_t → distribution_t) : well_formed (modify_cell m k i f) := by
  intro e he
  obtain ⟨h1, h2⟩ := h e he
  refine ⟨h1, fun k2 => ?_⟩
  rw [cell_modify_cell]
  have h3 := h2 k2
  split
  · obtain ⟨d, hd⟩ := Option.isSome_iff_exists.mp h3
    rw [hd]
    rfl
  · exact h3

theorem evolves_well_formed {m m2 : OccupancyGridmap} (h : evolves m m2)
    (hw : well_formed m) : well_formed m2 := by
  induction h with
  | refl => exact hw
  | allocate bi _ ih => exact well_formed_getAllocate ih bi
  | modify k i f _ ih => exact modify_cell_well_formed ih k i f
  | record u _ ih => exact ih

theorem mem_bundle_indices (m : OccupancyGridmap) (bi : index_t) :
    bi ∈ bundle_indices m ↔ (m.bundle_storage.get bi).isSome = true := by
  have h := find_eq_none_iff m.bundle_storage.data bi
  unfold bundle_indices Storage.get
  cases hf : Storage.find m.bundle_storage.data bi with
  | none => simpa using h.mp hf
  | some b =>
    have : ¬ (bi ∉ m.bundle_storage.data.map Prod.fst) := fun c => by
      rw [h.mpr c] at hf
      exact absurd hf (by simp)
    simpa using this

theorem foldl_append_index {α : Type} (l : List (index_t × α)) (indices : List index_t) :
    l.foldl (fun acc e => acc ++ [e.1]) indices = indices ++ l.map Prod.fst := by
  induction l generalizing indices with
  | nil => simp
  | cons e es ih => simp [ih]

theorem countP_eq_of_nodup (l : List index_t) (bi : index_t) (h : l.Nodup) :
    l.countP (fun x => decide (x = bi)) = if bi ∈ l then 1 else 0 := by
  induction l with
  | nil => simp
  | cons a as ih =>
    rw [List.nodup_cons] at h
    rw [List.countP_cons, ih h.2]
    by_cases ha : a = bi
    · subst ha
      simp [h.1]
    · have h2 : ¬ bi = a := fun c => ha c.symm
      simp [ha, h2]

/-- C11: `getBundleIndices` returns the vector it was given followed by the indices of the
materialized bundles, and the state unchanged. An index is listed exactly when a bundle is
stored at it. In every state reached by public methods from a map whose bundle storage was
empty (as the constructors leave it) no index is listed twice. -/
theorem getBundleIndices_appends (E : Env) (m m0 : OccupancyGridmap) (ops : List operation)
    (indices : List index_t) (hfresh : m0.bundle_storage.data = []) :
    getBundleIndices m indices = (indices ++ bundle_indices m, m) ∧
    (∀ bi, bi ∈ bundle_indices m ↔ (m.bundle_storage.get bi).isSome = true) ∧
    getBundleIndices (run E m0 ops) indices =
      (indices ++ bundle_indices (run E m0 ops), run E m0 ops) ∧
    (bundle_indices (run E m0 ops)).Nodup ∧
    (∀ bi, (bundle_indices (run E m0 ops)).countP (fun x => decide (x = bi)) =
      if ((run E m0 ops).bundle_storage.get bi).isSome = true then 1 else 0) := by
  have hget : ∀ st : OccupancyGridmap,
      getBundleIndices st indices = (indices ++ bundle_indices st, st) := by
    intro st
    simp only [getBundleIndices, Storage.traverse, bundle_indices, foldl_append_index]
  have hnd : (bundle_indices (run E m0 ops)).Nodup :=
    evolves_distinct (evolves_run E m0 ops) (by simp [bundle_indices, hfresh])
  refine ⟨hget m, mem_bundle_indices m, hget _, hnd, fun bi => ?_⟩
  rw [countP_eq_of_nodup _ bi hnd]
  by_cases hs : ((run E m0 ops).bundle_storage.get bi).isSome = true
  · rw [if_pos hs, if_pos ((mem_bundle_indices _ bi).mpr hs)]
  · rw [if_neg hs, if_neg (fun hm => hs ((mem_bundle_indices _ bi).mp hm))]

/-- Witness of C11: the example calls on the fresh example map. -/
theorem getBundleIndices_appends_witness :
    getBundleIndices (run sample_env sample_map sample_ops) [(7, 7)] =
      ([(7, 7)] ++ bundle_indices (run sample_env sample_map sample_ops),
        run sample_env sample_map sample_ops) ∧
    (bundle_indices (run sample_env sample_map sample_ops)).Nodup :=
  ⟨(getBundleIndices_appends sample_env sample_map sample_map sample_ops [(7, 7)] rfl).2.2.1,
   (getBundleIndices_appends sample_env sample_map sample_map sample_ops [(7, 7)] rfl).2.2.2.1⟩

/-- C12: every public method, and every sequence of public methods, only appends to the bundle
storage: a bundle stored at an index before the call is stored at that index, with the same
four slots, after the call; no stored bundle is removed or replaced. -/
theorem bundles_are_stable (E : Env) (m : OccupancyGridmap) (op : operation)
    (ops : List operation) :
    (∀ bi b, m.bundle_storage.get bi = some b →
      (apply_op E m op).bundle_storage.get bi = some b) ∧
    (∃ extra, (apply_op E m op).bundle_storage.data = m.bundle_storage.data ++ extra) ∧
    (∀ bi b, m.bundle_storage.get bi = some b →
      (run E m ops).bundle_storage.get bi = some b) ∧
    (∃ extra, (run E m ops).bundle_storage.data = m.bundle_storage.data ++ extra) :=
  ⟨fun bi b hb => evolves_keeps_stored (evolves_apply_op E m op) bi b hb,
   evolves_grows (evolves_apply_op E m op),
   fun bi b hb => evolves_keeps_stored (evolves_run E m ops) bi b hb,
   evolves_grows (evolves_run E m ops)⟩

/-- Witness of C12: the bundle created at (2, 2) by a first beam on the example map is
still stored, with the same slots, after the example calls. -/
theorem bundles_are_stable_witness :
    (run sample_env (add sample_env sample_map ⟨1/4, 1/4⟩ ⟨1, 1⟩)
      sample_ops).bundle_storage.get (2, 2) = some ⟨(1, 1), (1, 1), (1, 1), (1, 1)⟩ :=
  (bundles_are_stable sample_env (add sample_env sample_map ⟨1/4, 1/4⟩ ⟨1, 1⟩)
    operation.accessor sample_ops).2.2.1 (2, 2) ⟨(1, 1), (1, 1), (1, 1), (1, 1)⟩ (by decide!)

/-- C20: in every state reached by public methods from a map constructed with origin `o`,
resolution `r` and size `s` (by either constructor), `getBundleResolution()` is r/2,
`getResolution()` is r, `getOrigin()` is o, `getSize()` is s, `getWidth()` is s[0]*r,
`getHeight()` is s[1]*r and `getBundleSize()` is (2*s[0], 2*s[1]); an accessor call leaves the
state as it is. -/
theorem accessors_are_constant (E : Env) (origin : pose_t) (resolution : ℚ)
    (size : Nat × Nat) (ops : List operation) (cos sin : ℚ → ℚ) (x y phi : ℚ) :
    (getBundleResolution (run E (mk_pose origin resolution size) ops) = resolution / 2 ∧
     getResolution (run E (mk_pose origin resolution size) ops) = resolution ∧
     getOrigin (run E (mk_pose origin resolution size) ops) = origin ∧
     getSize (run E (mk_pose origin resolution size) ops) = size ∧
     getWidth (run E (mk_pose origin resolution size) ops) = size.1 * resolution ∧
     getHeight (run E (mk_pose origin resolution size) ops) = size.2 * resolution ∧
     getBundleSize (run E (mk_pose origin resolution size) ops) = (2 * size.1, 2 * size.2) ∧
     apply_op E (run E (mk_pose origin resolution size) ops) operation.accessor =
       run E (mk_pose origin resolution size) ops) ∧
    (getBundleResolution (run E (mk_xyphi cos sin x y phi resolution size) ops) =
       resolution / 2 ∧
     getResolution (run E (mk_xyphi cos sin x y phi resolution size) ops) = resolution ∧
     getOrigin (run E (mk_xyphi cos sin x y phi resolution size) ops) =
       ⟨x, y, cos phi, sin phi⟩ ∧
     getSize (run E (mk_xyphi cos sin x y phi resolution size) ops) = size ∧
     getWidth (run E (mk_xyphi cos sin x y phi resolution size) ops) = size.1 * resolution ∧
     getHeight (run E (mk_xyphi cos sin x y phi resolution size) ops) = size.2 * resolution ∧
     getBundleSize (run E (mk_xyphi cos sin x y phi resolution size) ops) =
       (2 * size.1, 2 * size.2) ∧
     apply_op E (run E (mk_xyphi cos sin x y phi resolution size) ops) operation.accessor =
       run E (mk_xyphi cos sin x y phi resolution size) ops) := by
  have key : ∀ m0 : OccupancyGridmap, m0.bundle_resolution = 0.5 * m0.resolution →
      getBundleResolution (run E m0 ops) = m0.resolution / 2 ∧
      getResolution (run E m0 ops) = m0.resolution ∧
      getOrigin (run E m0 ops) = m0.w_T_m ∧
      getSize (run E m0 ops) = m0.size ∧
      getWidth (run E m0 ops) = m0.size.1 * m0.resolution ∧
      getHeight (run E m0 ops) = m0.size.2 * m0.resolution ∧
      getBundleSize (run E m0 ops) = (2 * m0.size.1, 2 * m0.size.2) ∧
      apply_op E (run E m0 ops) operation.accessor = run E m0 ops := by
    intro m0 hb
    obtain ⟨h1, _, h3, _, h5, _, h7⟩ := evolves_parameters (evolves_run E m0 ops)
    refine ⟨?_, h1, h5, h7, ?_, ?_, ?_, rfl⟩
    · rw [getBundleResolution, h3, hb]
      norm_num
      ring
    · rw [getWidth, h1, h7]
    · rw [getHeight, h1, h7]
    · rw [getBundleSize, h7, Nat.mul_comm, Nat.mul_comm m0.size.2]
  exact ⟨key (mk_pose origin resolution size) rfl,
    key (mk_xyphi cos sin x y phi resolution size) rfl⟩

/-! ## Racing calls of the bundle get-or-create -/

theorem allocate_bundle_eq_slots (m : OccupancyGridmap) (bi : index_t) :
    (allocate_bundle m bi).2 =
      { allocate_slot (allocate_slot (allocate_slot (allocate_slot m 0 (bundle_slots bi).s0)
          1 (bundle_slots bi).s1) 2 (bundle_slots bi).s2) 3 (bundle_slots bi).s3 with
        bundle_storage := m.bundle_storage.insert bi (bundle_slots bi) } := rfl

theorem thread_alone (m : OccupancyGridmap) (bi : index_t) :
    run_schedule m [thread_t.called bi] [0, 0, 0, 0, 0, 0] =
      ((getAllocate m bi).2, [thread_t.returned (getAllocate m bi).1]) := by
  unfold getAllocate
  cases hg : m.bundle_storage.get bi with
  | some b => simp [run_schedule, schedule_step, thread_step, hg]
  | none =>
    simp only [run_schedule, schedule_step, thread_step, hg, List.foldl_cons, List.foldl_nil,
      List.get?_cons_zero, List.set_cons_zero]
    rw [allocate_bundle_eq_slots]
    rfl

/-- C13, the code at the failing input: two threads call the bundle get-or-create for the
never-seen index (0, 0) on the fresh example map. Both run the existence test before either
inserts (schedule: thread 0 tests, thread 1 tests, thread 0 runs to its return, thread 1 runs
to its return). Both threads then insert a bundle at the index: the bundle storage holds two
entries for it. -/
theorem racing_allocation_inserts_twice :
    (run_schedule sample_map [thread_t.called (0, 0), thread_t.called (0, 0)]
      [0, 1, 0, 0, 0, 0, 0, 1, 1, 1, 1, 1]).2 =
      [thread_t.returned (bundle_slots (0, 0)), thread_t.returned (bundle_slots (0, 0))] ∧
    (run_schedule sample_map [thread_t.called (0, 0), thread_t.called (0, 0)]
      [0, 1, 0, 0, 0, 0, 0, 1, 1, 1, 1, 1]).1.bundle_storage.data =
      [((0, 0), bundle_slots (0, 0)), ((0, 0), bundle_slots (0, 0))] := by
  decide!

end OccupancyGridmap

namespace conversion

/-! ## Conversions to dense rasters -/

/-- C14: the probability-grid conversions return the destination pointer they were given, so
no raster is allocated and no error is raised, when the source is null, when (second
overload) the sensor model is null, and when the minimal index of the source has a component
equal to the largest `int` or its maximal index a component equal to the smallest `int`. -/
theorem probability_conversion_no_op (E : Env) (C : conversion_env) (dst : Option grid_t)
    (sampling_resolution : ℚ) (inverse_model : Option inverse_sensor_model_t) :
    probability_from_gridmap E C none dst sampling_resolution = dst ∧
    probability_from_occupancy_gridmap E C none dst sampling_resolution inverse_model = dst ∧
    (∀ s : dynamic_maps.OccupancyGridmap,
      probability_from_occupancy_gridmap E C (some s) dst sampling_resolution none = dst) ∧
    (∀ s : dynamic_maps.Gridmap,
      (s.getMinDistributionIndex.1 = int_max ∨ s.getMinDistributionIndex.2 = int_max ∨
        s.getMaxDistributionIndex.1 = int_min ∨ s.getMaxDistributionIndex.2 = int_min) →
      probability_from_gridmap E C (some s) dst sampling_resolution = dst) ∧
    (∀ s : dynamic_maps.OccupancyGridmap,
      (s.getMinDistributionIndex.1 = int_max ∨ s.getMinDistributionIndex.2 = int_max ∨
        s.getMaxDistributionIndex.1 = int_min ∨ s.getMaxDistributionIndex.2 = int_min) →
      probability_from_occupancy_gridmap E C (some s) dst sampling_resolution inverse_model =
        dst) := by
  refine ⟨rfl, ?_, fun s => rfl, ?_, ?_⟩
  · cases inverse_model <;> rfl
  · intro s h
    have hn : no_bundles s = true := by
      simp only [no_bundles, Bool.or_eq_true, decide_eq_true_eq]
      tauto
    simp [probability_from_gridmap, hn]
  · intro s h
    have hn : no_bundles s = true := by
      simp only [no_bundles, Bool.or_eq_true, decide_eq_true_eq]
      tauto
    cases inverse_model with
    | none => rfl
    | some model => simp [probability_from_occupancy_gridmap, hn]

/-- Witness of C14: the example source without bundles and a null destination. -/
theorem probability_conversion_no_op_witness :
    probability_from_gridmap OccupancyGridmap.sample_env sample_conversion_env
      (some empty_source) none (1/4) = none :=
  (probability_conversion_no_op OccupancyGridmap.sample_env sample_conversion_env none (1/4)
    none).2.2.2.1 empty_source (Or.inl rfl)

/-- C15, the code at the failing input: for the example source without bundles (sentinel
indices) and a null destination, the probability-grid conversion returns the null destination,
but both likelihood-field conversions return a newly constructed raster. -/
theorem likelihood_field_allocates_on_empty_source :
    no_bundles empty_source = true ∧
    probability_from_gridmap OccupancyGridmap.sample_env sample_conversion_env
      (some empty_source) none (1/4) = none ∧
    likelihood_field_from_gridmap sample_conversion_env empty_source none (1/4) 2 (1/2) (1/2) =
      Except.ok (some ⟨⟨transform_t.identity, 1/4, 0, 0, []⟩, 2, 1/2⟩) ∧
    likelihood_field_from_occupancy_gridmap sample_conversion_env empty_occupancy_source none
      (1/4) OccupancyGridmap.sample_ivm 2 (1/2) (1/2) =
      Except.ok (some ⟨⟨transform_t.identity, 1/4, 0, 0, []⟩, 2, 1/2⟩) := by
  refine ⟨by decide!, by decide!, ?_, ?_⟩
  · have h1 : ¬ ¬ (1/2 : ℚ) ≤ 1.0 := by norm_num
    have h2 : ¬ ¬ (1/2 : ℚ) ≥ 0.0 := by norm_num
    rw [likelihood_field_from_gridmap, if_neg h1, if_neg h2]
    exact congrArg (fun r => Except.ok (some r)) (by decide!)
  · have h1 : ¬ ¬ (1/2 : ℚ) ≤ 1.0 := by norm_num
    have h2 : ¬ ¬ (1/2 : ℚ) ≥ 0.0 := by norm_num
    rw [likelihood_field_from_occupancy_gridmap, if_neg h1, if_neg h2]
    exact congrArg (fun r => Except.ok (some r)) (by decide!)

/-- C16, the code at the failing input: the example source with one bundle at the minimal
index and a height marginally below one bundle, sampled at resolution 1/4, gives a raster of
width 2 and height 1 and a block of 2 by 2 output cells. The output cell (1, 0) lies inside
the raster and the sample of the bundle at its position is 2, but the cell is left at 0: the
lambda returned at the cell (0, 1), which lies outside the raster. -/
theorem process_bundle_skips_inside_cell :
    probability_from_gridmap OccupancyGridmap.sample_env sample_conversion_env
      (some short_source) none (1/4) = some ⟨transform_t.identity, 1/4, 1, 2, [2, 0]⟩ ∧
    to_int (short_source.getBundleResolution / (1/4)) = 2 ∧
    sample_gridmap OccupancyGridmap.sample_env
      ⟨0 * short_source.getBundleResolution + 1 * (1/4),
       0 * short_source.getBundleResolution + 0 * (1/4)⟩ sample_bundle = 2 ∧
    (grid_t.mk transform_t.identity (1/4) 1 2 [2, 0]).get 1 0 = some 0 := by
  decide!

/-- C17, the code at the failing input: for the example source, whose one bundle is at
index (0, 0), equal to the minimal and to the maximal index, the probability-grid conversion
writes the sample 2 to the four cells of the block, but the raster of the likelihood-field
conversion before the distance transform is the raster as constructed: the loops over the
indices stop before the maximal index, and no cell holds 1 - 2. -/
theorem likelihood_raster_misses_maximal_index :
    probability_from_gridmap OccupancyGridmap.sample_env sample_conversion_env
      (some sample_source) none (1/4) = some ⟨transform_t.identity, 1/4, 2, 2, [2, 2, 2, 2]⟩ ∧
    (likelihood_raster sample_conversion_env sample_source.sampleNonNormalized sample_source
      (1/4) 2 (1/2)).grid = grid_t.create transform_t.identity (1/4) 2 2 0 ∧
    (likelihood_raster sample_conversion_env sample_source.sampleNonNormalized sample_source
      (1/4) 2 (1/2)).grid.data = [0, 0, 0, 0] := by
  decide!

end conversion

end cslibs_ndt_2d

namespace cslibs_ndt_3d

namespace conversion

/-! ## Conversion of volumetric maps to point clouds -/

theorem foldl_push {α β : Type} (c : α → Prop) [DecidablePred c] (f : α → β) (l : List α)
    (init : List β) :
    l.foldl (fun acc e => if c e then acc else acc ++ [f e]) init =
      init ++ l.filterMap (fun e => if c e then none else some (f e)) := by
  induction l generalizing init with
  | nil => simp
  | cons a as ih =>
    rw [List.foldl_cons, ih]
    by_cases h : c a
    · simp [h]
    · simp [h]

theorem length_filterMap_ite {α β : Type} (c : α → Prop) [DecidablePred c] (f : α → β)
    (l : List α) :
    (l.filterMap (fun e => if c e then none else some (f e))).length =
      l.countP (fun e => decide (¬ c e)) := by
  induction l with
  | nil => simp
  | cons a as ih =>
    by_cases h : c a
    · simp [List.filterMap_cons, List.countP_cons, h, ih]
    · simp [List.filterMap_cons, List.countP_cons, h, ih]

theorem foldl_merge_n (b : Fin 8 → Distribution) (l : List (Fin 8)) (d : Distribution) :
    (l.foldl (fun d i => d.merge (b i)) d).n = d.n + (l.map (fun i => (b i).n)).sum := by
  induction l generalizing d with
  | nil => simp
  | cons a as ih =>
    rw [List.foldl_cons, ih]
    simp [Distribution.merge, Nat.add_assoc]

theorem foldl_merge_occupancy
    (getOccupancy : OccupancyDistribution → cslibs_ndt_2d.inverse_sensor_model_t → ℚ)
    (ivm : cslibs_ndt_2d.inverse_sensor_model_t) (b : Fin 8 → OccupancyDistribution)
    (l : List (Fin 8)) (st : Distribution × ℚ) :
    ((l.foldl
      (fun st i =>
        match (b i).distribution with
        | some d_tmp => (st.1.merge d_tmp, st.2 + 0.125 * getOccupancy (b i) ivm)
        | none => (st.1, st.2 + 0.125 * getOccupancy (b i) ivm)) st).2 =
      st.2 + (l.map (fun i => getOccupancy (b i) ivm)).sum / 8) ∧
    ((l.foldl
      (fun st i =>
        match (b i).distribution with
        | some d_tmp => (st.1.merge d_tmp, st.2 + 0.125 * getOccupancy (b i) ivm)
        | none => (st.1, st.2 + 0.125 * getOccupancy (b i) ivm)) st).1.n =
      st.1.n + (l.map (fun i =>
        match (b i).distribution with
        | some d_tmp => d_tmp.n
        | none => 0)).sum) := by
  induction l generalizing st with
  | nil => simp
  | cons a as ih =>
    rw [List.foldl_cons]
    obtain ⟨h1, h2⟩ := ih (match (b a).distribution with
      | some d_tmp => (st.1.merge d_tmp, st.2 + 0.125 * getOccupancy (b a) ivm)
      | none => (st.1, st.2 + 0.125 * getOccupancy (b a) ivm))
    rw [h1, h2]
    cases hd : (b a).distribution with
    | none =>
      constructor
      · simp only [List.map_cons, List.sum_cons]
        norm_num
        ring
      · simp [hd]
    | some d_tmp =>
      constructor
      · simp only [List.map_cons, List.sum_cons]
        norm_num
        ring
      · simp [hd, Distribution.merge, Nat.add_assoc]

theorem merge_bundle_n (b : Fin 8 → Distribution) :
    (merge_bundle b).getN = ∑ i : Fin 8, (b i).n := by
  unfold merge_bundle Distribution.getN
  rw [foldl_merge_n, Fin.sum_univ_def]
  simp [Distribution.empty]

theorem merge_occupancy_bundle_eq
    (getOccupancy : OccupancyDistribution → cslibs_ndt_2d.inverse_sensor_model_t → ℚ)
    (ivm : cslibs_ndt_2d.inverse_sensor_model_t) (b : Fin 8 → OccupancyDistribution) :
    (merge_occupancy_bundle getOccupancy ivm b).2 = (∑ i : Fin 8, getOccupancy (b i) ivm) / 8 ∧
    (merge_occupancy_bundle getOccupancy ivm b).1.getN =
      ∑ i : Fin 8, (match (b i).distribution with
        | some d_tmp => d_tmp.n
        | none => 0) := by
  obtain ⟨h1, h2⟩ := foldl_merge_occupancy getOccupancy ivm b (List.finRange 8)
    (Distribution.empty, 0.0)
  unfold merge_occupancy_bundle Distribution.getN
  refine ⟨?_, ?_⟩
  · rw [h1, Fin.sum_univ_def]
    norm_num
  · rw [h2, Fin.sum_univ_def]
    simp [Distribution.empty]

/-- C19: for a non-null source the point-cloud conversions return a new cloud with, in
traversal order, one point for each materialized bundle that qualifies and none for the
others, so the length of the cloud is the number of qualifying bundles. In the `Gridmap`
overload a bundle qualifies when the merge of its eight Distributions has a non-zero sample
count, which is the sum of the eight counts; in the `OccupancyGridmap` overload it must also
have a merged occupancy, the mean of the eight occupancies, that is not below the threshold.
The point lies at the mean of the merged Distribution and its intensity is the
non-normalized sample of the map at that mean. -/
theorem pointcloud_one_point_per_bundle
    (getOccupancy : OccupancyDistribution → cslibs_ndt_2d.inverse_sensor_model_t → ℚ)
    (s : dynamic_maps.Gridmap) (os : dynamic_maps.OccupancyGridmap)
    (dst : Option (List PointXYZI)) (ivm : cslibs_ndt_2d.inverse_sensor_model_t)
    (threshold : ℚ) :
    pointcloud_from_gridmap (some s) dst =
      some (s.traverse.filterMap (fun e =>
        if (merge_bundle e.2).getN = 0 then none
        else some ⟨(merge_bundle e.2).getMean.x, (merge_bundle e.2).getMean.y,
          (merge_bundle e.2).getMean.z, s.sampleNonNormalized (merge_bundle e.2).getMean⟩)) ∧
    (pointcloud_from_gridmap (some s) dst).map List.length =
      some (s.traverse.countP (fun e => decide (¬ (merge_bundle e.2).getN = 0))) ∧
    (∀ b : Fin 8 → Distribution, (merge_bundle b).getN = ∑ i : Fin 8, (b i).n) ∧
    pointcloud_from_occupancy_gridmap getOccupancy (some os) dst ivm threshold =
      some (os.traverse.filterMap (fun e =>
        if (merge_occupancy_bundle getOccupancy ivm e.2).1.getN = 0 ∨
            (merge_occupancy_bundle getOccupancy ivm e.2).2 < threshold then none
        else some ⟨(merge_occupancy_bundle getOccupancy ivm e.2).1.getMean.x,
          (merge_occupancy_bundle getOccupancy ivm e.2).1.getMean.y,
          (merge_occupancy_bundle getOccupancy ivm e.2).1.getMean.z,
          os.sampleNonNormalized (merge_occupancy_bundle getOccupancy ivm e.2).1.getMean
            ivm⟩)) ∧
    (pointcloud_from_occupancy_gridmap getOccupancy (some os) dst ivm threshold).map
        List.length =
      some (os.traverse.countP (fun e =>
        decide (¬ ((merge_occupancy_bundle getOccupancy ivm e.2).1.getN = 0 ∨
          (merge_occupancy_bundle getOccupancy ivm e.2).2 < threshold)))) ∧
    (∀ b : Fin 8 → OccupancyDistribution,
      (merge_occupancy_bundle getOccupancy ivm b).2 =
        (∑ i : Fin 8, getOccupancy (b i) ivm) / 8 ∧
      (merge_occupancy_bundle getOccupancy ivm b).1.getN =
        ∑ i : Fin 8, (match (b i).distribution with
          | some d_tmp => d_tmp.n
          | none => 0)) ∧
    pointcloud_from_gridmap none dst = dst ∧
    pointcloud_from_occupancy_gridmap getOccupancy none dst ivm threshold = dst := by
  have h1 : pointcloud_from_gridmap (some s) dst =
      some (s.traverse.filterMap (fun e =>
        if (merge_bundle e.2).getN = 0 then none
        else some ⟨(merge_bundle e.2).getMean.x, (merge_bundle e.2).getMean.y,
          (merge_bundle e.2).getMean.z, s.sampleNonNormalized (merge_bundle e.2).getMean⟩)) := by
    simp only [pointcloud_from_gridmap, process_bundle]
    rw [foldl_push (fun e : index_t × (Fin 8 → Distribution) => (merge_bundle e.2).getN = 0)]
    rfl
  have h2 : pointcloud_from_occupancy_gridmap getOccupancy (some os) dst ivm threshold =
      some (os.traverse.filterMap (fun e =>
        if (merge_occupancy_bundle getOccupancy ivm e.2).1.getN = 0 ∨
            (merge_occupancy_bundle getOccupancy ivm e.2).2 < threshold then none
        else some ⟨(merge_occupancy_bundle getOccupancy ivm e.2).1.getMean.x,
          (merge_occupancy_bundle getOccupancy ivm e.2).1.getMean.y,
          (merge_occupancy_bundle getOccupancy ivm e.2).1.getMean.z,
          os.sampleNonNormalized (merge_occupancy_bundle getOccupancy ivm e.2).1.getMean
            ivm⟩)) := by
    simp only [pointcloud_from_occupancy_gridmap, process_occupancy_bundle]
    rw [foldl_push (fun e : index_t × (Fin 8 → OccupancyDistribution) =>
      (merge_occupancy_bundle getOccupancy ivm e.2).1.getN = 0 ∨
        (merge_occupancy_bundle getOccupancy ivm e.2).2 < threshold)]
    rfl
  refine ⟨h1, ?_, merge_bundle_n, h2, ?_, merge_occupancy_bundle_eq getOccupancy ivm, rfl, rfl⟩
  · rw [h1, Option.map_some', length_filterMap_ite]
  · rw [h2, Option.map_some', length_filterMap_ite]

end conversion

end cslibs_ndt_3d

namespace cslibs_ndt_2d

namespace OccupancyGridmap

/-! ## Structure of the storages -/

theorem well_formed_mk_xyphi (cos sin : ℚ → ℚ) (x y phi resolution : ℚ) (size : Nat × Nat) :
    well_formed (mk_xyphi cos sin x y phi resolution size) := by
  intro e he
  simp [mk_xyphi, Storage.set_array_size, Storage.empty] at he

theorem well_formed_run (E : Env) (m : OccupancyGridmap) (h : well_formed m)
    (ops : List operation) : well_formed (run E m ops) :=
  evolves_well_formed (evolves_run E m ops) h

theorem getAllocate_populated {m : OccupancyGridmap} (h : well_formed m) (bi : index_t) :
    (getAllocate m bi).1 = bundle_slots bi ∧
    ∀ k : Fin 4, ((getAllocate m bi).2.cell k ((getAllocate m bi).1.slot k)).isSome = true := by
  refine ⟨getAllocate_fst_of_well_formed h bi, fun k => ?_⟩
  rw [getAllocate_fst_of_well_formed h bi]
  exact cell_getAllocate_slot h bi k

theorem cell_allocate_slot_self (m : OccupancyGridmap) (k : Fin 4) (i : index_t) :
    ((allocate_slot m k i).cell k i).isSome = true := by
  simp only [cell, allocate_slot, Function.update_same]
  exact getAllocate_cell_get_self _ _

theorem cell_allocate_slot_keeps (m : OccupancyGridmap) (k k2 : Fin 4) (i c : index_t)
    (h : (m.cell k2 c).isSome = true) : ((allocate_slot m k i).cell k2 c).isSome = true := by
  by_cases hk : k2 = k
  · subst hk
    simp only [cell, allocate_slot, Function.update_same]
    obtain ⟨d, hd⟩ := Option.isSome_iff_exists.mp h
    rw [getAllocate_cell_get_of_some _ _ _ d hd]
    rfl
  · simp only [cell, allocate_slot, Function.update_noteq hk]
    exact h

theorem reachable_complete (E : Env) (m0 : OccupancyGridmap) (h0 : well_formed m0)
    (ops : List operation) :
    (∀ e ∈ (run E m0 ops).bundle_storage.data,
      e.2 = bundle_slots e.1 ∧
      ∀ k : Fin 4, ((run E m0 ops).cell k (e.2.slot k)).isSome = true) ∧
    (∀ bi b, (run E m0 ops).bundle_storage.get bi = some b →
      b = bundle_slots bi ∧
      ∀ k : Fin 4, ((run E m0 ops).cell k (b.slot k)).isSome = true) ∧
    (∀ bi, (getAllocate (run E m0 ops) bi).1 = bundle_slots bi ∧
      ∀ k : Fin 4, ((getAllocate (run E m0 ops) bi).2.cell k
        ((getAllocate (run E m0 ops) bi).1.slot k)).isSome = true) :=
  ⟨well_formed_run E m0 h0 ops,
   fun bi b hb => well_formed_get (well_formed_run E m0 h0 ops) bi b hb,
   fun bi => getAllocate_populated (well_formed_run E m0 h0 ops) bi⟩

/-- C21: in every state reached from a freshly constructed map (either constructor) by a
sequence of calls of the public methods, every bundle in the bundle storage has the four slots
of the even/odd decomposition of its own index, and every slot references a cell materialized
in the sub-grid storage of its number; the bundle that the update methods and the sampling
methods obtain from the get-or-create has all four slots populated. In the get-or-create
itself the four sub-grid cells exist before the bundle is inserted: after the four sub-grid
steps the bundle storage is still unchanged and the four cells are materialized. -/
theorem bundles_are_complete (E : Env) (origin : pose_t) (resolution : ℚ) (size : Nat × Nat)
    (cos sin : ℚ → ℚ) (x y phi : ℚ) (ops : List operation) :
    ((∀ e ∈ (run E (mk_pose origin resolution size) ops).bundle_storage.data,
        e.2 = bundle_slots e.1 ∧
        ∀ k : Fin 4, ((run E (mk_pose origin resolution size) ops).cell k
          (e.2.slot k)).isSome = true) ∧
      (∀ bi b, (run E (mk_pose origin resolution size) ops).bundle_storage.get bi = some b →
        b = bundle_slots bi ∧
        ∀ k : Fin 4, ((run E (mk_pose origin resolution size) ops).cell k
          (b.slot k)).isSome = true) ∧
      (∀ bi, (getAllocate (run E (mk_pose origin resolution size) ops) bi).1 = bundle_slots bi ∧
        ∀ k : Fin 4, ((getAllocate (run E (mk_pose origin resolution size) ops) bi).2.cell k
          ((getAllocate (run E (mk_pose origin resolution size) ops) bi).1.slot k)).isSome =
            true)) ∧
    ((∀ e ∈ (run E (mk_xyphi cos sin x y phi resolution size) ops).bundle_storage.data,
        e.2 = bundle_slots e.1 ∧
        ∀ k : Fin 4, ((run E (mk_xyphi cos sin x y phi resolution size) ops).cell k
          (e.2.slot k)).isSome = true) ∧
      (∀ bi b, (run E (mk_xyphi cos sin x y phi resolution size) ops).bundle_storage.get bi =
          some b →
        b = bundle_slots bi ∧
        ∀ k : Fin 4, ((run E (mk_xyphi cos sin x y phi resolution size) ops).cell k
          (b.slot k)).isSome = true) ∧
      (∀ bi, (getAllocate (run E (mk_xyphi cos sin x y phi resolution size) ops) bi).1 =
          bundle_slots bi ∧
        ∀ k : Fin 4, ((getAllocate (run E (mk_xyphi cos sin x y phi resolution size) ops)
          bi).2.cell k ((getAllocate (run E (mk_xyphi cos sin x y phi resolution size) ops)
            bi).1.slot k)).isSome = true)) ∧
    (∀ (m : OccupancyGridmap) (bi : index_t),
      (run_schedule m [thread_t.tested bi none] [0, 0, 0, 0]).2 = [thread_t.allocating bi 4] ∧
      (run_schedule m [thread_t.tested bi none] [0, 0, 0, 0]).1.bundle_storage =
        m.bundle_storage ∧
      (∀ k : Fin 4, ((run_schedule m [thread_t.tested bi none] [0, 0, 0, 0]).1.cell k
        ((bundle_slots bi).slot k)).isSome = true) ∧
      (run_schedule m [thread_t.tested bi none] [0, 0, 0, 0, 0]).1.bundle_storage =
        m.bundle_storage.insert bi (bundle_slots bi)) := by
  refine ⟨reachable_complete E _ (well_formed_mk_pose origin resolution size) ops,
    reachable_complete E _ (well_formed_mk_xyphi cos sin x y phi resolution size) ops, ?_⟩
  intro m bi
  have hrun : run_schedule m [thread_t.tested bi none] [0, 0, 0, 0] =
      (allocate_slot (allocate_slot (allocate_slot (allocate_slot m 0 (bundle_slots bi).s0)
        1 (bundle_slots bi).s1) 2 (bundle_slots bi).s2) 3 (bundle_slots bi).s3,
       [thread_t.allocating bi 4]) := by
    simp only [run_schedule, schedule_step, thread_step, List.foldl_cons, List.foldl_nil,
      List.get?_cons_zero, List.set_cons_zero]
  have hrun5 : run_schedule m [thread_t.tested bi none] [0, 0, 0, 0, 0] =
      ({ allocate_slot (allocate_slot (allocate_slot (allocate_slot m 0 (bundle_slots bi).s0)
          1 (bundle_slots bi).s1) 2 (bundle_slots bi).s2) 3 (bundle_slots bi).s3 with
          bundle_storage := m.bundle_storage.insert bi (bundle_slots bi) },
       [thread_t.returned (bundle_slots bi)]) := by
    simp only [run_schedule, schedule_step, thread_step, List.foldl_cons, List.foldl_nil,
      List.get?_cons_zero, List.set_cons_zero]
    rfl
  refine ⟨by rw [hrun], by rw [hrun]; rfl, ?_, by rw [hrun5]⟩
  intro k
  rw [hrun]
  fin_cases k
  · exact cell_allocate_slot_keeps _ _ _ _ _ (cell_allocate_slot_keeps _ _ _ _ _
      (cell_allocate_slot_keeps _ _ _ _ _ (cell_allocate_slot_self _ _ _)))
  · exact cell_allocate_slot_keeps _ _ _ _ _ (cell_allocate_slot_keeps _ _ _ _ _
      (cell_allocate_slot_self _ _ _))
  · exact cell_allocate_slot_keeps _ _ _ _ _ (cell_allocate_slot_self _ _ _)
  · exact cell_allocate_slot_self _ _ _

/-! ## Sizes of the storages and the cells of a bundle -/

/-- C23, the claim at a concrete map: for the map of 4 by 4 cells the sub-grid storage 1 is
sized (5, 5) and not (5, 4), and the sub-grid storage 2 is sized (5, 5) and not (4, 5). -/
theorem shifted_storages_not_sized_per_axis :
    ((mk_pose transform_t.identity 1 (4, 4)).storage 1).array_size = (5, 5) ∧
    ((mk_pose transform_t.identity 1 (4, 4)).storage 1).array_size ≠ (4 + 1, 4) ∧
    ((mk_pose transform_t.identity 1 (4, 4)).storage 2).array_size = (5, 5) ∧
    ((mk_pose transform_t.identity 1 (4, 4)).storage 2).array_size ≠ (4, 4 + 1) := by
  decide

/-- C23, amended: for either constructor and every cell-count size (w, h), the sub-grid
storage 0 is sized (w, h), each of the three shifted sub-grid storages 1, 2 and 3 is sized
(w + 1, h + 1), and the bundle storage is sized (2w, 2h); the two constructors build the same
storages. -/
theorem storage_sizes (origin : pose_t) (resolution : ℚ) (size : Nat × Nat)
    (cos sin : ℚ → ℚ) (x y phi : ℚ) :
    ((mk_pose origin resolution size).storage 0).array_size = (size.1, size.2) ∧
    ((mk_pose origin resolution size).storage 1).array_size = (size.1 + 1, size.2 + 1) ∧
    ((mk_pose origin resolution size).storage 2).array_size = (size.1 + 1, size.2 + 1) ∧
    ((mk_pose origin resolution size).storage 3).array_size = (size.1 + 1, size.2 + 1) ∧
    (mk_pose origin resolution size).bundle_storage.array_size = (2 * size.1, 2 * size.2) ∧
    (mk_xyphi cos sin x y phi resolution size).storage =
      (mk_pose origin resolution size).storage ∧
    (mk_xyphi cos sin x y phi resolution size).bundle_storage =
      (mk_pose origin resolution size).bundle_storage := by
  refine ⟨rfl, rfl, rfl, rfl, ?_, rfl, rfl⟩
  simp only [mk_pose, Storage.set_array_size, Nat.mul_comm]

/-- C24: for every sub-grid `k` and every cell index `c` of it, the bundle indices whose slot
`k` is the cell `c` are exactly the four indices of a block of 2 by 2 (for the sub-grid 0 and
the cell (i, j): (2i, 2j), (2i+1, 2j), (2i, 2j+1), (2i+1, 2j+1); along an axis on which the
sub-grid is shifted the pair is (2c-1, 2c)), for negative indices too; and two bundle indices
with the same four slots are equal (the slots 0 and 3 already determine the index). -/
theorem bundle_slots_block (k : Fin 4) (c bi bj : index_t) :
    ((bundle_slots bi).slot k = c ↔ bi ∈ slot_block k c) ∧
    (slot_block k c).Nodup ∧ (slot_block k c).length = 4 ∧
    slot_block 0 c = [(2 * c.1, 2 * c.2), (2 * c.1 + 1, 2 * c.2), (2 * c.1, 2 * c.2 + 1),
      (2 * c.1 + 1, 2 * c.2 + 1)] ∧
    slot_block 1 c = [(2 * c.1 - 1, 2 * c.2), (2 * c.1 - 1 + 1, 2 * c.2),
      (2 * c.1 - 1, 2 * c.2 + 1), (2 * c.1 - 1 + 1, 2 * c.2 + 1)] ∧
    slot_block 2 c = [(2 * c.1, 2 * c.2 - 1), (2 * c.1 + 1, 2 * c.2 - 1),
      (2 * c.1, 2 * c.2 - 1 + 1), (2 * c.1 + 1, 2 * c.2 - 1 + 1)] ∧
    slot_block 3 c = [(2 * c.1 - 1, 2 * c.2 - 1), (2 * c.1 - 1 + 1, 2 * c.2 - 1),
      (2 * c.1 - 1, 2 * c.2 - 1 + 1), (2 * c.1 - 1 + 1, 2 * c.2 - 1 + 1)] ∧
    (bundle_slots bj = bundle_slots bi → bj = bi) ∧
    ((bundle_slots bj).slot 0 = (bundle_slots bi).slot 0 →
      (bundle_slots bj).slot 3 = (bundle_slots bi).slot 3 → bj = bi) := by
  obtain ⟨cx, cy⟩ := c
  obtain ⟨bx, by1⟩ := bi
  obtain ⟨jx, jy⟩ := bj
  have hinj : (bundle_slots (jx, jy)).slot 0 = (bundle_slots (bx, by1)).slot 0 →
      (bundle_slots (jx, jy)).slot 3 = (bundle_slots (bx, by1)).slot 3 →
      ((jx, jy) : index_t) = (bx, by1) := by
    simp only [bundle_slots, distribution_bundle_t.slot, div, mod, Prod.mk.injEq]
    omega
  refine ⟨?_, ?_, rfl, rfl, rfl, rfl, rfl, ?_, hinj⟩
  · fin_cases k <;>
      simp [slot_block, bundle_slots, distribution_bundle_t.slot, div, mod] <;> omega
  · fin_cases k <;> simp [slot_block]
  · intro h
    exact hinj (by rw [h]) (by rw [h])

/-! ## Sampling a fresh map -/

theorem getAllocate_cell_fresh (s : distribution_storage_t) (i : index_t) (h : s.data = []) :
    (getAllocate_cell s i).data = [(i, OccupancyDistribution.empty)] := by
  have hg : s.get i = none := by simp [Storage.get, h, Storage.find]
  simp [getAllocate_cell, hg, Storage.insert, h]

theorem getAllocate_fresh (m : OccupancyGridmap) (bi : index_t)
    (hb : m.bundle_storage.data = []) (hs : ∀ k, (m.storage k).data = []) :
    (getAllocate m bi).1 = bundle_slots bi ∧
    (getAllocate m bi).2.bundle_storage.data = [(bi, bundle_slots bi)] ∧
    (∀ k, ((getAllocate m bi).2.storage k).data =
      [((bundle_slots bi).slot k, OccupancyDistribution.empty)]) ∧
    (∀ k, (getAllocate m bi).2.cell k ((bundle_slots bi).slot k) =
      some OccupancyDistribution.empty) := by
  have hg : m.bundle_storage.get bi = none := by simp [Storage.get, hb, Storage.find]
  have hga : getAllocate m bi = allocate_bundle m bi := by simp only [getAllocate, hg]
  have hdata : ∀ k, ((allocate_bundle m bi).2.storage k).data =
      [((bundle_slots bi).slot k, OccupancyDistribution.empty)] := fun k => by
    rw [allocate_bundle_storage]
    exact getAllocate_cell_fresh _ _ (hs k)
  rw [hga]
  refine ⟨rfl, ?_, hdata, fun k => ?_⟩
  · rw [allocate_bundle_bundle_storage]
    simp [Storage.insert, hb]
  · simp [cell, Storage.get, hdata k, Storage.find]

theorem sample_fresh (E : Env) (m : OccupancyGridmap) (p : point_t)
    (ivm : inverse_sensor_model_t)
    (hb : m.bundle_storage.data = []) (hs : ∀ k, (m.storage k).data = []) :
    (sample E m p (some ivm)).1 = Except.ok 0 ∧
    (sampleNonNormalized E m p (some ivm)).1 = Except.ok 0 ∧
    (sample E m p (some ivm)).2.bundle_storage.data =
      [(toBundleIndex m p, bundle_slots (toBundleIndex m p))] ∧
    (∀ k, ((sample E m p (some ivm)).2.storage k).data =
      [((bundle_slots (toBundleIndex m p)).slot k, OccupancyDistribution.empty)]) ∧
    getBundleIndices (sample E m p (some ivm)).2 [] =
      ([toBundleIndex m p], (sample E m p (some ivm)).2) ∧
    (sampleNonNormalized E m p (some ivm)).2 = (sample E m p (some ivm)).2 := by
  obtain ⟨h1, h2, h3, h4⟩ := getAllocate_fresh m (toBundleIndex m p) hb hs
  have hstate : (sample E m p (some ivm)).2 = (getAllocate m (toBundleIndex m p)).2 := rfl
  refine ⟨?_, ?_, ?_, ?_, ?_, rfl⟩
  · simp only [sample, sample_bi, h1, h4, sample_cell, OccupancyDistribution.getDistribution,
      OccupancyDistribution.empty]
    norm_num
  · simp only [sampleNonNormalized, sampleNonNormalized_bi, h1, h4, sampleNonNormalized_cell,
      OccupancyDistribution.getDistribution, OccupancyDistribution.empty]
    norm_num
  · rw [hstate]; exact h2
  · rw [hstate]; exact h3
  · rw [hstate]
    simp [getBundleIndices, Storage.traverse, h2]

/-- C27: on a freshly constructed map (either constructor), for every point `p` and every
non-null sensor model, `sample(p, ivm)` and `sampleNonNormalized(p, ivm)` return 0, and the
state after the call holds exactly one bundle, at `toBundleIndex(p)`, and exactly one cell,
default constructed, in each of the four sub-grid storages; `getBundleIndices` on that state
reports exactly the one index. -/
theorem sample_on_fresh_map (E : Env) (origin : pose_t) (resolution : ℚ) (size : Nat × Nat)
    (cos sin : ℚ → ℚ) (x y phi : ℚ) (p : point_t) (ivm : inverse_sensor_model_t) :
    ((sample E (mk_pose origin resolution size) p (some ivm)).1 = Except.ok 0 ∧
      (sampleNonNormalized E (mk_pose origin resolution size) p (some ivm)).1 = Except.ok 0 ∧
      (sample E (mk_pose origin resolution size) p (some ivm)).2.bundle_storage.data =
        [(toBundleIndex (mk_pose origin resolution size) p,
          bundle_slots (toBundleIndex (mk_pose origin resolution size) p))] ∧
      (∀ k, ((sample E (mk_pose origin resolution size) p (some ivm)).2.storage k).data =
        [((bundle_slots (toBundleIndex (mk_pose origin resolution size) p)).slot k,
          OccupancyDistribution.empty)]) ∧
      getBundleIndices (sample E (mk_pose origin resolution size) p (some ivm)).2 [] =
        ([toBundleIndex (mk_pose origin resolution size) p],
          (sample E (mk_pose origin resolution size) p (some ivm)).2) ∧
      (sampleNonNormalized E (mk_pose origin resolution size) p (some ivm)).2 =
        (sample E (mk_pose origin resolution size) p (some ivm)).2) ∧
    ((sample E (mk_xyphi cos sin x y phi resolution size) p (some ivm)).1 = Except.ok 0 ∧
      (sampleNonNormalized E (mk_xyphi cos sin x y phi resolution size) p (some ivm)).1 =
        Except.ok 0 ∧
      (sample E (mk_xyphi cos sin x y phi resolution size) p (some ivm)).2.bundle_storage.data =
        [(toBundleIndex (mk_xyphi cos sin x y phi resolution size) p,
          bundle_slots (toBundleIndex (mk_xyphi cos sin x y phi resolution size) p))] ∧
      (∀ k, ((sample E (mk_xyphi cos sin x y phi resolution size) p
          (some ivm)).2.storage k).data =
        [((bundle_slots (toBundleIndex (mk_xyphi cos sin x y phi resolution size) p)).slot k,
          OccupancyDistribution.empty)]) ∧
      getBundleIndices (sample E (mk_xyphi cos sin x y phi resolution size) p (some ivm)).2 [] =
        ([toBundleIndex (mk_xyphi cos sin x y phi resolution size) p],
          (sample E (mk_xyphi cos sin x y phi resolution size) p (some ivm)).2) ∧
      (sampleNonNormalized E (mk_xyphi cos sin x y phi resolution size) p (some ivm)).2 =
        (sample E (mk_xyphi cos sin x y phi resolution size) p (some ivm)).2) := by
  refine ⟨sample_fresh E _ p ivm rfl (fun k => ?_), sample_fresh E _ p ivm rfl (fun k => ?_)⟩
  · simp only [mk_pose, Storage.set_array_size, Storage.empty]
    split <;> rfl
  · simp only [mk_xyphi, Storage.set_array_size, Storage.empty]
    split <;> rfl

/-! ## The bundle index of a point -/

theorem occupancy_term_bounds (E : Env) (ivm : inverse_sensor_model_t)
    (hocc : ∀ c, 0 ≤ E.getOccupancy c ivm ∧ E.getOccupancy c ivm ≤ 1)
    (c : Option distribution_t) :
    0 ≤ (match c with
      | some d => E.getOccupancy d ivm
      | none => 0) ∧
    (match c with
      | some d => E.getOccupancy d ivm
      | none => 0) ≤ 1 := by
  cases c with
  | none => exact ⟨le_refl _, zero_le_one⟩
  | some d => exact hocc d

theorem quarter_sum_bounds (t : Fin 4 → ℚ) (ht : ∀ k, 0 ≤ t k ∧ t k ≤ 1) :
    0 ≤ 0.25 * (t 0 + t 1 + t 2 + t 3) ∧ 0.25 * (t 0 + t 1 + t 2 + t 3) ≤ 1 := by
  have h0 := ht 0
  have h1 := ht 1
  have h2 := ht 2
  have h3 := ht 3
  have hq : (0.25 : ℚ) = 1 / 4 := by norm_num
  rw [hq]
  constructor <;> linarith [h0.1, h0.2, h1.1, h1.2, h2.1, h2.2, h3.1, h3.2]

theorem occupancy_bounds (E : Env) (ivm : inverse_sensor_model_t)
    (hocc : ∀ c, 0 ≤ E.getOccupancy c ivm ∧ E.getOccupancy c ivm ≤ 1)
    (m : OccupancyGridmap) (bi : index_t) :
    0 ≤ (occupancy E ivm m bi).1 ∧ (occupancy E ivm m bi).1 ≤ 1 :=
  quarter_sum_bounds
    (fun k =>
      match (getDistributionBundle m bi).2.cell k ((getDistributionBundle m bi).1.slot k) with
      | some d => E.getOccupancy d ivm
      | none => 0)
    (fun _ => occupancy_term_bounds E ivm hocc _)

theorem blend_bounds (pf po o : ℚ) (h0 : 0 ≤ o) (h1 : o ≤ 1) :
    min pf po ≤ pf * o + po * (1.0 - o) ∧ pf * o + po * (1.0 - o) ≤ max pf po := by
  rw [literal_one]
  rcases le_total pf po with h | h
  · rw [min_eq_left h, max_eq_right h]
    constructor
    · nlinarith [mul_nonneg (sub_nonneg.2 h) (sub_nonneg.2 h1)]
    · nlinarith [mul_nonneg (sub_nonneg.2 h) h0]
  · rw [min_eq_right h, max_eq_left h]
    constructor
    · nlinarith [mul_nonneg (sub_nonneg.2 h) h0]
    · nlinarith [mul_nonneg (sub_nonneg.2 h) (sub_nonneg.2 h1)]

theorem current_visibility_bounds (E : Env) (ivm ivm_visibility : inverse_sensor_model_t)
    (hocc : ∀ c, 0 ≤ E.getOccupancy c ivm ∧ E.getOccupancy c ivm ≤ 1)
    (start_bi : index_t) (m : OccupancyGridmap) (bi : index_t) :
    min ivm_visibility.getProbFree ivm_visibility.getProbOccupied ≤
      (current_visibility E ivm ivm_visibility start_bi m bi).1 ∧
    (current_visibility E ivm ivm_visibility start_bi m bi).1 ≤
      max ivm_visibility.getProbFree ivm_visibility.getProbOccupied := by
  have h1 := occupancy_bounds E ivm hocc m (current_visibility_x start_bi bi)
  have h2 := occupancy_bounds E ivm hocc
    (occupancy E ivm m (current_visibility_x start_bi bi)).2 (current_visibility_y start_bi bi)
  exact blend_bounds _ _ _ (le_min h1.1 h2.1) (le_trans (min_le_left _ _) h1.2)

theorem current_visibility_unit (E : Env) (ivm ivm_visibility : inverse_sensor_model_t)
    (hpf : 0 ≤ ivm_visibility.getProbFree ∧ ivm_visibility.getProbFree ≤ 1)
    (hpo : 0 ≤ ivm_visibility.getProbOccupied ∧ ivm_visibility.getProbOccupied ≤ 1)
    (hocc : ∀ c, 0 ≤ E.getOccupancy c ivm ∧ E.getOccupancy c ivm ≤ 1)
    (start_bi : index_t) (m : OccupancyGridmap) (bi : index_t) :
    0 ≤ (current_visibility E ivm ivm_visibility start_bi m bi).1 ∧
    (current_visibility E ivm ivm_visibility start_bi m bi).1 ≤ 1 := by
  obtain ⟨h1, h2⟩ := current_visibility_bounds E ivm ivm_visibility hocc start_bi m bi
  exact ⟨le_trans (le_min hpf.1 hpo.1) h1, le_trans h2 (max_le hpf.2 hpo.2)⟩

theorem visibility_trace_bounds (E : Env) (ivm ivm_visibility : inverse_sensor_model_t)
    (start_bi : index_t) (n : Nat)
    (hcv : ∀ m bi, 0 ≤ (current_visibility E ivm ivm_visibility start_bi m bi).1 ∧
      (current_visibility E ivm ivm_visibility start_bi m bi).1 ≤ 1)
    (cells : List index_t) :
    ∀ (v : ℚ) (m : OccupancyGridmap), 0 ≤ v →
      (∀ x ∈ visibility_trace E ivm ivm_visibility start_bi n cells v m, 0 ≤ x ∧ x ≤ v) ∧
      List.Pairwise (fun a b => b ≤ a)
        (v :: visibility_trace E ivm ivm_visibility start_bi n cells v m) := by
  induction cells with
  | nil =>
    intro v m _
    simp [visibility_trace]
  | cons bit rest ih =>
    intro v m hv
    obtain ⟨hf0, hf1⟩ := hcv m bit
    have hv1 : 0 ≤ v * (current_visibility E ivm ivm_visibility start_bi m bit).1 :=
      mul_nonneg hv hf0
    have hle : v * (current_visibility E ivm ivm_visibility start_bi m bit).1 ≤ v :=
      mul_le_of_le_one_right hv hf1
    obtain ⟨ih1, ih2⟩ := ih (v * (current_visibility E ivm ivm_visibility start_bi m bit).1)
      (if v * (current_visibility E ivm ivm_visibility start_bi m bit).1 <
          ivm_visibility.getProbPrior
       then (current_visibility E ivm ivm_visibility start_bi m bit).2
       else updateFree_n (current_visibility E ivm ivm_visibility start_bi m bit).2 bit n) hv1
    have hall : ∀ x ∈ visibility_trace E ivm ivm_visibility start_bi n (bit :: rest) v m,
        0 ≤ x ∧ x ≤ v := by
      intro x hx
      rw [visibility_trace, List.mem_cons] at hx
      rcases hx with rfl | hx
      · exact ⟨hv1, hle⟩
      · exact ⟨(ih1 x hx).1, le_trans (ih1 x hx).2 hle⟩
    refine ⟨hall, List.pairwise_cons.mpr ⟨fun x hx => (hall x hx).2, ?_⟩⟩
    rw [visibility_trace]
    exact ih2

theorem walk_continued_below_prior (E : Env) (ivm ivm_visibility : inverse_sensor_model_t)
    (start_bi : index_t) (n : Nat)
    (hcv : ∀ m bi, 0 ≤ (current_visibility E ivm ivm_visibility start_bi m bi).1 ∧
      (current_visibility E ivm ivm_visibility start_bi m bi).1 ≤ 1)
    (cells : List index_t) :
    ∀ (v : ℚ) (m : OccupancyGridmap), 0 ≤ v → v < ivm_visibility.getProbPrior →
      (insertVisible_walk_continued E ivm ivm_visibility start_bi n cells v m).1.history =
        m.history ∧
      0 ≤ (insertVisible_walk_continued E ivm ivm_visibility start_bi n cells v m).2 ∧
      (insertVisible_walk_continued E ivm ivm_visibility start_bi n cells v m).2 <
        ivm_visibility.getProbPrior := by
  induction cells with
  | nil =>
    intro v m hv hlt
    exact ⟨rfl, hv, hlt⟩
  | cons bit rest ih =>
    intro v m hv hlt
    obtain ⟨hf0, hf1⟩ := hcv m bit
    have hv1 : 0 ≤ v * (current_visibility E ivm ivm_visibility start_bi m bit).1 :=
      mul_nonneg hv hf0
    have hlt1 : v * (current_visibility E ivm ivm_visibility start_bi m bit).1 <
        ivm_visibility.getProbPrior := lt_of_le_of_lt (mul_le_of_le_one_right hv hf1) hlt
    rw [insertVisible_walk_continued, if_pos hlt1]
    obtain ⟨h1, h2, h3⟩ := ih _ (current_visibility E ivm ivm_visibility start_bi m bit).2
      hv1 hlt1
    exact ⟨by rw [h1, current_visibility_history], h2, h3⟩

theorem walk_continued_agrees (E : Env) (ivm ivm_visibility : inverse_sensor_model_t)
    (start_bi : index_t) (n : Nat)
    (hcv : ∀ m bi, 0 ≤ (current_visibility E ivm ivm_visibility start_bi m bi).1 ∧
      (current_visibility E ivm ivm_visibility start_bi m bi).1 ≤ 1)
    (cells : List index_t) :
    ∀ (v : ℚ) (m : OccupancyGridmap), 0 ≤ v →
      ((insertVisible_walk E ivm ivm_visibility start_bi n cells v m).2 = none →
        (insertVisible_walk_continued E ivm ivm_visibility start_bi n cells v m).1.history =
          (insertVisible_walk E ivm ivm_visibility start_bi n cells v m).1.history ∧
        0 ≤ (insertVisible_walk_continued E ivm ivm_visibility start_bi n cells v m).2 ∧
        (insertVisible_walk_continued E ivm ivm_visibility start_bi n cells v m).2 <
          ivm_visibility.getProbPrior) ∧
      (∀ v1, (insertVisible_walk E ivm ivm_visibility start_bi n cells v m).2 = some v1 →
        insertVisible_walk_continued E ivm ivm_visibility start_bi n cells v m =
          ((insertVisible_walk E ivm ivm_visibility start_bi n cells v m).1, v1)) := by
  induction cells with
  | nil =>
    intro v m _
    refine ⟨fun h => ?_, fun v1 h => ?_⟩
    · simp [insertVisible_walk] at h
    · simp only [insertVisible_walk, Option.some.injEq] at h
      rw [← h]
      rfl
  | cons bit rest ih =>
    intro v m hv
    obtain ⟨hf0, hf1⟩ := hcv m bit
    have hv1 : 0 ≤ v * (current_visibility E ivm ivm_visibility start_bi m bit).1 :=
      mul_nonneg hv hf0
    rw [insertVisible_walk_cons, insertVisible_walk_continued]
    by_cases hlt : v * (current_visibility E ivm ivm_visibility start_bi m bit).1 <
        ivm_visibility.getProbPrior
    · rw [if_pos hlt, if_pos hlt]
      refine ⟨fun _ => ?_, fun v1 h => ?_⟩
      · obtain ⟨h1, h2, h3⟩ := walk_continued_below_prior E ivm ivm_visibility start_bi n hcv
          rest _ (current_visibility E ivm ivm_visibility start_bi m bit).2 hv1 hlt
        exact ⟨h1, h2, h3⟩
      · simp at h
    · rw [if_neg hlt, if_neg hlt]
      exact ih _ _ hv1

theorem walk_none_iff_trace (E : Env) (ivm ivm_visibility : inverse_sensor_model_t)
    (start_bi : index_t) (n : Nat) (cells : List index_t) :
    ∀ (v : ℚ) (m : OccupancyGridmap),
      (insertVisible_walk E ivm ivm_visibility start_bi n cells v m).2 = none ↔
        ∃ x ∈ visibility_trace E ivm ivm_visibility start_bi n cells v m,
          x < ivm_visibility.getProbPrior := by
  induction cells with
  | nil =>
    intro v m
    simp [insertVisible_walk, visibility_trace]
  | cons bit rest ih =>
    intro v m
    rw [insertVisible_walk_cons, visibility_trace]
    by_cases hlt : v * (current_visibility E ivm ivm_visibility start_bi m bit).1 <
        ivm_visibility.getProbPrior
    · rw [if_pos hlt]
      exact ⟨fun _ => ⟨_, List.mem_cons_self _ _, hlt⟩, fun _ => rfl⟩
    · rw [if_neg hlt, if_neg hlt, ih]
      constructor
      · rintro ⟨x, hx, hxlt⟩
        exact ⟨x, List.mem_cons_of_mem _ hx, hxlt⟩
      · rintro ⟨x, hx, hxlt⟩
        rcases List.mem_cons.mp hx with rfl | hx
        · exact absurd hxlt hlt
        · exact ⟨x, hx, hxlt⟩

theorem visit_continued_history (E : Env) (ivm ivm_visibility : inverse_sensor_model_t)
    (start_bi : index_t)
    (hcv : ∀ m bi, 0 ≤ (current_visibility E ivm ivm_visibility start_bi m bi).1 ∧
      (current_visibility E ivm ivm_visibility start_bi m bi).1 ≤ 1)
    (start_p : point_t) (m : OccupancyGridmap) (bi : index_t) (d : distribution_t) :
    (insertVisible_visit E ivm ivm_visibility start_bi start_p m bi d).history =
      (insertVisible_visit_continued E ivm ivm_visibility start_bi start_p m bi d).history := by
  unfold insertVisible_visit insertVisible_visit_continued
  cases hd : d.getDistribution with
  | none => rfl
  | some dist =>
    simp only
    obtain ⟨hnone, hsome⟩ := walk_continued_agrees E ivm ivm_visibility start_bi d.numOccupied
      hcv (E.line start_p (m.m_T_w.apply dist.getMean) m.bundle_resolution) 1.0 m
      (by norm_num)
    cases hw : (insertVisible_walk E ivm ivm_visibility start_bi d.numOccupied
        (E.line start_p (m.m_T_w.apply dist.getMean) m.bundle_resolution) 1.0 m).2 with
    | none =>
      obtain ⟨h1, h2, h3⟩ := hnone hw
      simp only
      have hnot : ¬ ((insertVisible_walk_continued E ivm ivm_visibility start_bi d.numOccupied
          (E.line start_p (m.m_T_w.apply dist.getMean) m.bundle_resolution) 1.0 m).2 *
          (current_visibility E ivm ivm_visibility start_bi
            (insertVisible_walk_continued E ivm ivm_visibility start_bi d.numOccupied
              (E.line start_p (m.m_T_w.apply dist.getMean) m.bundle_resolution) 1.0 m).1
            bi).1 ≥ ivm_visibility.getProbPrior) :=
        not_le.mpr (lt_of_le_of_lt (mul_le_of_le_one_right h2 (hcv _ _).2) h3)
      rw [if_neg hnot, current_visibility_history, h1]
    | some v1 =>
      simp only
      rw [hsome v1 hw]

/-- C25: if the free and the occupied probability of `ivm_visibility` and every occupancy
under `ivm` lie in [0, 1], then every visibility factor lies between the smaller and the
larger of the two probabilities, hence in [0, 1]; along a ray the running visibilities,
starting from 1, never increase and stay in [0, 1], so after a value below the prior every
later value is below the prior. The visitor returns early exactly when some running
visibility is below the prior; when it does not, the continued walk is the walk of the
visitor; and in both cases the visitor and the visitor that walks on to the end of the ray
make the same updates. -/
theorem visibility_is_non_increasing (E : Env) (ivm ivm_visibility : inverse_sensor_model_t)
    (start_bi : index_t) (start_p : point_t) (m : OccupancyGridmap) (bi : index_t)
    (d : distribution_t) (n : Nat) (cells : List index_t)
    (hpf : 0 ≤ ivm_visibility.getProbFree ∧ ivm_visibility.getProbFree ≤ 1)
    (hpo : 0 ≤ ivm_visibility.getProbOccupied ∧ ivm_visibility.getProbOccupied ≤ 1)
    (hocc : ∀ c, 0 ≤ E.getOccupancy c ivm ∧ E.getOccupancy c ivm ≤ 1) :
    (∀ st c,
      min ivm_visibility.getProbFree ivm_visibility.getProbOccupied ≤
        (current_visibility E ivm ivm_visibility start_bi st c).1 ∧
      (current_visibility E ivm ivm_visibility start_bi st c).1 ≤
        max ivm_visibility.getProbFree ivm_visibility.getProbOccupied ∧
      0 ≤ (current_visibility E ivm ivm_visibility start_bi st c).1 ∧
      (current_visibility E ivm ivm_visibility start_bi st c).1 ≤ 1) ∧
    List.Pairwise (fun a b => b ≤ a)
      (1.0 :: visibility_trace E ivm ivm_visibility start_bi n cells 1.0 m) ∧
    (∀ x ∈ visibility_trace E ivm ivm_visibility start_bi n cells 1.0 m, 0 ≤ x ∧ x ≤ 1) ∧
    List.Pairwise
      (fun a b => a < ivm_visibility.getProbPrior → b < ivm_visibility.getProbPrior)
      (visibility_trace E ivm ivm_visibility start_bi n cells 1.0 m) ∧
    ((insertVisible_walk E ivm ivm_visibility start_bi n cells 1.0 m).2 = none ↔
      ∃ x ∈ visibility_trace E ivm ivm_visibility start_bi n cells 1.0 m,
        x < ivm_visibility.getProbPrior) ∧
    (∀ v, (insertVisible_walk E ivm ivm_visibility start_bi n cells 1.0 m).2 = some v →
      insertVisible_walk_continued E ivm ivm_visibility start_bi n cells 1.0 m =
        ((insertVisible_walk E ivm ivm_visibility start_bi n cells 1.0 m).1, v)) ∧
    ((insertVisible_walk E ivm ivm_visibility start_bi n cells 1.0 m).2 = none →
      (insertVisible_walk_continued E ivm ivm_visibility start_bi n cells 1.0 m).1.history =
        (insertVisible_walk E ivm ivm_visibility start_bi n cells 1.0 m).1.history ∧
      (insertVisible_walk_continued E ivm ivm_visibility start_bi n cells 1.0 m).2 <
        ivm_visibility.getProbPrior) ∧
    (insertVisible_visit E ivm ivm_visibility start_bi start_p m bi d).history =
      (insertVisible_visit_continued E ivm ivm_visibility start_bi start_p m bi d).history := by
  have hcv := current_visibility_unit E ivm ivm_visibility hpf hpo hocc start_bi
  have hone : (0 : ℚ) ≤ 1.0 := by norm_num
  obtain ⟨ht1, ht2⟩ := visibility_trace_bounds E ivm ivm_visibility start_bi n hcv cells 1.0 m
    hone
  obtain ⟨ha1, ha2⟩ := walk_continued_agrees E ivm ivm_visibility start_bi n hcv cells 1.0 m
    hone
  refine ⟨fun st c => ?_, ht2, fun x hx => ?_, ?_,
    walk_none_iff_trace E ivm ivm_visibility start_bi n cells 1.0 m, ha2,
    fun h => ⟨(ha1 h).1, (ha1 h).2.2⟩,
    visit_continued_history E ivm ivm_visibility start_bi hcv start_p m bi d⟩
  · obtain ⟨h1, h2⟩ := current_visibility_bounds E ivm ivm_visibility hocc start_bi st c
    exact ⟨h1, h2, (hcv st c).1, (hcv st c).2⟩
  · have h := ht1 x hx
    rw [literal_one] at h
    exact h
  · exact (List.pairwise_cons.mp ht2).2.imp (fun hba ha => lt_of_le_of_lt hba ha)

/-- Witness of C25: the example collaborators, whose occupancy is a share of hits, and the
example sensor model, whose probabilities are 3/10 and 7/10, on the ray of the example
hit. -/
theorem visibility_is_non_increasing_witness :
    (insertVisible_visit sample_env sample_ivm sample_ivm (0, 0) ⟨1/4, 1/4⟩ sample_map (2, 2)
        sample_hit).history =
      (insertVisible_visit_continued sample_env sample_ivm sample_ivm (0, 0) ⟨1/4, 1/4⟩
        sample_map (2, 2) sample_hit).history :=
  (visibility_is_non_increasing sample_env sample_ivm sample_ivm (0, 0) ⟨1/4, 1/4⟩ sample_map
    (2, 2) sample_hit 1 [(0, 0), (2, 2)]
    ⟨by norm_num [sample_ivm, inverse_sensor_model_t.getProbFree],
     by norm_num [sample_ivm, inverse_sensor_model_t.getProbFree]⟩
    ⟨by norm_num [sample_ivm, inverse_sensor_model_t.getProbOccupied],
     by norm_num [sample_ivm, inverse_sensor_model_t.getProbOccupied]⟩
    (fun c => by
      have hf : (0 : ℚ) ≤ c.num_free := Nat.cast_nonneg _
      have ho : (0 : ℚ) ≤ c.num_occupied := Nat.cast_nonneg _
      have hpos : (0 : ℚ) < c.num_free + c.num_occupied + 1 := by linarith
      simp only [sample_env]
      exact ⟨div_nonneg ho hpos.le, (div_le_one hpos).mpr (by linarith)⟩)).2.2.2.2.2.2.2

end OccupancyGridmap

namespace conversion

/-! ## The output cells of the probability-grid conversion -/

theorem process_cell_dst_index {B : Type} (sample : point_t → B → ℚ)
    (bundle_resolution sampling_resolution : ℚ) (chunk_step : Int) (min_bi bi : index_t)
    (b : B) (st : grid_t × Bool) (kl : Nat × Nat) :
    process_cell sample bundle_resolution sampling_resolution chunk_step min_bi bi b st kl =
      if st.2 then st
      else if (dst_index chunk_step min_bi bi kl).1 < 0 ∨
          (dst_index chunk_step min_bi bi kl).2 < 0 ∨
          (dst_index chunk_step min_bi bi kl).1 ≥ (st.1.width : Int) ∨
          (dst_index chunk_step min_bi bi kl).2 ≥ (st.1.height : Int) then (st.1, true)
      else
        (st.1.set (dst_index chunk_step min_bi bi kl).1.toNat
          (dst_index chunk_step min_bi bi kl).2.toNat
          (sample ⟨bi.1 * bundle_resolution + kl.1 * sampling_resolution,
                   bi.2 * bundle_resolution + kl.2 * sampling_resolution⟩ b), false) := rfl

theorem mem_chunk_cells (chunk_step : Int) (kl : Nat × Nat) :
    kl ∈ chunk_cells chunk_step ↔ (kl.1 : Int) < chunk_step ∧ (kl.2 : Int) < chunk_step := by
  obtain ⟨k, l⟩ := kl
  simp only [chunk_cells, List.mem_flatMap, List.mem_map, List.mem_range, Prod.mk.injEq]
  constructor
  · rintro ⟨a, ha, c, hc, rfl, rfl⟩
    omega
  · rintro ⟨hk, hl⟩
    exact ⟨k, by omega, l, by omega, rfl, rfl⟩

theorem offset_unique (chunk_step a b : Int) (k k2 : Nat) (hk : (k : Int) < chunk_step)
    (hk2 : (k2 : Int) < chunk_step) (h : a * chunk_step + k = b * chunk_step + k2) :
    a = b ∧ k = k2 := by
  have hpos : 0 < chunk_step := by omega
  have hmod := congrArg (fun v => v % chunk_step) h
  simp only [Int.add_comm (a * chunk_step), Int.add_comm (b * chunk_step),
    Int.add_mul_emod_self] at hmod
  rw [Int.emod_eq_of_lt (by omega) hk, Int.emod_eq_of_lt (by omega) hk2] at hmod
  have hkk : k = k2 := by exact_mod_cast hmod
  subst hkk
  have hmul : a * chunk_step = b * chunk_step := by omega
  exact ⟨Int.eq_of_mul_eq_mul_right (by omega) hmul, rfl⟩

theorem dst_index_injective (chunk_step : Int) (min_bi bi bj : index_t) (kl kl2 : Nat × Nat)
    (hk : kl ∈ chunk_cells chunk_step) (hk2 : kl2 ∈ chunk_cells chunk_step)
    (h : dst_index chunk_step min_bi bi kl = dst_index chunk_step min_bi bj kl2) :
    bi = bj ∧ kl = kl2 := by
  rw [mem_chunk_cells] at hk hk2
  obtain ⟨bx, by1⟩ := bi
  obtain ⟨jx, jy⟩ := bj
  obtain ⟨k, l⟩ := kl
  obtain ⟨k2, l2⟩ := kl2
  simp only [dst_index, Prod.mk.injEq] at h
  obtain ⟨hx1, hx2⟩ := offset_unique chunk_step _ _ k k2 hk.1 hk2.1 h.1
  obtain ⟨hy1, hy2⟩ := offset_unique chunk_step _ _ l l2 hk.2 hk2.2 h.2
  simp only [Prod.mk.injEq]
  omega

theorem nodup_chunk_cells (chunk_step : Int) : (chunk_cells chunk_step).Nodup := by
  unfold chunk_cells
  rw [List.nodup_flatMap]
  refine ⟨fun k _ => ?_, ?_⟩
  · exact List.Nodup.map (fun a b h => (Prod.mk.inj h).2) (List.nodup_range _)
  · refine List.Pairwise.imp_of_mem ?_ (List.nodup_range chunk_step.toNat)
    intro a b _ _ hab
    simp only [Function.onFun, List.disjoint_left, List.mem_map, not_exists, not_and]
    rintro x ⟨c, _, rfl⟩ d _ hd
    exact hab (Prod.mk.inj hd).1.symm

theorem nodup_dst_indices (chunk_step : Int) (min_bi : index_t) (bis : List index_t)
    (hb : bis.Nodup) :
    (bis.flatMap (fun bi => (chunk_cells chunk_step).map (dst_index chunk_step min_bi bi))).Nodup := by
  rw [List.nodup_flatMap]
  refine ⟨fun bi _ => ?_, ?_⟩
  · exact List.Nodup.map_on
      (fun kl hk kl2 hk2 h => (dst_index_injective chunk_step min_bi bi bi kl kl2 hk hk2 h).2)
      (nodup_chunk_cells chunk_step)
  · refine List.Pairwise.imp_of_mem ?_ hb
    intro a b _ _ hab
    simp only [Function.onFun, List.disjoint_left, List.mem_map, not_exists, not_and]
    rintro x ⟨kl, hk, rfl⟩ kl2 hk2 hd
    exact hab (dst_index_injective chunk_step min_bi a b kl kl2 hk hk2 hd.symm).1

theorem raster_position_unique (width x y x2 y2 : Nat) (hx : x < width) (hx2 : x2 < width)
    (h : y * width + x = y2 * width + x2) : x = x2 ∧ y = y2 := by
  have h1 : ((y : Int)) * width + x = (y2 : Int) * width + x2 := by exact_mod_cast h
  obtain ⟨hy, hxx⟩ := offset_unique (width : Int) y y2 x x2 (by exact_mod_cast hx)
    (by exact_mod_cast hx2) h1
  exact ⟨hxx, by exact_mod_cast hy⟩

theorem probability_fill_zero_step {B S : Type} (C : conversion_env)
    (sample : point_t → B → ℚ) (src : source_map B S) (sampling_resolution : ℚ)
    (h : to_int (src.getBundleResolution / sampling_resolution) = 0) :
    probability_fill C sample src sampling_resolution =
      (grid_t.create src.getOrigin sampling_resolution
        (to_size (src.getHeight / sampling_resolution))
        (to_size (src.getWidth / sampling_resolution)) C.default_value).fill 0 := by
  have hstep : ∀ (d : grid_t) (e : index_t × B),
      process_bundle sample src.getBundleResolution sampling_resolution 0
        src.getMinDistributionIndex d e.1 e.2 = d := fun d e => rfl
  simp only [probability_fill, h]
  generalize (grid_t.create src.getOrigin sampling_resolution _ _ C.default_value).fill 0 = d0
  induction src.traverse generalizing d0 with
  | nil => rfl
  | cons e es ih => rw [List.foldl_cons, hstep, ih]

/-- C26: in the probability-grid conversions the output cell of a bundle index and a pair
(k, l) of the two loops (0 <= k, l < chunk_step, which needs chunk_step >= 1) determines the
bundle index and the pair: two distinct bundle indices never have an output cell in common,
distinct pairs of one bundle have distinct output cells, cells inside the raster are stored at
distinct positions of the data, and over a list of distinct bundle indices all output cells
are distinct, so no written value is overwritten. If chunk_step is 0 the conversions of a
source with bundles return the raster as filled with 0: no cell is written. -/
theorem output_cells_are_distinct (E : Env) (C : conversion_env) (chunk_step : Int)
    (min_bi bi bj : index_t) (kl kl2 : Nat × Nat) (bis : List index_t) (width : Nat)
    (sampling_resolution : ℚ) (dst : Option grid_t) (model : inverse_sensor_model_t) :
    (1 ≤ chunk_step → kl ∈ chunk_cells chunk_step → kl2 ∈ chunk_cells chunk_step →
      (dst_index chunk_step min_bi bi kl = dst_index chunk_step min_bi bj kl2 →
        bi = bj ∧ kl = kl2) ∧
      (bi ≠ bj → dst_index chunk_step min_bi bi kl ≠ dst_index chunk_step min_bi bj kl2) ∧
      (kl ≠ kl2 → dst_index chunk_step min_bi bi kl ≠ dst_index chunk_step min_bi bi kl2) ∧
      (0 ≤ (dst_index chunk_step min_bi bi kl).1 → 0 ≤ (dst_index chunk_step min_bi bi kl).2 →
        (dst_index chunk_step min_bi bi kl).1 < width →
        0 ≤ (dst_index chunk_step min_bi bj kl2).1 →
        0 ≤ (dst_index chunk_step min_bi bj kl2).2 →
        (dst_index chunk_step min_bi bj kl2).1 < width →
        (dst_index chunk_step min_bi bi kl).2.toNat * width +
            (dst_index chunk_step min_bi bi kl).1.toNat =
          (dst_index chunk_step min_bi bj kl2).2.toNat * width +
            (dst_index chunk_step min_bi bj kl2).1.toNat →
        bi = bj ∧ kl = kl2)) ∧
    (kl ∈ chunk_cells chunk_step ↔ (kl.1 : Int) < chunk_step ∧ (kl.2 : Int) < chunk_step) ∧
    (bis.Nodup →
      (bis.flatMap (fun b =>
        (chunk_cells chunk_step).map (dst_index chunk_step min_bi b))).Nodup) ∧
    (∀ {B : Type} (sample : point_t → B → ℚ) (br sr : ℚ) (b : B) (st : grid_t × Bool),
      process_cell sample br sr chunk_step min_bi bi b st kl =
        if st.2 then st
        else if (dst_index chunk_step min_bi bi kl).1 < 0 ∨
            (dst_index chunk_step min_bi bi kl).2 < 0 ∨
            (dst_index chunk_step min_bi bi kl).1 ≥ (st.1.width : Int) ∨
            (dst_index chunk_step min_bi bi kl).2 ≥ (st.1.height : Int) then (st.1, true)
        else
          (st.1.set (dst_index chunk_step min_bi bi kl).1.toNat
            (dst_index chunk_step min_bi bi kl).2.toNat
            (sample ⟨bi.1 * br + kl.1 * sr, bi.2 * br + kl.2 * sr⟩ b), false)) ∧
    (∀ s : dynamic_maps.Gridmap, no_bundles s = false →
      to_int (s.getBundleResolution / sampling_resolution) = 0 →
      probability_from_gridmap E C (some s) dst sampling_resolution =
        some ((grid_t.create s.getOrigin sampling_resolution
          (to_size (s.getHeight / sampling_resolution))
          (to_size (s.getWidth / sampling_resolution)) C.default_value).fill 0) ∧
      ∃ g, probability_from_gridmap E C (some s) dst sampling_resolution = some g ∧
        ∀ v ∈ g.data, v = 0) ∧
    (∀ s : dynamic_maps.OccupancyGridmap, no_bundles s = false →
      to_int (s.getBundleResolution / sampling_resolution) = 0 →
      probability_from_occupancy_gridmap E C (some s) dst sampling_resolution (some model) =
        some ((grid_t.create s.getOrigin sampling_resolution
          (to_size (s.getHeight / sampling_resolution))
          (to_size (s.getWidth / sampling_resolution)) C.default_value).fill 0) ∧
      ∃ g, probability_from_occupancy_gridmap E C (some s) dst sampling_resolution
          (some model) = some g ∧
        ∀ v ∈ g.data, v = 0) := by
  have hzero : ∀ (g : grid_t), ∀ v ∈ (g.fill 0).data, v = 0 := by
    intro g v hv
    simp only [grid_t.fill, List.mem_map] at hv
    obtain ⟨_, _, rfl⟩ := hv
    rfl
  refine ⟨?_, mem_chunk_cells chunk_step kl, nodup_dst_indices chunk_step min_bi bis,
    fun sample br sr b st => rfl, ?_, ?_⟩
  · intro _ hk hk2
    have hinj := dst_index_injective chunk_step min_bi
    refine ⟨hinj bi bj kl kl2 hk hk2, fun hne h => hne (hinj bi bj kl kl2 hk hk2 h).1,
      fun hne h => hne (hinj bi bi kl kl2 hk hk2 h).2, ?_⟩
    intro hx hy hxw hx2 hy2 hxw2 hpos
    obtain ⟨h1, h2⟩ := raster_position_unique width _ _ _ _ (by omega) (by omega) hpos
    refine hinj bi bj kl kl2 hk hk2 (Prod.ext ?_ ?_)
    · omega
    · omega
  · intro s hs h0
    have hr : probability_from_gridmap E C (some s) dst sampling_resolution =
        some ((grid_t.create s.getOrigin sampling_resolution
          (to_size (s.getHeight / sampling_resolution))
          (to_size (s.getWidth / sampling_resolution)) C.default_value).fill 0) := by
      simp only [probability_from_gridmap, hs, Bool.false_eq_true, if_false]
      rw [probability_fill_zero_step C _ s sampling_resolution h0]
    exact ⟨hr, _, hr, hzero _⟩
  · intro s hs h0
    have hr : probability_from_occupancy_gridmap E C (some s) dst sampling_resolution
        (some model) =
        some ((grid_t.create s.getOrigin sampling_resolution
          (to_size (s.getHeight / sampling_resolution))
          (to_size (s.getWidth / sampling_resolution)) C.default_value).fill 0) := by
      simp only [probability_from_occupancy_gridmap, hs, Bool.false_eq_true, if_false]
      rw [probability_fill_zero_step C _ s sampling_resolution h0]
    exact ⟨hr, _, hr, hzero _⟩

/-- Witness of C26: with chunk_step 2 and the minimal index (0, 0), the bundle indices (0, 0)
and (1, 0) with the pairs (1, 0) and (0, 0) have different output cells; and the example
source sampled at the resolution 1, coarser than its bundle resolution 1/2, gives a raster of
zeros. -/
theorem output_cells_are_distinct_witness :
    dst_index 2 (0, 0) (0, 0) (1, 0) ≠ dst_index 2 (0, 0) (1, 0) (0, 0) ∧
    ∃ g, probability_from_gridmap OccupancyGridmap.sample_env sample_conversion_env
        (some sample_source) none 1 = some g ∧ ∀ v ∈ g.data, v = 0 :=
  ⟨((output_cells_are_distinct OccupancyGridmap.sample_env sample_conversion_env 2 (0, 0)
      (0, 0) (1, 0) (1, 0) (0, 0) [] 2 1 none OccupancyGridmap.sample_ivm).1
      (by decide) (by decide) (by decide)).2.1 (by decide),
   ((output_cells_are_distinct OccupancyGridmap.sample_env sample_conversion_env 2 (0, 0)
      (0, 0) (1, 0) (1, 0) (0, 0) [] 2 1 none OccupancyGridmap.sample_ivm).2.2.2.2.1
      sample_source (by decide) (by decide!)).2⟩

end conversion

namespace OccupancyGridmap

/-! ## The cells after the updates of a batch -/

theorem updateFree_n_cell {m : OccupancyGridmap} (h : well_formed m) (bi : index_t) (n : Nat)
    (k : Fin 4) (c : index_t) :
    cell_or_empty (updateFree_n m bi n) k c =
      update_cell k c (cell_or_empty m k c) (update_t.free bi n) := by
  rw [updateFree_n_eq, cell_or_empty_update h]
  rfl

theorem updateOccupied_d_cell {m : OccupancyGridmap} (h : well_formed m) (bi : index_t)
    (e : Distribution) (k : Fin 4) (c : index_t) :
    cell_or_empty (updateOccupied_d m bi e) k c =
      update_cell k c (cell_or_empty m k c) (update_t.occupied_distribution bi e) := by
  rw [updateOccupied_d_eq, cell_or_empty_update h]
  rfl

theorem well_formed_updateFree_n {m : OccupancyGridmap} (h : well_formed m) (bi : index_t)
    (n : Nat) : well_formed (updateFree_n m bi n) := by
  rw [updateFree_n_eq]
  exact well_formed_update h _ _ _

theorem well_formed_updateOccupied_d {m : OccupancyGridmap} (h : well_formed m) (bi : index_t)
    (e : Distribution) : well_formed (updateOccupied_d m bi e) := by
  rw [updateOccupied_d_eq]
  exact well_formed_update h _ _ _

theorem foldl_updateFree_n_cells (n : Nat) (l : List index_t) (m : OccupancyGridmap)
    (h : well_formed m) :
    well_formed (l.foldl (fun st x => updateFree_n st x n) m) ∧
    ∀ k c, cell_or_empty (l.foldl (fun st x => updateFree_n st x n) m) k c =
      (l.map (fun x => update_t.free x n)).foldl (update_cell k c) (cell_or_empty m k c) := by
  induction l generalizing m with
  | nil => exact ⟨h, fun _ _ => rfl⟩
  | cons x xs ih =>
    obtain ⟨h1, h2⟩ := ih (updateFree_n m x n) (well_formed_updateFree_n h x n)
    refine ⟨h1, fun k c => ?_⟩
    simp only [List.foldl_cons, List.map_cons]
    rw [h2 k c, updateFree_n_cell h]

theorem insert_visit_cells (E : Env) (m0 m : OccupancyGridmap) (origin : pose_t)
    (e : index_t × distribution_t) (hp : same_parameters m0 m) (h : well_formed m) :
    well_formed (insert_visit E (m0.m_T_w.apply origin.translation) m e.1 e.2) ∧
    ∀ k c, cell_or_empty (insert_visit E (m0.m_T_w.apply origin.translation) m e.1 e.2) k c =
      (visit_updates E m0 origin e).foldl (update_cell k c) (cell_or_empty m k c) := by
  unfold insert_visit visit_updates
  cases hd : e.2.getDistribution with
  | none => exact ⟨h, fun _ _ => rfl⟩
  | some dist =>
    obtain ⟨h1, h2⟩ := foldl_updateFree_n_cells e.2.numOccupied
      (E.line (m0.m_T_w.apply origin.translation) (m.m_T_w.apply dist.getMean)
        m.bundle_resolution) (updateOccupied_d m e.1 dist)
      (well_formed_updateOccupied_d h e.1 dist)
    refine ⟨h1, fun k c => ?_⟩
    simp only
    rw [h2 k c, updateOccupied_d_cell h, hp.2.2.2.2.2.1, hp.2.2.1, List.foldl_cons]

theorem foldl_insert_visit_cells (E : Env) (m0 : OccupancyGridmap) (origin : pose_t)
    (es : List (index_t × distribution_t)) (m : OccupancyGridmap)
    (hp : same_parameters m0 m) (h : well_formed m) :
    well_formed
      (es.foldl (fun st e => insert_visit E (m0.m_T_w.apply origin.translation) st e.1 e.2) m) ∧
    ∀ k c, cell_or_empty
        (es.foldl (fun st e => insert_visit E (m0.m_T_w.apply origin.translation) st e.1 e.2)
          m) k c =
      (es.flatMap (visit_updates E m0 origin)).foldl (update_cell k c) (cell_or_empty m k c) := by
  induction es generalizing m with
  | nil => exact ⟨h, fun _ _ => rfl⟩
  | cons e es ih =>
    obtain ⟨h1, h2⟩ := insert_visit_cells E m0 m origin e hp h
    obtain ⟨h3, h4⟩ := ih _ (insert_visit_history E m0 m origin e hp).1 h1
    refine ⟨h3, fun k c => ?_⟩
    simp only [List.foldl_cons, List.flatMap_cons, List.foldl_append]
    rw [h4 k c, h2 k c]

theorem insert_cells (E : Env) (m : OccupancyGridmap) (origin : pose_t)
    (points : List point_t) (h : well_formed m) :
    well_formed (insert E m origin points) ∧
    ∀ k c, cell_or_empty (insert E m origin points) k c =
      ((hit_indices E m origin points).flatMap
        (fun bi => group_updates E m origin bi (group E m origin points bi))).foldl
        (update_cell k c) (cell_or_empty m k c) := by
  have hlist : (accumulate E m origin points).data.flatMap (visit_updates E m origin) =
      (hit_indices E m origin points).flatMap
        (fun bi => group_updates E m origin bi (group E m origin points bi)) := by
    rw [accumulate_data, List.flatMap_map]
    apply List.flatMap_congr
    intro bi hbi
    exact visit_updates_merged_cell E m origin bi _ (group_ne_nil E m origin points bi hbi)
  obtain ⟨h1, h2⟩ := foldl_insert_visit_cells E m origin (accumulate E m origin points).data m
    (same_parameters_refl m) h
  refine ⟨h1, fun k c => ?_⟩
  rw [← hlist]
  exact h2 k c

theorem foldl_update_cell_free (k : Fin 4) (c : index_t) (n : Nat) (l : List index_t)
    (d : distribution_t) :
    (l.map (fun x => update_t.free x n)).foldl (update_cell k c) d =
      ⟨d.num_free + n * l.countP (fun bi => decide ((bundle_slots bi).slot k = c)),
        d.num_occupied, d.distribution⟩ := by
  induction l generalizing d with
  | nil => simp
  | cons x xs ih =>
    simp only [List.map_cons, List.foldl_cons, List.countP_cons]
    rw [ih]
    by_cases hs : (bundle_slots x).slot k = c
    · simp only [update_cell, hs, if_true, OccupancyDistribution.updateFree_n, decide_True]
      congr 1
      ring
    · simp only [update_cell, hs, if_false, decide_False]
      congr 1

theorem merged_n (g : List point_t) (d : Distribution) :
    (g.foldl Distribution.add d).n = d.n + g.length := by
  induction g generalizing d with
  | nil => rfl
  | cons p ps ih =>
    rw [List.foldl_cons, ih, List.length_cons]
    simp only [Distribution.add]
    omega

theorem single_group (E : Env) (m : OccupancyGridmap) (origin : pose_t)
    (points : List point_t) (bi : index_t) (hne : points ≠ [])
    (hall : ∀ p ∈ points, E.isNormal (origin.apply p) = true ∧
      toBundleIndex m (origin.apply p) = bi) :
    hit_indices E m origin points = [bi] ∧
    group E m origin points bi = points.map origin.apply := by
  have hv : valid_points E origin points = points.map origin.apply := by
    unfold valid_points
    rw [List.filter_eq_self]
    intro pm hpm
    obtain ⟨p, hp, rfl⟩ := List.mem_map.mp hpm
    exact (hall p hp).1
  have hg : group E m origin points bi = points.map origin.apply := by
    unfold group
    rw [hv, List.filter_eq_self]
    intro pm hpm
    obtain ⟨p, hp, rfl⟩ := List.mem_map.mp hpm
    simpa using (hall p hp).2
  refine ⟨?_, hg⟩
  apply eq_singleton_of_nodup _ (nodup_first_occurrences _)
  · intro x hx
    obtain ⟨p, hp, _, e⟩ := (mem_hit_indices E m origin points x).mp hx
    rw [← e, (hall p hp).2]
  · obtain ⟨p, hp⟩ := List.exists_mem_of_ne_nil points hne
    intro hnil
    have hmem := (mem_hit_indices E m origin points bi).mpr ⟨p, hp, hall p hp⟩
    have hnil2 : hit_indices E m origin points = [] := hnil
    rw [hnil2] at hmem
    exact List.not_mem_nil _ hmem

/-- C5: `insert` makes, for each distinct bundle index hit by a valid point and in the order of
the first hits, exactly the updates of its group: one occupied update with the Distribution
merged from the points of the group, then one free update, weighted by the number of points of
the group, on every cell of the one ray from the sensor origin to the mean of the group. The
indices hit are listed once each. On a well-formed map the content of every sub-grid cell after
the call is the content before it with exactly these updates applied, each through the slot of
its bundle that references the cell. For a non-empty cloud of valid points that all map to one
bundle index the updates are one occupied update and one ray whose free updates have the
number of points as weight: a cell referenced by a slot of that bundle gains the number of
points as occupied hits and the merged Distribution, and every cell gains the number of points
as free hits once for each cell of the ray whose bundle references it. -/
theorem insert_groups_updates (E : Env) (m : OccupancyGridmap) (origin : pose_t)
    (points : List point_t) :
    (insert E m origin points).history =
      m.history ++ (hit_indices E m origin points).flatMap
        (fun bi => group_updates E m origin bi (group E m origin points bi)) ∧
    (hit_indices E m origin points).Nodup ∧
    (∀ bi, bi ∈ hit_indices E m origin points ↔
      ∃ p ∈ points, E.isNormal (origin.apply p) = true ∧
        toBundleIndex m (origin.apply p) = bi) ∧
    (∀ bi, points ≠ [] →
      (∀ p ∈ points, E.isNormal (origin.apply p) = true ∧
        toBundleIndex m (origin.apply p) = bi) →
      (insert E m origin points).history =
        m.history ++ update_t.occupied_distribution bi (merged (points.map origin.apply)) ::
          (E.line (m.m_T_w.apply origin.translation)
            (m.m_T_w.apply (merged (points.map origin.apply)).getMean)
            m.bundle_resolution).map (fun c => update_t.free c points.length)) ∧
    (well_formed m →
      well_formed (insert E m origin points) ∧
      ∀ k c, cell_or_empty (insert E m origin points) k c =
        ((hit_indices E m origin points).flatMap
          (fun bi => group_updates E m origin bi (group E m origin points bi))).foldl
          (update_cell k c) (cell_or_empty m k c)) ∧
    (∀ bi, well_formed m → points ≠ [] →
      (∀ p ∈ points, E.isNormal (origin.apply p) = true ∧
        toBundleIndex m (origin.apply p) = bi) →
      ∀ k c,
        (cell_or_empty (insert E m origin points) k c).num_occupied =
          (cell_or_empty m k c).num_occupied +
            (if (bundle_slots bi).slot k = c then points.length else 0) ∧
        (cell_or_empty (insert E m origin points) k c).distribution =
          (if (bundle_slots bi).slot k = c then
            some (((cell_or_empty m k c).distribution.getD Distribution.empty).merge
              (merged (points.map origin.apply)))
           else (cell_or_empty m k c).distribution) ∧
        (cell_or_empty (insert E m origin points) k c).num_free =
          (cell_or_empty m k c).num_free +
            points.length *
              (E.line (m.m_T_w.apply origin.translation)
                (m.m_T_w.apply (merged (points.map origin.apply)).getMean)
                m.bundle_resolution).countP
                (fun x => decide ((bundle_slots x).slot k = c))) := by
  refine ⟨insert_history E m origin points, nodup_first_occurrences _,
    mem_hit_indices E m origin points, ?_, insert_cells E m origin points, ?_⟩
  · intro bi hne hall
    obtain ⟨hh, hg⟩ := single_group E m origin points bi hne hall
    rw [insert_history, hh, List.flatMap_singleton, hg]
    simp [group_updates]
  · intro bi hw hne hall k c
    obtain ⟨hh, hg⟩ := single_group E m origin points bi hne hall
    have hcell := (insert_cells E m origin points hw).2 k c
    rw [hh, List.flatMap_singleton, hg] at hcell
    simp only [group_updates, List.foldl_cons, List.length_map] at hcell
    rw [foldl_update_cell_free] at hcell
    rw [hcell]
    have hn : (merged (points.map origin.apply)).getN = points.length := by
      simp [merged, Distribution.getN, merged_n, Distribution.empty]
    by_cases hs : (bundle_slots bi).slot k = c
    · simp only [update_cell, hs, if_true, OccupancyDistribution.updateOccupied_d, hn]
      exact ⟨trivial, trivial, trivial⟩
    · simp only [update_cell, hs, if_false, Nat.add_zero]
      exact ⟨trivial, trivial, trivial⟩

/-- Witness of C5: three coincident points at (1, 1), which all map to the bundle index
(2, 2), on the fresh example map: one occupied update, one ray of free updates of weight 3,
and the cell (1, 1) of sub-grid 0, which slot 0 of the bundle (2, 2) references, gains the
three occupied hits. -/
theorem insert_groups_updates_witness :
    (insert sample_env sample_map transform_t.identity [⟨1, 1⟩, ⟨1, 1⟩, ⟨1, 1⟩]).history =
      sample_map.history ++
        update_t.occupied_distribution (2, 2)
          (merged (([⟨1, 1⟩, ⟨1, 1⟩, ⟨1, 1⟩] : List point_t).map transform_t.identity.apply)) ::
        (sample_env.line (sample_map.m_T_w.apply transform_t.identity.translation)
          (sample_map.m_T_w.apply
            (merged (([⟨1, 1⟩, ⟨1, 1⟩, ⟨1, 1⟩] : List point_t).map
              transform_t.identity.apply)).getMean)
          sample_map.bundle_resolution).map
          (fun c => update_t.free c ([⟨1, 1⟩, ⟨1, 1⟩, ⟨1, 1⟩] : List point_t).length) ∧
    (cell_or_empty (insert sample_env sample_map transform_t.identity
        [⟨1, 1⟩, ⟨1, 1⟩, ⟨1, 1⟩]) 0 (1, 1)).num_occupied =
      (cell_or_empty sample_map 0 (1, 1)).num_occupied +
        (if (bundle_slots (2, 2)).slot 0 = (1, 1)
         then ([⟨1, 1⟩, ⟨1, 1⟩, ⟨1, 1⟩] : List point_t).length else 0) := by
  have hall : ∀ p ∈ ([⟨1, 1⟩, ⟨1, 1⟩, ⟨1, 1⟩] : List point_t),
      sample_env.isNormal (transform_t.identity.apply p) = true ∧
      toBundleIndex sample_map (transform_t.identity.apply p) = (2, 2) := by
    intro p hp
    simp only [List.mem_cons, List.mem_singleton, List.not_mem_nil, or_false, or_self] at hp
    subst hp
    constructor
    · simp [sample_env, transform_t.apply, transform_t.identity]
    · simp [toBundleIndex, sample_map, mk_pose, transform_t.apply, transform_t.identity,
        transform_t.inverse]
      norm_num
  exact ⟨(insert_groups_updates sample_env sample_map transform_t.identity
      [⟨1, 1⟩, ⟨1, 1⟩, ⟨1, 1⟩]).2.2.2.1 (2, 2) (by simp) hall,
    ((insert_groups_updates sample_env sample_map transform_t.identity
      [⟨1, 1⟩, ⟨1, 1⟩, ⟨1, 1⟩]).2.2.2.2.2 (2, 2) (well_formed_mk_pose _ _ _) (by simp) hall
      0 (1, 1)).1⟩

/-! ## The cells after the terminal update of a ray -/

theorem cell_or_empty_current_visibility (E : Env) (ivm ivm_visibility : inverse_sensor_model_t)
    (start_bi : index_t) (m : OccupancyGridmap) (bi : index_t) (k : Fin 4) (c : index_t) :
    cell_or_empty (current_visibility E ivm ivm_visibility start_bi m bi).2 k c =
      cell_or_empty m k c := by
  rw [current_visibility_snd, cell_or_empty_getAllocate, cell_or_empty_getAllocate]

/-- C9: in the visitor of `insertVisible`, let the walk over the whole ray have completed
without early return, with running visibility `v` in state `m1`. Then the occupied update with
the merged Distribution is made on the endpoint bundle exactly when `v` times the occlusion
blend evaluated at the endpoint index is at least the prior; otherwise the visitor makes no
occupied update. On a well-formed map, when the test passes the endpoint bundle is stored and
every cell that one of its slots references receives the update (its occupied count grows by
the count of the merged Distribution, which is merged into its Distribution, and its free
count stays), while every other cell keeps the content it has after the walk; when the test
fails every cell keeps the content it has after the walk. -/
theorem insertVisible_terminal_update (E : Env) (ivm ivm_visibility : inverse_sensor_model_t)
    (start_bi : index_t) (start_p : point_t) (m m1 : OccupancyGridmap) (bi : index_t)
    (d : distribution_t) (dist : Distribution) (v : ℚ)
    (hd : d.getDistribution = some dist)
    (hwalk : insertVisible_walk E ivm ivm_visibility start_bi d.numOccupied
      (E.line start_p (m.m_T_w.apply dist.getMean) m.bundle_resolution) 1.0 m =
        (m1, some v)) :
    (insertVisible_visit E ivm ivm_visibility start_bi start_p m bi d).history =
      m1.history ++
        (if v * (current_visibility E ivm ivm_visibility start_bi m1 bi).1 ≥
            ivm_visibility.getProbPrior
         then [update_t.occupied_distribution bi dist] else []) ∧
    insertVisible_visit E ivm ivm_visibility start_bi start_p m bi d =
      (if v * (current_visibility E ivm ivm_visibility start_bi m1 bi).1 ≥
          ivm_visibility.getProbPrior
       then updateOccupied_d (current_visibility E ivm ivm_visibility start_bi m1 bi).2 bi dist
       else (current_visibility E ivm ivm_visibility start_bi m1 bi).2) ∧
    m1.history = m.history ++
      (E.line start_p (m.m_T_w.apply dist.getMean) m.bundle_resolution).map
        (fun x => update_t.free x d.numOccupied) ∧
    (well_formed m →
      well_formed (insertVisible_visit E ivm ivm_visibility start_bi start_p m bi d) ∧
      (∀ k c, cell_or_empty
          (insertVisible_visit E ivm ivm_visibility start_bi start_p m bi d) k c =
        if v * (current_visibility E ivm ivm_visibility start_bi m1 bi).1 ≥
            ivm_visibility.getProbPrior ∧ (bundle_slots bi).slot k = c
        then (cell_or_empty m1 k c).updateOccupied_d dist
        else cell_or_empty m1 k c) ∧
      (v * (current_visibility E ivm ivm_visibility start_bi m1 bi).1 ≥
          ivm_visibility.getProbPrior →
        (insertVisible_visit E ivm ivm_visibility start_bi start_p m bi d).bundle_storage.get
            bi = some (bundle_slots bi) ∧
        ∀ k,
          (cell_or_empty (insertVisible_visit E ivm ivm_visibility start_bi start_p m bi d) k
              ((bundle_slots bi).slot k)).num_occupied =
            (cell_or_empty m1 k ((bundle_slots bi).slot k)).num_occupied + dist.getN ∧
          (cell_or_empty (insertVisible_visit E ivm ivm_visibility start_bi start_p m bi d) k
              ((bundle_slots bi).slot k)).distribution =
            some (((cell_or_empty m1 k ((bundle_slots bi).slot k)).distribution.getD
              Distribution.empty).merge dist) ∧
          (cell_or_empty (insertVisible_visit E ivm ivm_visibility start_bi start_p m bi d) k
              ((bundle_slots bi).slot k)).num_free =
            (cell_or_empty m1 k ((bundle_slots bi).slot k)).num_free) ∧
      (¬ v * (current_visibility E ivm ivm_visibility start_bi m1 bi).1 ≥
          ivm_visibility.getProbPrior →
        ∀ k c, cell_or_empty
            (insertVisible_visit E ivm ivm_visibility start_bi start_p m bi d) k c =
          cell_or_empty m1 k c)) := by
  have hv : insertVisible_visit E ivm ivm_visibility start_bi start_p m bi d =
      (if v * (current_visibility E ivm ivm_visibility start_bi m1 bi).1 ≥
          ivm_visibility.getProbPrior
       then updateOccupied_d (current_visibility E ivm ivm_visibility start_bi m1 bi).2 bi dist
       else (current_visibility E ivm ivm_visibility start_bi m1 bi).2) := by
    unfold insertVisible_visit
    simp only [hd, hwalk]
  refine ⟨?_, hv, insertVisible_walk_complete_history E ivm ivm_visibility start_bi
    d.numOccupied _ 1.0 v m m1 hwalk, ?_⟩
  · rw [hv]
    by_cases h : v * (current_visibility E ivm ivm_visibility start_bi m1 bi).1 ≥
        ivm_visibility.getProbPrior
    · rw [if_pos h, if_pos h, updateOccupied_d_history, current_visibility_history]
    · rw [if_neg h, if_neg h, current_visibility_history, List.append_nil]
  · intro hw
    have hev := evolves_insertVisible_walk E ivm ivm_visibility start_bi d.numOccupied
      (E.line start_p (m.m_T_w.apply dist.getMean) m.bundle_resolution) 1.0 m
    rw [hwalk] at hev
    have hw1 : well_formed m1 := evolves_well_formed hev hw
    have hwc : well_formed (current_visibility E ivm ivm_visibility start_bi m1 bi).2 :=
      evolves_well_formed (evolves_current_visibility E ivm ivm_visibility start_bi m1 bi) hw1
    have hcc := cell_or_empty_current_visibility E ivm ivm_visibility start_bi m1 bi
    by_cases h : v * (current_visibility E ivm ivm_visibility start_bi m1 bi).1 ≥
        ivm_visibility.getProbPrior
    · have hv1 : insertVisible_visit E ivm ivm_visibility start_bi start_p m bi d =
          updateOccupied_d (current_visibility E ivm ivm_visibility start_bi m1 bi).2 bi
            dist := by rw [hv, if_pos h]
      have hcell : ∀ k c, cell_or_empty
          (updateOccupied_d (current_visibility E ivm ivm_visibility start_bi m1 bi).2 bi dist)
            k c =
          if (bundle_slots bi).slot k = c then (cell_or_empty m1 k c).updateOccupied_d dist
          else cell_or_empty m1 k c := by
        intro k c
        rw [updateOccupied_d_eq, cell_or_empty_update hwc, hcc]
      rw [hv1]
      refine ⟨well_formed_updateOccupied_d hwc bi dist, fun k c => ?_,
        fun _ => ⟨?_, fun k => ?_⟩, fun hn => absurd h hn⟩
      · rw [hcell k c]
        simp only [h, true_and]
      · rw [updateOccupied_d_eq]
        exact stored_update hwc _ _ _
      · rw [hcell k _, if_pos rfl]
        exact ⟨rfl, rfl, rfl⟩
    · have hv2 : insertVisible_visit E ivm ivm_visibility start_bi start_p m bi d =
          (current_visibility E ivm ivm_visibility start_bi m1 bi).2 := by rw [hv, if_neg h]
      rw [hv2]
      refine ⟨hwc, fun k c => ?_, fun hp => absurd hp h, fun _ => hcc⟩
      rw [hcc k c]
      simp only [h, false_and, if_false]

/-- Witness of C9: the same ray with prior 1/5 completes with running visibility 49/100, and
the occupied update is made on (2, 2) since 343/1000 is at least 1/5: the cell that slot 0 of
the bundle (2, 2) references gains the occupied hits of the merged Distribution. -/
theorem insertVisible_terminal_update_witness :
    (insertVisible_visit sample_env sample_ivm sample_ivm_low (0, 0) ⟨1/4, 1/4⟩ sample_map
        (2, 2) sample_hit).history =
      (insertVisible_walk sample_env sample_ivm sample_ivm_low (0, 0) sample_hit.numOccupied
        (sample_env.line ⟨1/4, 1/4⟩ (sample_map.m_T_w.apply (merged [⟨1, 1⟩]).getMean)
          sample_map.bundle_resolution) 1.0 sample_map).1.history ++
        (if (49/100 : ℚ) * (current_visibility sample_env sample_ivm sample_ivm_low (0, 0)
              (insertVisible_walk sample_env sample_ivm sample_ivm_low (0, 0)
                sample_hit.numOccupied
                (sample_env.line ⟨1/4, 1/4⟩ (sample_map.m_T_w.apply (merged [⟨1, 1⟩]).getMean)
                  sample_map.bundle_resolution) 1.0 sample_map).1 (2, 2)).1 ≥
            sample_ivm_low.getProbPrior
         then [update_t.occupied_distribution (2, 2) (merged [⟨1, 1⟩])] else []) ∧
    (cell_or_empty (insertVisible_visit sample_env sample_ivm sample_ivm_low (0, 0) ⟨1/4, 1/4⟩
        sample_map (2, 2) sample_hit) 0 ((bundle_slots (2, 2)).slot 0)).num_occupied =
      (cell_or_empty
        (insertVisible_walk sample_env sample_ivm sample_ivm_low (0, 0) sample_hit.numOccupied
          (sample_env.line ⟨1/4, 1/4⟩ (sample_map.m_T_w.apply (merged [⟨1, 1⟩]).getMean)
            sample_map.bundle_resolution) 1.0 sample_map).1
        0 ((bundle_slots (2, 2)).slot 0)).num_occupied + (merged [⟨1, 1⟩]).getN := by
  have h := insertVisible_terminal_update sample_env sample_ivm sample_ivm_low (0, 0)
    ⟨1/4, 1/4⟩ sample_map
    (insertVisible_walk sample_env sample_ivm sample_ivm_low (0, 0) sample_hit.numOccupied
      (sample_env.line ⟨1/4, 1/4⟩ (sample_map.m_T_w.apply (merged [⟨1, 1⟩]).getMean)
        sample_map.bundle_resolution) 1.0 sample_map).1
    (2, 2) sample_hit (merged [⟨1, 1⟩]) (49/100)
    (by decide!) (Prod.ext rfl (by decide!))
  exact ⟨h.1, (((h.2.2.2 (well_formed_mk_pose _ _ _)).2.2.1 (by decide!)).2 0).1⟩

end OccupancyGridmap

namespace conversion

/-! ## The raster and the distances of the likelihood-field conversions -/

end conversion

end cslibs_ndt_2d
